import Mathlib

/-!
# Arducam Pivariety V4L2 driver: format/code model, format negotiation, streaming,
selection and capability enumeration

A shallow embedding of `src/arducam.c`.  Machine integers are `Nat`/`Int`
with explicit wrap-around, the I2C bus is an explicit device state together
with a log of the transfers made, and reads outside the populated part of an
array, stores past an array and the dereference of a null pointer are an
explicit fault (`none`).
-/

namespace Arducam

/-! ## Constants -/

/-- `U32_MAX` of the kernel. -/
def U32_MAX : Nat := 0xFFFFFFFF

/-- Modelled from the spec: the sentinel "no data available" register value.  The macro
`NO_DATA_AVAILABLE` is defined in `arducam.h`, which is not part of the sources; the
value is the one of the Pivariety register protocol. -/
def NO_DATA_AVAILABLE : Nat := 0xFFFFFFFE

/-- `EINVAL` of the kernel (returned negated). -/
def EINVAL : Int := 22

/-- `ENODEV` of the kernel (returned negated). -/
def ENODEV : Int := 19

/-- Pads of the sub-device: `enum pad_types`. -/
def IMAGE_PAD : Nat := 0

/-- Second pad of `enum pad_types`. -/
def METADATA_PAD : Nat := 1

/-- Number of pads, last member of `enum pad_types`. -/
def NUM_PADS : Nat := 2

/-- Embedded metadata line width. -/
def ARDUCAM_EMBEDDED_LINE_WIDTH : Nat := 16384

/-- Embedded metadata line count. -/
def ARDUCAM_NUM_EMBEDDED_LINES : Nat := 1

/-! ### CSI-2 data types

Modelled from the spec: the `IMAGE_DT_*` macros live in `arducam.h`, which is not part
of the sources.  They are the MIPI CSI-2 data-type codes; `is_raw` tests the range
`0x28 .. 0x2D` and the fallback of `arducam_csi2_get_fmt_idx_by_code` uses `0x2a` for
8-bit raw, which fixes the raw block. -/

/-- Modelled from the spec: CSI-2 data type of YUV422 8-bit (macro of the absent `arducam.h`). -/
def IMAGE_DT_YUV422_8 : Int := 0x1E

/-- Modelled from the spec: CSI-2 data type of YUV422 10-bit (macro of the absent `arducam.h`). -/
def IMAGE_DT_YUV422_10 : Int := 0x1F

/-- Modelled from the spec: CSI-2 data type of RGB565 (macro of the absent `arducam.h`). -/
def IMAGE_DT_RGB565 : Int := 0x22

/-- Modelled from the spec: CSI-2 data type of RGB888 (macro of the absent `arducam.h`). -/
def IMAGE_DT_RGB888 : Int := 0x24

/-- Modelled from the spec: CSI-2 data type of RAW8 (macro of the absent `arducam.h`). -/
def IMAGE_DT_RAW8 : Int := 0x2A

/-- Modelled from the spec: CSI-2 data type of RAW10 (macro of the absent `arducam.h`). -/
def IMAGE_DT_RAW10 : Int := 0x2B

/-- Modelled from the spec: CSI-2 data type of RAW12 (macro of the absent `arducam.h`). -/
def IMAGE_DT_RAW12 : Int := 0x2C

/-! ### Media bus codes (`linux/media-bus-format.h` of the kernel) -/

/-- Kernel media bus code. -/
def MEDIA_BUS_FMT_SBGGR8_1X8 : Nat := 0x3001
/-- Kernel media bus code. -/
def MEDIA_BUS_FMT_SGBRG8_1X8 : Nat := 0x3013
/-- Kernel media bus code. -/
def MEDIA_BUS_FMT_SGRBG8_1X8 : Nat := 0x3002
/-- Kernel media bus code. -/
def MEDIA_BUS_FMT_SRGGB8_1X8 : Nat := 0x3014
/-- Kernel media bus code. -/
def MEDIA_BUS_FMT_Y8_1X8 : Nat := 0x2001
/-- Kernel media bus code. -/
def MEDIA_BUS_FMT_SBGGR10_1X10 : Nat := 0x3007
/-- Kernel media bus code. -/
def MEDIA_BUS_FMT_SGBRG10_1X10 : Nat := 0x300e
/-- Kernel media bus code. -/
def MEDIA_BUS_FMT_SGRBG10_1X10 : Nat := 0x300a
/-- Kernel media bus code. -/
def MEDIA_BUS_FMT_SRGGB10_1X10 : Nat := 0x300f
/-- Kernel media bus code. -/
def MEDIA_BUS_FMT_Y10_1X10 : Nat := 0x200a
/-- Kernel media bus code. -/
def MEDIA_BUS_FMT_SBGGR12_1X12 : Nat := 0x3008
/-- Kernel media bus code. -/
def MEDIA_BUS_FMT_SGBRG12_1X12 : Nat := 0x3010
/-- Kernel media bus code. -/
def MEDIA_BUS_FMT_SGRBG12_1X12 : Nat := 0x3011
/-- Kernel media bus code. -/
def MEDIA_BUS_FMT_SRGGB12_1X12 : Nat := 0x3012
/-- Kernel media bus code. -/
def MEDIA_BUS_FMT_Y12_1X12 : Nat := 0x2013
/-- Kernel media bus code. -/
def MEDIA_BUS_FMT_YUYV8_1X16 : Nat := 0x2011
/-- Kernel media bus code. -/
def MEDIA_BUS_FMT_YVYU8_1X16 : Nat := 0x2012
/-- Kernel media bus code. -/
def MEDIA_BUS_FMT_UYVY8_1X16 : Nat := 0x200f
/-- Kernel media bus code. -/
def MEDIA_BUS_FMT_VYUY8_1X16 : Nat := 0x2010
/-- Kernel media bus code. -/
def MEDIA_BUS_FMT_YUYV10_1X20 : Nat := 0x200d
/-- Kernel media bus code. -/
def MEDIA_BUS_FMT_YVYU10_1X20 : Nat := 0x200e
/-- Kernel media bus code. -/
def MEDIA_BUS_FMT_UYVY10_1X20 : Nat := 0x201a
/-- Kernel media bus code. -/
def MEDIA_BUS_FMT_VYUY10_1X20 : Nat := 0x201b
/-- Kernel media bus code. -/
def MEDIA_BUS_FMT_RGB565_2X8_LE : Nat := 0x1008
/-- Kernel media bus code. -/
def MEDIA_BUS_FMT_RGB888_1X24 : Nat := 0x100a
/-- Kernel media bus code of the embedded-data pad. -/
def MEDIA_BUS_FMT_SENSOR_DATA : Nat := 0x7002

/-- The supported formats: the master table `codes[]`, five entries per bit depth. -/
def codes : List Nat :=
  [ MEDIA_BUS_FMT_SBGGR8_1X8, MEDIA_BUS_FMT_SGBRG8_1X8, MEDIA_BUS_FMT_SGRBG8_1X8,
    MEDIA_BUS_FMT_SRGGB8_1X8, MEDIA_BUS_FMT_Y8_1X8,
    MEDIA_BUS_FMT_SBGGR10_1X10, MEDIA_BUS_FMT_SGBRG10_1X10, MEDIA_BUS_FMT_SGRBG10_1X10,
    MEDIA_BUS_FMT_SRGGB10_1X10, MEDIA_BUS_FMT_Y10_1X10,
    MEDIA_BUS_FMT_SBGGR12_1X12, MEDIA_BUS_FMT_SGBRG12_1X12, MEDIA_BUS_FMT_SGRBG12_1X12,
    MEDIA_BUS_FMT_SRGGB12_1X12, MEDIA_BUS_FMT_Y12_1X12 ]

/-! ## Format/code model -/

/-- Value of a `u32` object read as an `int` (two's complement, 32 bits). -/
def u32_to_int (u : Nat) : Int :=
  if u % 2 ^ 32 < 2 ^ 31 then ((u % 2 ^ 32 : Nat) : Int) else ((u % 2 ^ 32 : Nat) : Int) - 2 ^ 32

/-- `is_raw`: the raw data types `0x28 .. 0x2D`. -/
def is_raw (pixformat : Int) : Bool :=
  decide (0x28 ≤ pixformat) && decide (pixformat ≤ 0x2D)

/-- Local table `depth8` of `bayer_to_mbus_code`. -/
def bayer_depth8 : List Nat :=
  [ MEDIA_BUS_FMT_SBGGR8_1X8, MEDIA_BUS_FMT_SGBRG8_1X8, MEDIA_BUS_FMT_SGRBG8_1X8,
    MEDIA_BUS_FMT_SRGGB8_1X8, MEDIA_BUS_FMT_Y8_1X8 ]

/-- Local table `depth10` of `bayer_to_mbus_code`. -/
def bayer_depth10 : List Nat :=
  [ MEDIA_BUS_FMT_SBGGR10_1X10, MEDIA_BUS_FMT_SGBRG10_1X10, MEDIA_BUS_FMT_SGRBG10_1X10,
    MEDIA_BUS_FMT_SRGGB10_1X10, MEDIA_BUS_FMT_Y10_1X10 ]

/-- Local table `depth12` of `bayer_to_mbus_code`. -/
def bayer_depth12 : List Nat :=
  [ MEDIA_BUS_FMT_SBGGR12_1X12, MEDIA_BUS_FMT_SGBRG12_1X12, MEDIA_BUS_FMT_SGRBG12_1X12,
    MEDIA_BUS_FMT_SRGGB12_1X12, MEDIA_BUS_FMT_Y12_1X12 ]

/-- `bayer_to_mbus_code`: guard on the order, then a switch on the data type. -/
def bayer_to_mbus_code (data_type : Int) (bayer_order : Int) : Nat :=
  if bayer_order < 0 ∨ bayer_order > 4 then 0
  else if data_type = IMAGE_DT_RAW8 then bayer_depth8.getD bayer_order.toNat 0
  else if data_type = IMAGE_DT_RAW10 then bayer_depth10.getD bayer_order.toNat 0
  else if data_type = IMAGE_DT_RAW12 then bayer_depth12.getD bayer_order.toNat 0
  else 0

/-- Local table `depth8` of `yuv422_to_mbus_code`. -/
def yuv422_depth8 : List Nat :=
  [ MEDIA_BUS_FMT_YUYV8_1X16, MEDIA_BUS_FMT_YVYU8_1X16, MEDIA_BUS_FMT_UYVY8_1X16,
    MEDIA_BUS_FMT_VYUY8_1X16 ]

/-- Local table `depth10` of `yuv422_to_mbus_code`. -/
def yuv422_depth10 : List Nat :=
  [ MEDIA_BUS_FMT_YUYV10_1X20, MEDIA_BUS_FMT_YVYU10_1X20, MEDIA_BUS_FMT_UYVY10_1X20,
    MEDIA_BUS_FMT_VYUY10_1X20 ]

/-- `yuv422_to_mbus_code`: guard on the order, then a switch on the data type. -/
def yuv422_to_mbus_code (data_type : Int) (order : Int) : Nat :=
  if order < 0 ∨ order > 3 then 0
  else if data_type = IMAGE_DT_YUV422_8 then yuv422_depth8.getD order.toNat 0
  else if data_type = IMAGE_DT_YUV422_10 then yuv422_depth10.getD order.toNat 0
  else 0

/-- `data_type_to_mbus_code`: raw types go through the Bayer tables, the others through
the switch; `0` when nothing applies. -/
def data_type_to_mbus_code (data_type : Int) (bayer_order : Int) : Nat :=
  if is_raw data_type then bayer_to_mbus_code data_type bayer_order
  else if data_type = IMAGE_DT_YUV422_8 ∨ data_type = IMAGE_DT_YUV422_10 then
    yuv422_to_mbus_code data_type bayer_order
  else if data_type = IMAGE_DT_RGB565 then MEDIA_BUS_FMT_RGB565_2X8_LE
  else if data_type = IMAGE_DT_RGB888 then MEDIA_BUS_FMT_RGB888_1X24
  else 0

/-- The pairs `(data_type, order)` for which a table entry or a fixed code exists. -/
def has_mbus_code (data_type : Int) (order : Int) : Prop :=
  ((data_type = IMAGE_DT_RAW8 ∨ data_type = IMAGE_DT_RAW10 ∨ data_type = IMAGE_DT_RAW12)
      ∧ 0 ≤ order ∧ order ≤ 4)
  ∨ ((data_type = IMAGE_DT_YUV422_8 ∨ data_type = IMAGE_DT_YUV422_10) ∧ 0 ≤ order ∧ order ≤ 3)
  ∨ data_type = IMAGE_DT_RGB565 ∨ data_type = IMAGE_DT_RGB888

instance (data_type order : Int) : Decidable (has_mbus_code data_type order) := by
  unfold has_mbus_code; infer_instance

/-! ## Register transport -/

/-- Modelled from the spec: the registers of the fixed register map.  The address macros
live in `arducam.h`, which is not part of the sources, so a register is identified by the
name the driver uses for it. -/
inductive Reg
  | arducam_REG_MODE_SELECT
  | DEVICE_VERSION_REG
  | DEVICE_ID_REG
  | SYSTEM_IDLE_REG
  | PIXFORMAT_INDEX_REG
  | PIXFORMAT_TYPE_REG
  | PIXFORMAT_ORDER_REG
  | MIPI_LANES_REG
  | FLIPS_DONT_CHANGE_ORDER_REG
  | RESOLUTION_INDEX_REG
  | FORMAT_WIDTH_REG
  | FORMAT_HEIGHT_REG
  | CTRL_INDEX_REG
  | CTRL_ID_REG
  | CTRL_MIN_REG
  | CTRL_MAX_REG
  | CTRL_STEP_REG
  | CTRL_DEF_REG
  | CTRL_VALUE_REG
  | IPC_SEL_TARGET_REG
  | IPC_SEL_TOP_REG
  | IPC_SEL_LEFT_REG
  | IPC_SEL_WIDTH_REG
  | IPC_SEL_HEIGHT_REG
  deriving DecidableEq

/-- One bus transaction as seen from the driver: a register write with its outcome, or a
register read with the word it delivered (`none` when the transfer failed). -/
inductive BusOp
  | write (addr : Reg) (val : Nat) (ok : Bool)
  | read (addr : Reg) (res : Option Nat)
  deriving DecidableEq

/-- What the driver is built and run against: the build-time macros of `arducam.h` whose
values the sources do not contain, and the attached device behind `i2c_transfer`, a state
machine over `σ` answering one transaction at a time. -/
structure Env (σ : Type) where
  /-- Modelled from the spec: read retry budget, macro of the absent `arducam.h`. -/
  I2C_READ_RETRY_COUNT : Nat
  /-- Modelled from the spec: write retry budget, macro of the absent `arducam.h`. -/
  I2C_WRITE_RETRY_COUNT : Nat
  /-- Modelled from the spec: id of the frame-rate control, macro of the absent `arducam.h`. -/
  V4L2_CID_ARDUCAM_FRAME_RATE : Nat
  /-- One write transaction (`i2c_transfer` of a 6-byte message): success and next state. -/
  xfer_write : σ → Reg → Nat → Bool × σ
  /-- One read transaction (`i2c_transfer` of address and data phase): the word read, if
  the transfer succeeded, and the next state. -/
  xfer_read : σ → Reg → Option Nat × σ

/-- The bus as the driver leaves it: the device state and the transactions made so far,
oldest first. -/
structure Bus (σ : Type) where
  dev : σ
  log : List BusOp
  deriving DecidableEq

/-- `arducam_readl_reg`: one read transaction; `*val` is written only on success. -/
def arducam_readl_reg {σ : Type} (e : Env σ) (w : Bus σ) (addr : Reg) (val : Nat) :
    Int × Nat × Bus σ :=
  match e.xfer_read w.dev addr with
  | (some data, s) => (0, data % 2 ^ 32, { dev := s, log := w.log ++ [BusOp.read addr (some data)] })
  | (none, s) => (-1, val, { dev := s, log := w.log ++ [BusOp.read addr none] })

/-- `arducam_writel_reg`: one write transaction. -/
def arducam_writel_reg {σ : Type} (e : Env σ) (w : Bus σ) (addr : Reg) (val : Nat) :
    Int × Bus σ :=
  match e.xfer_write w.dev addr (val % 2 ^ 32) with
  | (true, s) => (0, { dev := s, log := w.log ++ [BusOp.write addr (val % 2 ^ 32) true] })
  | (false, s) => (-1, { dev := s, log := w.log ++ [BusOp.write addr (val % 2 ^ 32) false] })

/-- The `while (count++ < I2C_READ_RETRY_COUNT)` loop of `arducam_read`, `n` attempts left. -/
def arducam_read_loop {σ : Type} (e : Env σ) (addr : Reg) :
    Nat → Int → Nat → Bus σ → Int × Nat × Bus σ
  | 0, ret, val, w => (ret, val, w)
  | n + 1, _, val, w =>
    match arducam_readl_reg e w addr val with
    | (ret, val1, w1) => if ret = 0 then (ret, val1, w1) else arducam_read_loop e addr n ret val1 w1

/-- `arducam_read`: read with retries.  `val` is what `*value` holds before the call; it
is kept when every attempt fails.  (`ret` is unset in C before the first attempt; the
`-1` is returned only with a zero budget.) -/
def arducam_read {σ : Type} (e : Env σ) (w : Bus σ) (addr : Reg) (val : Nat) :
    Int × Nat × Bus σ :=
  arducam_read_loop e addr e.I2C_READ_RETRY_COUNT (-1) val w

/-- The `while (count++ < I2C_WRITE_RETRY_COUNT)` loop of `arducam_write`. -/
def arducam_write_loop {σ : Type} (e : Env σ) (addr : Reg) (val : Nat) :
    Nat → Int → Bus σ → Int × Bus σ
  | 0, ret, w => (ret, w)
  | n + 1, _, w =>
    match arducam_writel_reg e w addr val with
    | (ret, w1) => if ret = 0 then (ret, w1) else arducam_write_loop e addr val n ret w1

/-- `arducam_write`: write with retries. -/
def arducam_write {σ : Type} (e : Env σ) (w : Bus σ) (addr : Reg) (val : Nat) : Int × Bus σ :=
  arducam_write_loop e addr val e.I2C_WRITE_RETRY_COUNT (-1) w

/-- The polling loop of `wait_for_free`, `n` polls left (the sleeps are not modelled). -/
def wait_for_free_loop {σ : Type} (e : Env σ) : Nat → Nat → Bus σ → Bus σ
  | 0, _, w => w
  | n + 1, value, w =>
    match arducam_read e w Reg.SYSTEM_IDLE_REG value with
    | (ret, value1, w1) =>
      if ret = 0 ∧ value1 = 0 then w1 else wait_for_free_loop e n value1 w1

/-- `wait_for_free`: at most `1000 / interval` polls of the idle register; always
returns 0, so only the bus is returned. -/
def wait_for_free {σ : Type} (e : Env σ) (w : Bus σ) (interval : Nat) : Bus σ :=
  wait_for_free_loop e (1000 / interval) 0 w

/-! ## Session state -/

/-- Modelled from the spec: a Resolution `{width, height}` (`struct arducam_resolution`
of the absent `arducam.h`). -/
structure arducam_resolution where
  width : Nat
  height : Nat
  deriving DecidableEq

/-- Modelled from the spec: a Format (`struct arducam_format` of the absent `arducam.h`),
with the fields the driver uses.  `resolution_set` holds the populated entries of the
array, so `num_resolution_set` is its length. -/
structure arducam_format where
  index : Nat
  mbus_code : Nat
  bayer_order : Nat
  data_type : Nat
  resolution_set : List arducam_resolution
  deriving DecidableEq

/-- Field `num_resolution_set`. -/
def arducam_format.num_resolution_set (f : arducam_format) : Nat := f.resolution_set.length

/-- The fields of the framework's `struct v4l2_ctrl` the driver touches.  `val` is the
value the framework hands to `s_ctrl`. -/
structure v4l2_ctrl where
  id : Nat
  val : Int
  minimum : Int := 0
  maximum : Int := 0
  step : Nat := 0
  default_value : Int := 0
  flags : Nat := 0
  deriving DecidableEq

/-- The framework's `struct v4l2_mbus_framefmt`. -/
structure v4l2_mbus_framefmt where
  width : Nat
  height : Nat
  code : Nat
  field : Nat := 0
  colorspace : Nat := 0
  deriving DecidableEq

/-- The framework's `struct v4l2_subdev_format`: the pad and the format on it. -/
structure v4l2_subdev_format where
  pad : Nat
  format : v4l2_mbus_framefmt
  deriving DecidableEq

/-- `V4L2_FIELD_NONE` of the kernel. -/
def V4L2_FIELD_NONE : Nat := 1

/-- `V4L2_COLORSPACE_SRGB` of the kernel. -/
def V4L2_COLORSPACE_SRGB : Nat := 8

/-- `V4L2_CID_HFLIP` of the kernel. -/
def V4L2_CID_HFLIP : Nat := 0x00980914

/-- `V4L2_CID_VFLIP` of the kernel. -/
def V4L2_CID_VFLIP : Nat := 0x00980915

/-- `V4L2_CID_VBLANK` of the kernel. -/
def V4L2_CID_VBLANK : Nat := 0x009e0901

/-- `V4L2_CID_HBLANK` of the kernel. -/
def V4L2_CID_HBLANK : Nat := 0x009e0902

/-- `V4L2_CID_PIXEL_RATE` of the kernel. -/
def V4L2_CID_PIXEL_RATE : Nat := 0x009f0902

/-- The framework's `struct v4l2_rect`.  `left` and `top` hold the 32-bit pattern of the
`s32` fields: the driver fills them through `arducam_read` and compares them with the
sentinel as `u32`, and never uses their signed value. -/
structure v4l2_rect where
  left : Nat
  top : Nat
  width : Nat
  height : Nat
  deriving DecidableEq

/-- The session, `struct arducam`, with the fields the format, control and streaming
code uses.  `supported_formats` holds the published entries of the array, so
`num_supported_formats` is its length.  `hflip` and `vflip` are the two pointers of the
same name: the control object referred to, or `none` for the null pointer they hold
until the control pass creates the control.  `ctrls` is the 32-entry table of bound
handles up to its first null entry. -/
structure arducam where
  supported_formats : List arducam_format
  current_format_idx : Nat
  current_resolution_idx : Nat
  lanes : Nat
  bayer_order_volatile : Bool
  hflip : Option v4l2_ctrl
  vflip : Option v4l2_ctrl
  streaming : Bool
  wait_until_free : Bool
  ctrls : List v4l2_ctrl
  crop : v4l2_rect := { left := 0, top := 0, width := 0, height := 0 }
  deriving DecidableEq

/-- Field `num_supported_formats`. -/
def arducam.num_supported_formats (priv : arducam) : Nat := priv.supported_formats.length

/-- Value of an `int` passed where a `u32` is expected. -/
def int_to_u32 (i : Int) : Nat := (i % 2 ^ 32).toNat

/-! ## Orientation remap and control write -/

/-- `arducam_get_format_code`: the code of a format under the current flip values.  With
a volatile colour order both `priv->hflip` and `priv->vflip` are dereferenced without a
test; `none` when one of them is the null pointer. -/
def arducam_get_format_code (priv : arducam) (format : arducam_format) : Option Nat :=
  if ¬ priv.bayer_order_volatile then
    some (data_type_to_mbus_code (u32_to_int format.data_type) (u32_to_int format.bayer_order))
  else
    match priv.hflip, priv.vflip with
    | some hflip, some vflip =>
      let i := format.bayer_order
      let i := if hflip.val ≠ 0 then i ^^^ 1 else i
      let i := if vflip.val ≠ 0 then i ^^^ 2 else i
      some (data_type_to_mbus_code (u32_to_int format.data_type) (u32_to_int i))
    | _, _ => none

/-- The loop of `arducam_s_ctrl` over the formats: each entry gets the code
`arducam_get_format_code` computes for it; `none` when a call of it faults. -/
def refresh_format_codes (priv : arducam) : List arducam_format → Option (List arducam_format)
  | [] => some []
  | f :: fs =>
    match arducam_get_format_code priv f with
    | none => none
    | some code =>
      match refresh_format_codes priv fs with
      | none => none
      | some fs1 => some ({ f with mbus_code := code } :: fs1)

/-- The part of `arducam_s_ctrl` after the loop over the formats: the id and value
registers are written; an error is returned when a write failed. -/
def s_ctrl_write {σ : Type} (e : Env σ) (priv1 : arducam) (ctrl : v4l2_ctrl) (w : Bus σ) :
    Int × arducam × Bus σ :=
  match arducam_write e w Reg.CTRL_ID_REG ctrl.id with
  | (ret1, w1) =>
    match arducam_write e w1 Reg.CTRL_VALUE_REG (int_to_u32 ctrl.val) with
    | (ret2, w2) =>
      if ret1 + ret2 < 0 then (-EINVAL, priv1, w2)
      else if priv1.wait_until_free then (0, priv1, wait_for_free e w2 1)
      else (0, priv1, w2)

/-- `arducam_s_ctrl`: for a flip id every format's code is recomputed first; then the id
and value registers are written.  `none` when the recomputation dereferences a null flip
pointer. -/
def arducam_s_ctrl {σ : Type} (e : Env σ) (priv : arducam) (ctrl : v4l2_ctrl) (w : Bus σ) :
    Option (Int × arducam × Bus σ) :=
  if ctrl.id = V4L2_CID_VFLIP ∨ ctrl.id = V4L2_CID_HFLIP then
    match refresh_format_codes priv priv.supported_formats with
    | none => none
    | some formats => some (s_ctrl_write e { priv with supported_formats := formats } ctrl w)
  else some (s_ctrl_write e priv ctrl w)

/-- `EBUSY` of the kernel. -/
def EBUSY : Int := 16

/-- `V4L2_CTRL_FLAG_GRABBED` of the kernel. -/
def V4L2_CTRL_FLAG_GRABBED : Nat := 0x0002

/-- Modelled from the spec: the control object the control framework (kernel code, not
part of the sources) finds for an id: the flip ids reach the objects behind `hflip` and
`vflip` of the session, every other id the bound control with that id. -/
def find_control (priv : arducam) (id : Nat) : Option v4l2_ctrl :=
  if id = V4L2_CID_HFLIP then priv.hflip
  else if id = V4L2_CID_VFLIP then priv.vflip
  else priv.ctrls.find? (fun c => c.id = id)

/-- Modelled from the spec: the framework storing a new value in the control object of an
id. -/
def store_control (priv : arducam) (id : Nat) (ctrl : v4l2_ctrl) : arducam :=
  if id = V4L2_CID_HFLIP then { priv with hflip := some ctrl }
  else if id = V4L2_CID_VFLIP then { priv with vflip := some ctrl }
  else { priv with ctrls := priv.ctrls.map (fun c1 => if c1.id = id then ctrl else c1) }

/-- Modelled from the spec: `set_control(id, value)`, the entry of the control framework
(kernel code, not part of the sources).  An id without a bound control is refused
("unknown control", `-EINVAL`), a control marked non-modifiable (grabbed) is refused with
`-EBUSY`; both leave session and bus untouched.  Otherwise the framework stores the
requested value in the control object and calls the driver's `s_ctrl` on it. -/
def set_control {σ : Type} (e : Env σ) (priv : arducam) (id : Nat) (value : Int) (w : Bus σ) :
    Option (Int × arducam × Bus σ) :=
  match find_control priv id with
  | none => some (-EINVAL, priv, w)
  | some c =>
    if c.flags &&& V4L2_CTRL_FLAG_GRABBED ≠ 0 then some (- EBUSY, priv, w)
    else
      arducam_s_ctrl e (store_control priv id { c with id := id, val := value })
        { c with id := id, val := value } w

/-! ## Pad operations -/

/-- The framework's `struct v4l2_subdev_mbus_code_enum`. -/
structure v4l2_subdev_mbus_code_enum where
  pad : Nat
  index : Nat
  code : Nat
  deriving DecidableEq

/-- `arducam_csi2_enum_mbus_code`: the code of the format at `code->index`.  (The last
branch of the inner match is not reachable: the index is below the count there.) -/
def arducam_csi2_enum_mbus_code (priv : arducam) (code : v4l2_subdev_mbus_code_enum) :
    Int × v4l2_subdev_mbus_code_enum :=
  if code.pad ≥ NUM_PADS then (-EINVAL, code)
  else if code.pad = IMAGE_PAD then
    if code.index ≥ priv.num_supported_formats then (-EINVAL, code)
    else
      match priv.supported_formats[code.index]? with
      | some f => (0, { code with code := f.mbus_code })
      | none => (-EINVAL, code)
  else if code.index > 0 then (-EINVAL, code)
  else (0, { code with code := MEDIA_BUS_FMT_SENSOR_DATA })

/-- `arducam_update_metadata_pad_format`. -/
def arducam_update_metadata_pad_format (fmt : v4l2_subdev_format) : v4l2_subdev_format :=
  { fmt with format :=
      { fmt.format with
        width := ARDUCAM_EMBEDDED_LINE_WIDTH, height := ARDUCAM_NUM_EMBEDDED_LINES,
        code := MEDIA_BUS_FMT_SENSOR_DATA, field := V4L2_FIELD_NONE } }

/-- `arducam_csi2_get_fmt`: the current format and resolution.  `none` when an index
points outside the populated entries (an access the C code makes unchecked). -/
def arducam_csi2_get_fmt (priv : arducam) (format : v4l2_subdev_format) :
    Option (Int × v4l2_subdev_format) :=
  if format.pad ≥ NUM_PADS then some (-EINVAL, format)
  else if format.pad = IMAGE_PAD then
    match priv.supported_formats[priv.current_format_idx]? with
    | none => none
    | some current_format =>
      match current_format.resolution_set[priv.current_resolution_idx]? with
      | none => none
      | some r =>
        some (0, { format with format :=
          { width := r.width, height := r.height, code := current_format.mbus_code,
            field := V4L2_FIELD_NONE, colorspace := V4L2_COLORSPACE_SRGB } })
  else some (0, arducam_update_metadata_pad_format format)

/-- First loop of `arducam_csi2_get_fmt_idx_by_code`: the position of the code in the
table, counted from `i`; the position after the last entry when it is absent. -/
def codes_scan (mbus_code : Nat) : List Nat → Nat → Nat
  | [], i => i
  | c :: cs, i => if c = mbus_code then i else codes_scan mbus_code cs (i + 1)

/-- A `for` loop over an array that leaves with the index of the first entry passing a
test: the index counted from `i`, or `none` when the loop runs to its end. -/
def first_match {α : Type} (p : α → Bool) : List α → Nat → Option Nat
  | [], _ => none
  | x :: xs, i => if p x then some i else first_match p xs (i + 1)

/-- Second loop of `arducam_csi2_get_fmt_idx_by_code`: first format with that code. -/
def fmt_scan_code (mbus_code : Nat) (formats : List arducam_format) : Option Nat :=
  first_match (fun f => decide (f.mbus_code = mbus_code)) formats 0

/-- Third loop of `arducam_csi2_get_fmt_idx_by_code`: first format of that data type. -/
def fmt_scan_data_type (data_type : Nat) (formats : List arducam_format) : Option Nat :=
  first_match (fun f => decide (f.data_type = data_type)) formats 0

/-- `arducam_csi2_get_fmt_idx_by_code`: the index of the format for a code, or `-EINVAL`. -/
def arducam_csi2_get_fmt_idx_by_code (priv : arducam) (mbus_code : Nat) : Int :=
  let i := codes_scan mbus_code codes 0
  let data_type := if i / 5 < 3 then i / 5 + 0x2a else U32_MAX
  match fmt_scan_code mbus_code priv.supported_formats with
  | some i => (i : Int)
  | none =>
    if data_type ≠ U32_MAX then
      match fmt_scan_data_type data_type priv.supported_formats with
      | some i => (i : Int)
      | none => -EINVAL
    else -EINVAL

/-- Capacity of the handle table, `struct v4l2_ctrl *ctrls[32]`. -/
def ctrls_capacity : Nat := 32

/-- `get_control`: the loop `while (priv->ctrls[index])` over the 32-entry table, which
has no bound of its own.  The result is the handle bound to the id (its position in the
table), the null handle (`some none`) when the loop meets the null entry that ends the
bound handles, and `none` when the loop reads `ctrls[32]`: the table is full and none of
its 32 entries has the id. -/
def get_control (priv : arducam) (id : Nat) : Option (Option Nat) :=
  match first_match (fun c => decide (c.id = id)) priv.ctrls 0 with
  | some k => if k < ctrls_capacity then some (some k) else none
  | none => if priv.ctrls.length < ctrls_capacity then some none else none

/-- Replace the range of the control at position `k`. -/
def modify_range_at (min max : Int) (step : Nat) (dflt : Int) :
    List v4l2_ctrl → Nat → List v4l2_ctrl
  | [], _ => []
  | c :: cs, 0 =>
    { c with minimum := min, maximum := max, step := step, default_value := dflt } :: cs
  | c :: cs, k + 1 => c :: modify_range_at min max step dflt cs k

/-- Modelled from the spec: `__v4l2_ctrl_modify_range` of the control framework (kernel
code, not part of the sources): the range and default of the control behind the handle
are updated; the current value is left to the framework.  A null handle is handed over
as the driver does it; what the framework does with it lies outside the embedding, and
no bound control changes. -/
def v4l2_ctrl_modify_range (ctrls : List v4l2_ctrl) (ctrl : Option Nat) (min max : Int)
    (step : Nat) (dflt : Int) : List v4l2_ctrl :=
  match ctrl with
  | none => ctrls
  | some k => modify_range_at min max step dflt ctrls k

/-- `update_control`: select the control, re-read its range and hand it to the framework.
The function returns `-EINVAL` on every path.  `none` when `get_control` reads past the
table. -/
def update_control {σ : Type} (e : Env σ) (priv : arducam) (id : Nat) (w : Bus σ) :
    Option (Int × arducam × Bus σ) :=
  match arducam_write e w Reg.CTRL_ID_REG id with
  | (_, w1) =>
    match arducam_read e w1 Reg.CTRL_ID_REG 0 with
    | (_, _, w2) =>
      match arducam_write e w2 Reg.CTRL_VALUE_REG 0 with
      | (_, w3) =>
        match arducam_read e (wait_for_free e w3 1) Reg.CTRL_MAX_REG 0 with
        | (r1, max, w5) =>
          match arducam_read e w5 Reg.CTRL_MIN_REG 0 with
          | (r2, min, w6) =>
            match arducam_read e w6 Reg.CTRL_DEF_REG 0 with
            | (r3, dflt, w7) =>
              match arducam_read e w7 Reg.CTRL_STEP_REG 0 with
              | (r4, step, w8) =>
                if r1 + r2 + r3 + r4 < 0 then some (-EINVAL, priv, w8)
                else if id = NO_DATA_AVAILABLE ∨ max = NO_DATA_AVAILABLE ∨
                    min = NO_DATA_AVAILABLE ∨ dflt = NO_DATA_AVAILABLE ∨
                    step = NO_DATA_AVAILABLE then some (-EINVAL, priv, w8)
                else
                  match get_control priv id with
                  | none => none
                  | some ctrl =>
                    some (-EINVAL,
                      { priv with ctrls :=
                          v4l2_ctrl_modify_range priv.ctrls ctrl min max step dflt },
                      w8)

/-- `update_controls`: the four range refreshes after a format change. -/
def update_controls {σ : Type} (e : Env σ) (priv : arducam) (w : Bus σ) :
    Option (Int × arducam × Bus σ) :=
  match update_control e priv e.V4L2_CID_ARDUCAM_FRAME_RATE (wait_for_free e w 5) with
  | none => none
  | some (r1, p1, w1) =>
    match update_control e p1 V4L2_CID_HBLANK w1 with
    | none => none
    | some (r2, p2, w2) =>
      match update_control e p2 V4L2_CID_VBLANK w2 with
      | none => none
      | some (r3, p3, w3) =>
        match update_control e p3 V4L2_CID_PIXEL_RATE w3 with
        | none => none
        | some (r4, p4, w4) => some (r1 + r2 + r3 + r4, p4, w4)

/-- The resolution loop of `arducam_csi2_set_fmt`: first entry with that width and
height. -/
def resolution_scan (width height : Nat) (set : List arducam_resolution) : Option Nat :=
  first_match (fun r => decide (r.width = width ∧ r.height = height)) set 0

/-- The tail of both branches of `arducam_csi2_set_fmt`: write the two index registers,
make `(i, j)` current, refresh the control ranges (its result is ignored). -/
def set_fmt_commit {σ : Type} (e : Env σ) (priv : arducam) (f : arducam_format) (i j : Nat)
    (w : Bus σ) : Option (arducam × Bus σ) :=
  match arducam_write e w Reg.PIXFORMAT_INDEX_REG f.index with
  | (_, w1) =>
    match arducam_write e w1 Reg.RESOLUTION_INDEX_REG j with
    | (_, w2) =>
      match update_controls e
          { priv with current_format_idx := i, current_resolution_idx := j } w2 with
      | none => none
      | some (_, p, w3) => some (p, w3)

/-- `arducam_csi2_set_fmt`: format negotiation.  `none` when the substitution reads
`resolution_set[0]` of a format without a populated entry (an access the C code makes
unchecked), and when a range refresh reads past the control table. -/
def arducam_csi2_set_fmt {σ : Type} (e : Env σ) (priv : arducam) (format : v4l2_subdev_format)
    (w : Bus σ) : Option (Int × v4l2_subdev_format × arducam × Bus σ) :=
  if format.pad ≥ NUM_PADS then some (-EINVAL, format, priv, w)
  else if format.pad = IMAGE_PAD then
    let format1 : v4l2_subdev_format :=
      { format with format :=
          { format.format with colorspace := V4L2_COLORSPACE_SRGB, field := V4L2_FIELD_NONE } }
    let i := arducam_csi2_get_fmt_idx_by_code priv format1.format.code
    if i < 0 then some (-EINVAL, format1, priv, w)
    else
      match priv.supported_formats[i.toNat]? with
      | none => none
      | some f =>
        let format2 : v4l2_subdev_format :=
          { format1 with format := { format1.format with code := f.mbus_code } }
        match resolution_scan format2.format.width format2.format.height f.resolution_set with
        | some j =>
          match set_fmt_commit e priv f i.toNat j w with
          | none => none
          | some (p, w1) => some (0, format2, p, w1)
        | none =>
          match f.resolution_set[0]? with
          | none => none
          | some r =>
            let format3 : v4l2_subdev_format :=
              { format2 with format :=
                  { format2.format with width := r.width, height := r.height } }
            match set_fmt_commit e priv f i.toNat 0 w with
            | none => none
            | some (p, w1) => some (0, format3, p, w1)
  else some (0, arducam_update_metadata_pad_format format, priv, w)

/-- The framework's `struct v4l2_subdev_frame_size_enum`. -/
structure v4l2_subdev_frame_size_enum where
  index : Nat
  pad : Nat
  code : Nat
  min_width : Nat := 0
  max_width : Nat := 0
  min_height : Nat := 0
  max_height : Nat := 0
  deriving DecidableEq

/-- `arducam_csi2_enum_framesizes`: on the image pad the loop leaves at the first format
with the code, with `-EINVAL` when the index is not below its number of resolutions and
with 0 and the size of that resolution otherwise; when the loop runs to its end the
function returns `-EINVAL`.  On the metadata pad a request that passes the test has the
sizes filled in and then reaches the same final `return -EINVAL`.  (The two `none`
branches after a successful scan and test are not reachable: the index is below the
count there.) -/
def arducam_csi2_enum_framesizes (priv : arducam) (fse : v4l2_subdev_frame_size_enum) :
    Int × v4l2_subdev_frame_size_enum :=
  if fse.pad ≥ NUM_PADS then (-EINVAL, fse)
  else if fse.pad = IMAGE_PAD then
    match fmt_scan_code fse.code priv.supported_formats with
    | none => (-EINVAL, fse)
    | some i =>
      match priv.supported_formats[i]? with
      | none => (-EINVAL, fse)
      | some f =>
        if fse.index ≥ f.num_resolution_set then (-EINVAL, fse)
        else
          match f.resolution_set[fse.index]? with
          | none => (-EINVAL, fse)
          | some r =>
            (0, { fse with min_width := r.width, max_width := r.width,
                           min_height := r.height, max_height := r.height })
  else if fse.code ≠ MEDIA_BUS_FMT_SENSOR_DATA ∨ fse.index > 0 then (-EINVAL, fse)
  else
    (-EINVAL,
      { fse with min_width := ARDUCAM_EMBEDDED_LINE_WIDTH,
                 max_width := ARDUCAM_EMBEDDED_LINE_WIDTH,
                 min_height := ARDUCAM_NUM_EMBEDDED_LINES,
                 max_height := ARDUCAM_NUM_EMBEDDED_LINES })

/-! ## Capability enumeration -/

/-- The `while (1)` loop of `arducam_get_length_of_set`.  The C loop has no bound of its
own: the first argument is the number of iterations allowed (fuel), and `none` means
that the sentinel was not met within it. -/
def length_of_set_loop {σ : Type} (e : Env σ) (idx_reg val_reg : Reg) :
    Nat → Nat → Nat → Bus σ → Option (Int × Bus σ)
  | 0, _, _, _ => none
  | n + 1, index, val, w =>
    match arducam_write e w idx_reg index with
    | (r1, w1) =>
      match arducam_read e w1 val_reg val with
      | (r2, val1, w2) =>
        if r1 + r2 < 0 then some (-1, w2)
        else if val1 = NO_DATA_AVAILABLE then
          match arducam_write e w2 idx_reg 0 with
          | (_, w3) => some ((index : Int), w3)
        else length_of_set_loop e idx_reg val_reg n (index + 1) val1 w2

/-- `arducam_get_length_of_set`: the count walk over an index register, within `fuel`
iterations. -/
def arducam_get_length_of_set {σ : Type} (e : Env σ) (fuel : Nat) (w : Bus σ)
    (idx_reg val_reg : Reg) : Option (Int × Bus σ) :=
  length_of_set_loop e idx_reg val_reg fuel 0 0 w

/-- The fill loop of `arducam_enum_resolution`.  `room` is the number of entries of the
allocation not yet stored to; a store with no room left is `none`. -/
def enum_resolution_loop {σ : Type} (e : Env σ) :
    Nat → Nat → Nat → Nat → List arducam_resolution → Bus σ →
      Option (Int × List arducam_resolution × Bus σ)
  | room, index, width, height, acc, w =>
    match arducam_write e w Reg.RESOLUTION_INDEX_REG index with
    | (r1, w1) =>
      match arducam_read e w1 Reg.FORMAT_WIDTH_REG width with
      | (r2, width1, w2) =>
        match arducam_read e w2 Reg.FORMAT_HEIGHT_REG height with
        | (r3, height1, w3) =>
          if r1 + r2 + r3 < 0 then some (-ENODEV, acc, w3)
          else if width1 = NO_DATA_AVAILABLE ∨ height1 = NO_DATA_AVAILABLE then
            match arducam_write e w3 Reg.RESOLUTION_INDEX_REG 0 with
            | (_, w4) => some (0, acc, w4)
          else
            match room with
            | 0 => none
            | room1 + 1 =>
              enum_resolution_loop e room1 (index + 1) width1 height1
                (acc ++ [{ width := width1, height := height1 }]) w3

/-- `arducam_enum_resolution`: count pass (within `fuel` iterations), allocation of that
many entries, fill pass.  On the error exits the format is returned as it came (its
count is not set). -/
def arducam_enum_resolution {σ : Type} (e : Env σ) (fuel : Nat) (w : Bus σ)
    (format : arducam_format) : Option (Int × arducam_format × Bus σ) :=
  match arducam_get_length_of_set e fuel w Reg.RESOLUTION_INDEX_REG Reg.FORMAT_WIDTH_REG with
  | none => none
  | some (num_resolution, w1) =>
    if num_resolution < 0 then some (-ENODEV, format, w1)
    else
      match enum_resolution_loop e num_resolution.toNat 0 0 0 [] w1 with
      | none => none
      | some (ret, set, w2) =>
        if ret < 0 then some (-ENODEV, format, w2)
        else some (0, { format with resolution_set := set }, w2)

/-- The locals of `arducam_enum_pixformat` that some path reads before any assignment:
the values they happen to hold on entry. -/
structure enum_pixformat_locals where
  bayer_order_not_volatile : Nat
  pixformat_type : Nat
  lanes : Nat

/-- The fill loop of `arducam_enum_pixformat`.  `room` is the number of entries of the
allocation not yet stored to; a store with no room left is `none`, as is a count walk
of a resolution set that does not end within `fuel` iterations.  The result carries the
formats filled and the last value of `lanes`. -/
def enum_pixformat_loop {σ : Type} (e : Env σ) (fuel : Nat) :
    Nat → Nat → Nat → Nat → List arducam_format → Bus σ →
      Option (Int × List arducam_format × Nat × Bus σ)
  | room, index, pixformat_type, lanes, acc, w =>
    match arducam_write e w Reg.PIXFORMAT_INDEX_REG index with
    | (r1, w1) =>
      match arducam_read e w1 Reg.PIXFORMAT_TYPE_REG pixformat_type with
      | (r2, pixformat_type1, w2) =>
        if pixformat_type1 = NO_DATA_AVAILABLE then
          match arducam_write e w2 Reg.PIXFORMAT_INDEX_REG 0 with
          | (_, w3) => some (0, acc, lanes, w3)
        else
          match arducam_read e w2 Reg.MIPI_LANES_REG lanes with
          | (r3, lanes1, w3) =>
            if lanes1 = NO_DATA_AVAILABLE then
              match arducam_write e w3 Reg.PIXFORMAT_INDEX_REG 0 with
              | (_, w4) => some (0, acc, lanes1, w4)
            else
              match arducam_read e w3 Reg.PIXFORMAT_ORDER_REG 0 with
              | (r4, bayer_order, w4) =>
                if r1 + r2 + r3 + r4 < 0 then some (-ENODEV, acc, lanes1, w4)
                else
                  match room with
                  | 0 => none
                  | room1 + 1 =>
                    match arducam_enum_resolution e fuel w4
                        { index := index,
                          mbus_code := data_type_to_mbus_code (u32_to_int pixformat_type1)
                            (u32_to_int bayer_order),
                          bayer_order := bayer_order,
                          data_type := pixformat_type1,
                          resolution_set := [] } with
                    | none => none
                    | some (ret, f, w5) =>
                      if ret ≠ 0 then some (-ENODEV, acc, lanes1, w5)
                      else
                        enum_pixformat_loop e fuel room1 (index + 1) pixformat_type1 lanes1
                          (acc ++ [f]) w5

/-- `arducam_enum_pixformat`: count pass, volatile flag, allocation of one entry more
than counted, fill pass; on success the formats are published and the current indices
are set to 0.  On the error exits no format is published.  Every count walk is given
`fuel` iterations. -/
def arducam_enum_pixformat {σ : Type} (e : Env σ) (fuel : Nat) (priv : arducam)
    (locals : enum_pixformat_locals) (w : Bus σ) : Option (Int × arducam × Bus σ) :=
  match arducam_get_length_of_set e fuel w Reg.PIXFORMAT_INDEX_REG Reg.PIXFORMAT_TYPE_REG with
  | none => none
  | some (num_pixformat, w1) =>
    if num_pixformat < 0 then some (-ENODEV, priv, w1)
    else
      match arducam_read e w1 Reg.FLIPS_DONT_CHANGE_ORDER_REG
          locals.bayer_order_not_volatile with
      | (ret, bayer_order_not_volatile, w2) =>
        let priv1 : arducam :=
          { priv with bayer_order_volatile :=
              if bayer_order_not_volatile = NO_DATA_AVAILABLE then true
              else decide (bayer_order_not_volatile = 0) }
        if ret < 0 then some (-ENODEV, priv1, w2)
        else
          match enum_pixformat_loop e fuel (num_pixformat.toNat + 1) 0 locals.pixformat_type
              locals.lanes [] w2 with
          | none => none
          | some (ret1, formats, lanes, w3) =>
            if ret1 < 0 then some (-ENODEV, priv1, w3)
            else
              some (0,
                { priv1 with
                  supported_formats := formats, current_format_idx := 0,
                  current_resolution_idx := 0, lanes := lanes },
                w3)

/-! ## Streaming -/

/-- `EIO` of the kernel. -/
def EIO : Int := 5

/-- `arducam_REG_VALUE_32BIT`: the length of a 32-bit register value in bytes. -/
def arducam_REG_VALUE_32BIT : Nat := 4

/-- `arducam_MODE_STANDBY`. -/
def arducam_MODE_STANDBY : Nat := 0x00

/-- `arducam_MODE_STREAMING`. -/
def arducam_MODE_STREAMING : Nat := 0x01

/-- `V4L2_CTRL_FLAG_READ_ONLY` of the kernel. -/
def V4L2_CTRL_FLAG_READ_ONLY : Nat := 0x0004

/-- `V4L2_CTRL_FLAG_MODIFY_LAYOUT` of the kernel. -/
def V4L2_CTRL_FLAG_MODIFY_LAYOUT : Nat := 0x0400

/-- `arducam_write_reg`: one `i2c_master_send` of the register address and of the `len`
low-order bytes of `val`, high byte first; there is no retry.  A length above 4 is
refused before any transfer. -/
def arducam_write_reg {σ : Type} (e : Env σ) (w : Bus σ) (reg : Reg) (len val : Nat) :
    Int × Bus σ :=
  if len > 4 then (-EINVAL, w)
  else
    match e.xfer_write w.dev reg (val % 2 ^ (8 * len)) with
    | (true, s) =>
      (0, { dev := s, log := w.log ++ [BusOp.write reg (val % 2 ^ (8 * len)) true] })
    | (false, s) =>
      (- EIO, { dev := s, log := w.log ++ [BusOp.write reg (val % 2 ^ (8 * len)) false] })

/-- The walk of the batch-apply over the controls still to be applied. -/
def v4l2_ctrl_handler_setup_loop {σ : Type} (e : Env σ) :
    List v4l2_ctrl → arducam → Bus σ → Option (Int × arducam × Bus σ)
  | [], priv, w => some (0, priv, w)
  | c :: cs, priv, w =>
    let ctrl :=
      if c.id = V4L2_CID_HFLIP then priv.hflip.getD c
      else if c.id = V4L2_CID_VFLIP then priv.vflip.getD c
      else c
    match arducam_s_ctrl e priv ctrl w with
    | none => none
    | some (ret, priv1, w1) =>
      if ret ≠ 0 then some (ret, priv1, w1) else v4l2_ctrl_handler_setup_loop e cs priv1 w1

/-- Modelled from the spec: `__v4l2_ctrl_handler_setup` of the control framework (kernel
code, not part of the sources), the batch-apply: the driver's `s_ctrl` is called on every
bound control with its current value, in table order, up to the first error, which is
returned.  The flip ids reach the objects behind `hflip` and `vflip` of the session.
`none` when a call of `s_ctrl` faults. -/
def v4l2_ctrl_handler_setup {σ : Type} (e : Env σ) (priv : arducam) (w : Bus σ) :
    Option (Int × arducam × Bus σ) :=
  v4l2_ctrl_handler_setup_loop e priv.ctrls priv w

/-- `arducam_start_streaming`: mode select, idle wait, batch-apply under the extended
wait, idle wait.  `none` when the batch-apply faults. -/
def arducam_start_streaming {σ : Type} (e : Env σ) (priv : arducam) (w : Bus σ) :
    Option (Int × arducam × Bus σ) :=
  match arducam_write_reg e w Reg.arducam_REG_MODE_SELECT arducam_REG_VALUE_32BIT
      arducam_MODE_STREAMING with
  | (ret, w1) =>
    if ret ≠ 0 then some (ret, priv, w1)
    else
      match v4l2_ctrl_handler_setup e { priv with wait_until_free := true }
          (wait_for_free e w1 2) with
      | none => none
      | some (ret1, priv1, w2) =>
        if ret1 ≠ 0 then some (ret1, { priv1 with wait_until_free := false }, w2)
        else some (ret1, { priv1 with wait_until_free := false }, wait_for_free e w2 2)

/-- `arducam_stop_streaming`: mode select; a failed write is only logged and 0 is
returned. -/
def arducam_stop_streaming {σ : Type} (e : Env σ) (w : Bus σ) : Int × Bus σ :=
  match arducam_write_reg e w Reg.arducam_REG_MODE_SELECT arducam_REG_VALUE_32BIT
      arducam_MODE_STANDBY with
  | (_, w1) => (0, w1)

/-- Modelled from the spec: `__v4l2_ctrl_grab` of the control framework (kernel code, not
part of the sources), called on a control: the control is marked non-modifiable
(`grabbed`) or modifiable again, which the framework keeps as the bit
`V4L2_CTRL_FLAG_GRABBED` of its flags.  Called on a null handle it does nothing. -/
def v4l2_ctrl_grab (ctrl : v4l2_ctrl) (grabbed : Bool) : v4l2_ctrl :=
  if grabbed then { ctrl with flags := ctrl.flags ||| V4L2_CTRL_FLAG_GRABBED }
  else { ctrl with flags := ctrl.flags ^^^ (ctrl.flags &&& V4L2_CTRL_FLAG_GRABBED) }

/-- The common tail of `arducam_set_stream`: the flag takes the truth value of `enable`
and both flip controls are grabbed or released accordingly. -/
def set_stream_commit (priv : arducam) (enable : Int) : arducam :=
  { priv with
    streaming := decide (enable ≠ 0),
    vflip := priv.vflip.map (fun c => v4l2_ctrl_grab c (decide (enable ≠ 0))),
    hflip := priv.hflip.map (fun c => v4l2_ctrl_grab c (decide (enable ≠ 0))) }

/-- `arducam_set_stream`.  `enable` is the `int` argument, compared with the `bool`
flag as an integer.  `pm_runtime_get_sync` is what the call of that name returns (the
power callbacks of the driver make no register transfer).  `none` when
`arducam_start_streaming` faults. -/
def arducam_set_stream {σ : Type} (e : Env σ) (priv : arducam) (enable : Int)
    (pm_runtime_get_sync : Int) (w : Bus σ) : Option (Int × arducam × Bus σ) :=
  if (if priv.streaming then (1 : Int) else 0) = enable then some (0, priv, w)
  else if enable ≠ 0 then
    if pm_runtime_get_sync < 0 then some (pm_runtime_get_sync, priv, w)
    else
      match arducam_start_streaming e priv w with
      | none => none
      | some (ret, priv1, w1) =>
        if ret ≠ 0 then some (ret, priv1, w1)
        else some (ret, set_stream_commit priv1 enable, w1)
  else
    match arducam_stop_streaming e w with
    | (_, w1) => some (0, set_stream_commit priv enable, w1)

/-! ## Selection -/

/-- The framework's `struct v4l2_subdev_selection`. -/
structure v4l2_subdev_selection where
  which : Nat
  pad : Nat
  target : Nat
  r : v4l2_rect
  deriving DecidableEq

/-- `V4L2_SUBDEV_FORMAT_TRY` of the kernel. -/
def V4L2_SUBDEV_FORMAT_TRY : Nat := 0

/-- `V4L2_SUBDEV_FORMAT_ACTIVE` of the kernel. -/
def V4L2_SUBDEV_FORMAT_ACTIVE : Nat := 1

/-- `V4L2_SEL_TGT_CROP` of the kernel. -/
def V4L2_SEL_TGT_CROP : Nat := 0x0000

/-- `V4L2_SEL_TGT_CROP_DEFAULT` of the kernel. -/
def V4L2_SEL_TGT_CROP_DEFAULT : Nat := 0x0001

/-- `V4L2_SEL_TGT_CROP_BOUNDS` of the kernel. -/
def V4L2_SEL_TGT_CROP_BOUNDS : Nat := 0x0002

/-- `V4L2_SEL_TGT_NATIVE_SIZE` of the kernel. -/
def V4L2_SEL_TGT_NATIVE_SIZE : Nat := 0x0003

/-- `arducam_read_sel`: the four reads into `*rect`; `-EINVAL` when a read failed or a
value is the sentinel.  The rectangle is returned as the reads left it. -/
def arducam_read_sel {σ : Type} (e : Env σ) (w : Bus σ) (rect : v4l2_rect) :
    Int × v4l2_rect × Bus σ :=
  match arducam_read e w Reg.IPC_SEL_TOP_REG rect.top with
  | (r1, top, w1) =>
    match arducam_read e w1 Reg.IPC_SEL_LEFT_REG rect.left with
    | (r2, left, w2) =>
      match arducam_read e w2 Reg.IPC_SEL_WIDTH_REG rect.width with
      | (r3, width, w3) =>
        match arducam_read e w3 Reg.IPC_SEL_HEIGHT_REG rect.height with
        | (r4, height, w4) =>
          if r1 + r2 + r3 + r4 ≠ 0 ∨ top = NO_DATA_AVAILABLE ∨ left = NO_DATA_AVAILABLE ∨
              width = NO_DATA_AVAILABLE ∨ height = NO_DATA_AVAILABLE then
            (-EINVAL, { left := left, top := top, width := width, height := height }, w4)
          else (0, { left := left, top := top, width := width, height := height }, w4)

/-- `__arducam_get_pad_crop`: the rectangle the returned pointer refers to, `none` for
the null pointer.  `try_crop` is the rectangle `v4l2_subdev_get_try_crop` refers to. -/
def arducam_get_pad_crop {σ : Type} (e : Env σ) (priv : arducam) (try_crop : v4l2_rect)
    (which : Nat) (w : Bus σ) : Option v4l2_rect × arducam × Bus σ :=
  if which = V4L2_SUBDEV_FORMAT_TRY then (some try_crop, priv, w)
  else if which = V4L2_SUBDEV_FORMAT_ACTIVE then
    match arducam_read_sel e w priv.crop with
    | (ret, crop, w1) =>
      if ret ≠ 0 then (none, { priv with crop := crop }, w1)
      else (some crop, { priv with crop := crop }, w1)
  else (none, priv, w)

/-- `arducam_get_selection`.  `rect` is what the local of that name holds on entry.  The
result is `none` when the crop target dereferences the null pointer
`__arducam_get_pad_crop` returned. -/
def arducam_get_selection {σ : Type} (e : Env σ) (priv : arducam) (try_crop : v4l2_rect)
    (sel : v4l2_subdev_selection) (rect : v4l2_rect) (w : Bus σ) :
    Option (Int × v4l2_subdev_selection × arducam × Bus σ) :=
  match arducam_write e w Reg.IPC_SEL_TARGET_REG sel.target with
  | (ret, w1) =>
    if ret ≠ 0 then some (-EINVAL, sel, priv, w1)
    else if sel.target = V4L2_SEL_TGT_CROP then
      match arducam_get_pad_crop e priv try_crop sel.which (wait_for_free e w1 2) with
      | (none, _, _) => none
      | (some r, priv1, w2) => some (0, { sel with r := r }, priv1, w2)
    else if sel.target = V4L2_SEL_TGT_NATIVE_SIZE ∨ sel.target = V4L2_SEL_TGT_CROP_DEFAULT ∨
        sel.target = V4L2_SEL_TGT_CROP_BOUNDS then
      match arducam_read_sel e (wait_for_free e w1 2) rect with
      | (ret1, rect1, w2) =>
        if ret1 ≠ 0 then some (-EINVAL, sel, priv, w2)
        else some (0, { sel with r := rect1 }, priv, w2)
    else some (-EINVAL, sel, priv, wait_for_free e w1 2)

/-! ## Control enumeration -/

/-- Modelled from the spec: `v4l2_ctrl_new_std` and `v4l2_ctrl_new_custom` of the control
framework (kernel code, not part of the sources): a control with the given id, range and
default is created, at its default value; the handle of the new control is returned. -/
def v4l2_ctrl_new (id : Nat) (min max : Int) (step : Nat) (dflt : Int) : v4l2_ctrl :=
  { id := id, val := dflt, minimum := min, maximum := max, step := step,
    default_value := dflt, flags := 0 }

/-- The locals `id`, `max`, `min`, `def` and `step` of `arducam_enum_controls`. -/
structure enum_controls_locals where
  id : Nat
  max : Nat
  min : Nat
  dflt : Nat
  step : Nat

/-- What the calls of `arducam_enum_controls` into the framework return:
`v4l2_ctrl_handler_init`, `v4l2_fwnode_device_parse` and
`v4l2_ctrl_new_fwnode_properties`. -/
structure enum_controls_calls where
  v4l2_ctrl_handler_init : Int
  v4l2_fwnode_device_parse : Int
  v4l2_ctrl_new_fwnode_properties : Int

/-- The store `priv->ctrls[index] = ...` on the table kept up to its first null entry. -/
def ctrls_store (ctrls : List v4l2_ctrl) (index : Nat) (c : v4l2_ctrl) : List v4l2_ctrl :=
  if index < ctrls.length then ctrls.set index c else ctrls ++ [c]

/-- The `switch (id)` of the control loop on the control just created: flags of the flip
controls and of the horizontal blanking. -/
def enum_controls_flags (priv : arducam) (c : v4l2_ctrl) : v4l2_ctrl :=
  if c.id = V4L2_CID_HFLIP ∨ c.id = V4L2_CID_VFLIP then
    if priv.bayer_order_volatile then
      { c with flags := c.flags ||| V4L2_CTRL_FLAG_MODIFY_LAYOUT }
    else c
  else if c.id = V4L2_CID_HBLANK then
    { c with flags := c.flags ||| V4L2_CTRL_FLAG_READ_ONLY }
  else c

/-- The `while (1)` loop of `arducam_enum_controls`.  `room` is the number of entries of
the 32-entry table `ctrls` at and above `index`; a store with no room left is `none`.
The result is 0 when the loop was left at the sentinel and `-ENODEV` when it was left
for a failed transfer. -/
def enum_controls_loop {σ : Type} (e : Env σ) :
    Nat → Nat → enum_controls_locals → arducam → Bus σ → Option (Int × arducam × Bus σ)
  | room, index, l, priv, w =>
    match arducam_write e w Reg.CTRL_INDEX_REG index with
    | (r1, w1) =>
      match arducam_write e w1 Reg.CTRL_VALUE_REG 0 with
      | (_, w2) =>
        match arducam_read e (wait_for_free e w2 1) Reg.CTRL_ID_REG l.id with
        | (r2, id, w3) =>
          match arducam_read e w3 Reg.CTRL_MAX_REG l.max with
          | (r3, max, w4) =>
            match arducam_read e w4 Reg.CTRL_MIN_REG l.min with
            | (r4, min, w5) =>
              match arducam_read e w5 Reg.CTRL_DEF_REG l.dflt with
              | (r5, dflt, w6) =>
                match arducam_read e w6 Reg.CTRL_STEP_REG l.step with
                | (r6, step, w7) =>
                  if r1 + r2 + r3 + r4 + r5 + r6 < 0 then some (-ENODEV, priv, w7)
                  else if id = NO_DATA_AVAILABLE ∨ max = NO_DATA_AVAILABLE ∨
                      min = NO_DATA_AVAILABLE ∨ dflt = NO_DATA_AVAILABLE ∨
                      step = NO_DATA_AVAILABLE then some (0, priv, w7)
                  else
                    match room with
                    | 0 => none
                    | room1 + 1 =>
                      let c := enum_controls_flags priv (v4l2_ctrl_new id min max step dflt)
                      enum_controls_loop e room1 (index + 1)
                        { id := id, max := max, min := min, dflt := dflt, step := step }
                        { priv with
                          ctrls := ctrls_store priv.ctrls index c,
                          hflip := if id = V4L2_CID_HFLIP then some c else priv.hflip,
                          vflip := if id = V4L2_CID_VFLIP then some c else priv.vflip }
                        w7

/-- `arducam_enum_controls`: count walk (within `fuel` iterations), creation loop, reset
of the index register, firmware properties, batch-apply.  `none` when the count walk
does not end within `fuel` iterations, a handle is stored past the table, or the
batch-apply faults. -/
def arducam_enum_controls {σ : Type} (e : Env σ) (fuel : Nat) (priv : arducam)
    (locals : enum_controls_locals) (calls : enum_controls_calls) (w : Bus σ) :
    Option (Int × arducam × Bus σ) :=
  match arducam_get_length_of_set e fuel w Reg.CTRL_INDEX_REG Reg.CTRL_ID_REG with
  | none => none
  | some (num_ctrls, w1) =>
    if num_ctrls < 0 then some (-ENODEV, priv, w1)
    else if calls.v4l2_ctrl_handler_init ≠ 0 then
      some (calls.v4l2_ctrl_handler_init, priv, w1)
    else
      match enum_controls_loop e ctrls_capacity 0 locals priv w1 with
      | none => none
      | some (ret, priv1, w2) =>
        if ret < 0 then some (-ENODEV, priv1, w2)
        else
          match arducam_write e w2 Reg.CTRL_INDEX_REG 0 with
          | (_, w3) =>
            if calls.v4l2_fwnode_device_parse ≠ 0 then some (-ENODEV, priv1, w3)
            else if calls.v4l2_ctrl_new_fwnode_properties ≠ 0 then some (-ENODEV, priv1, w3)
            else
              match v4l2_ctrl_handler_setup e priv1 w3 with
              | none => none
              | some (_, priv2, w4) => some (0, priv2, w4)

/-! ## Session invariants used by the theorems -/

/-- The current indices select a format and a resolution of it: the format index is
below the number of formats and the resolution index below the number of resolutions
of that format. -/
def indices_in_range (priv : arducam) : Prop :=
  priv.current_format_idx < priv.num_supported_formats ∧
  match priv.supported_formats[priv.current_format_idx]? with
  | some f => priv.current_resolution_idx < f.num_resolution_set
  | none => False

instance (priv : arducam) : Decidable (indices_in_range priv) := by
  unfold indices_in_range
  cases priv.supported_formats[priv.current_format_idx]? <;> infer_instance

/-- The code of a format is the one `data_type_to_mbus_code` gives for its stored data
type and colour order. -/
def code_of_stored_pair (f : arducam_format) : Prop :=
  f.mbus_code = data_type_to_mbus_code (u32_to_int f.data_type) (u32_to_int f.bayer_order)

/-- At least one format is published and every published format has at least one
resolution. -/
def every_format_has_resolution (priv : arducam) : Prop :=
  priv.supported_formats ≠ [] ∧ ∀ f ∈ priv.supported_formats, 0 < f.num_resolution_set

instance (priv : arducam) : Decidable (every_format_has_resolution priv) := by
  unfold every_format_has_resolution; infer_instance

/-- Spec side: what a format keeps when its code is recomputed: device index, data type,
colour order and resolution set. -/
def format_shape (f : arducam_format) : Nat × Nat × Nat × List arducam_resolution :=
  (f.index, f.data_type, f.bayer_order, f.resolution_set)

/-- Spec side: two sessions have the same current indices and the same formats up to
their codes. -/
def same_shape (p q : arducam) : Prop :=
  p.current_format_idx = q.current_format_idx ∧
  p.current_resolution_idx = q.current_resolution_idx ∧
  p.supported_formats.map format_shape = q.supported_formats.map format_shape

/-- Spec side: two sessions differ at most in the codes of their formats and in the
batch-apply flag. -/
def same_but_codes (p q : arducam) : Prop :=
  same_shape p q ∧ p.bayer_order_volatile = q.bayer_order_volatile ∧ p.hflip = q.hflip ∧
  p.vflip = q.vflip ∧ p.streaming = q.streaming ∧ p.ctrls = q.ctrls

/-- The sessions of the invariant: the session a successful pixel-format pass leaves when
it published at least one format and every format has at least one resolution, and every
session a later call that writes the session leaves, whatever it returned: the control
pass, `arducam_csi2_set_fmt`, `set_control` (so also after a flip recomputed the codes)
and `arducam_set_stream`, in any order and number. -/
inductive session_after_enum {σ : Type} (e : Env σ) : arducam → Prop
  | enum (fuel : Nat) (priv0 : arducam) (locals : enum_pixformat_locals) (w w1 : Bus σ)
      (priv : arducam) :
      arducam_enum_pixformat e fuel priv0 locals w = some (0, priv, w1) →
      every_format_has_resolution priv →
      session_after_enum e priv
  | enum_controls (fuel : Nat) (priv : arducam) (locals : enum_controls_locals)
      (calls : enum_controls_calls) (w : Bus σ) (ret : Int) (priv1 : arducam) (w1 : Bus σ) :
      session_after_enum e priv →
      arducam_enum_controls e fuel priv locals calls w = some (ret, priv1, w1) →
      session_after_enum e priv1
  | set_fmt (priv : arducam) (format : v4l2_subdev_format) (w : Bus σ) (ret : Int)
      (format1 : v4l2_subdev_format) (priv1 : arducam) (w1 : Bus σ) :
      session_after_enum e priv →
      arducam_csi2_set_fmt e priv format w = some (ret, format1, priv1, w1) →
      session_after_enum e priv1
  | set_control (priv : arducam) (id : Nat) (value : Int) (w : Bus σ) (ret : Int)
      (priv1 : arducam) (w1 : Bus σ) :
      session_after_enum e priv →
      set_control e priv id value w = some (ret, priv1, w1) →
      session_after_enum e priv1
  | set_stream (priv : arducam) (enable pm : Int) (w : Bus σ) (ret : Int)
      (priv1 : arducam) (w1 : Bus σ) :
      session_after_enum e priv →
      arducam_set_stream e priv enable pm w = some (ret, priv1, w1) →
      session_after_enum e priv1

/-- Spec side: `i` is the lowest index of an entry of `l` with property `P`. -/
def lowest_index {α : Type} (P : α → Prop) (l : List α) (i : Nat) : Prop :=
  (∃ x, l[i]? = some x ∧ P x) ∧ ∀ j, j < i → ∀ y, l[j]? = some y → ¬ P y

/-- Spec side: the table of a data type, the 5-entry table of a Bayer depth or the 4-entry
table of a YUV422 depth; no table for the other data types. -/
def table_of_data_type (data_type : Int) : List Nat :=
  if data_type = IMAGE_DT_RAW8 then bayer_depth8
  else if data_type = IMAGE_DT_RAW10 then bayer_depth10
  else if data_type = IMAGE_DT_RAW12 then bayer_depth12
  else if data_type = IMAGE_DT_YUV422_8 then yuv422_depth8
  else if data_type = IMAGE_DT_YUV422_10 then yuv422_depth10
  else []

/-- Spec side: the logical colour order under a pair of flip values,
`physical_order XOR (1 if hflip else 0) XOR (2 if vflip else 0)`. -/
def logical_order (hflip vflip : Int) (format : arducam_format) : Nat :=
  (format.bayer_order ^^^ (if hflip ≠ 0 then 1 else 0)) ^^^ (if vflip ≠ 0 then 2 else 0)

/-- Every format carries the code `arducam_get_format_code` gives it under the flip
values of the session. -/
def codes_synced (priv : arducam) : Prop :=
  ∀ f ∈ priv.supported_formats, arducam_get_format_code priv f = some f.mbus_code

/-- Spec side: the flip pointers can be read where `arducam_get_format_code` reads them:
with a volatile colour order both flip controls are bound. -/
def flips_readable (priv : arducam) : Prop :=
  priv.bayer_order_volatile = true → priv.hflip ≠ none ∧ priv.vflip ≠ none

instance (priv : arducam) : Decidable (flips_readable priv) := by
  unfold flips_readable; infer_instance

/-- Spec side: the walk of `get_control` for an id ends inside the 32-entry table: the id
is bound in the table, or the table has a null entry after its bound handles. -/
def lookup_ends (priv : arducam) (id : Nat) : Prop :=
  id ∈ (priv.ctrls.map (fun c => c.id)).take ctrls_capacity ∨
    priv.ctrls.length < ctrls_capacity

instance (priv : arducam) (id : Nat) : Decidable (lookup_ends priv id) := by
  unfold lookup_ends; infer_instance

/-- Spec side: the walk of `get_control` ends inside the table for each of the four ids
`update_controls` refreshes: frame rate, horizontal blanking, vertical blanking, pixel
rate. -/
def refresh_lookups_end {σ : Type} (e : Env σ) (priv : arducam) : Prop :=
  lookup_ends priv e.V4L2_CID_ARDUCAM_FRAME_RATE ∧ lookup_ends priv V4L2_CID_HBLANK ∧
    lookup_ends priv V4L2_CID_VBLANK ∧ lookup_ends priv V4L2_CID_PIXEL_RATE

instance {σ : Type} (e : Env σ) (priv : arducam) : Decidable (refresh_lookups_end e priv) := by
  unfold refresh_lookups_end; infer_instance

/-- Spec side: a device with an index cursor behind `idx_reg`, seen through the states
`inv` a pass moves in.  Both retry budgets are positive, every write to `idx_reg`
succeeds and makes the value written the cursor, and no read moves the cursor. -/
structure indexed_device {σ : Type} (e : Env σ) (idx_reg : Reg) (cursor : σ → Nat)
    (inv : σ → Prop) : Prop where
  read_budget : 0 < e.I2C_READ_RETRY_COUNT
  write_budget : 0 < e.I2C_WRITE_RETRY_COUNT
  write_ok : ∀ s v, inv s → (e.xfer_write s idx_reg v).1 = true
  write_cursor : ∀ s v, inv s → cursor (e.xfer_write s idx_reg v).2 = v
  write_inv : ∀ s v, inv s → inv (e.xfer_write s idx_reg v).2
  read_cursor : ∀ s addr, inv s → cursor (e.xfer_read s addr).2 = cursor s
  read_inv : ∀ s addr, inv s → inv (e.xfer_read s addr).2

/-- Spec side: every read of `val_reg` succeeds and delivers `f` of the cursor. -/
def answers {σ : Type} (e : Env σ) (cursor : σ → Nat) (inv : σ → Prop) (val_reg : Reg)
    (f : Nat → Nat) : Prop :=
  ∀ s, inv s → (e.xfer_read s val_reg).1 = some (f (cursor s))

/-- Spec side: the transfers of a count walk that meets the sentinel at index `n` on a
bus without failures: index write and value read for `0 .. n`, then the reset write. -/
def walk_log (idx_reg val_reg : Reg) (f : Nat → Nat) (n : Nat) : List BusOp :=
  (List.range (n + 1)).flatMap
      (fun k => [BusOp.write idx_reg k true, BusOp.read val_reg (some (f k))]) ++
    [BusOp.write idx_reg 0 true]

/-- Spec side: the value of the last write to `reg` in a log, whatever its outcome. -/
def last_write (reg : Reg) : List BusOp → Option Nat
  | [] => none
  | op :: ops =>
    match last_write reg ops with
    | some v => some v
    | none =>
      match op with
      | BusOp.write addr val _ => if addr = reg then some val else none
      | BusOp.read _ _ => none

/-- Spec side: a control is non-modifiable, its grabbed bit is set. -/
def ctrl_grabbed (c : v4l2_ctrl) : Prop := c.flags &&& V4L2_CTRL_FLAG_GRABBED ≠ 0

/-- Spec side: the control behind a flip pointer, when there is one, is non-modifiable
exactly when the flag is set. -/
def flip_marked (streaming : Bool) : Option v4l2_ctrl → Prop
  | none => True
  | some c => (ctrl_grabbed c ↔ streaming = true)

/-- Spec side: the flip controls are non-modifiable exactly when the session streams. -/
def flips_grabbed_iff_streaming (priv : arducam) : Prop :=
  flip_marked priv.streaming priv.hflip ∧ flip_marked priv.streaming priv.vflip

/-- The bus when `update_control` starts its four range reads: after the id write, the
id read-back, the value write and the idle wait. -/
def update_control_select {σ : Type} (e : Env σ) (w : Bus σ) (id : Nat) : Bus σ :=
  wait_for_free e
    (arducam_write e
      (arducam_read e (arducam_write e w Reg.CTRL_ID_REG id).2 Reg.CTRL_ID_REG 0).2.2
      Reg.CTRL_VALUE_REG 0).2 1

/-- Outcome of the four range reads of `update_control`: per register the result of
`arducam_read` and the value it left. -/
structure range_reads where
  max_ret : Int
  max : Nat
  min_ret : Int
  min : Nat
  def_ret : Int
  dflt : Nat
  step_ret : Int
  step : Nat

/-- The four range reads of `update_control` in the order it makes them: maximum,
minimum, default, step. -/
def update_control_reads {σ : Type} (e : Env σ) (w : Bus σ) (id : Nat) : range_reads :=
  let rmax := arducam_read e (update_control_select e w id) Reg.CTRL_MAX_REG 0
  let rmin := arducam_read e rmax.2.2 Reg.CTRL_MIN_REG 0
  let rdef := arducam_read e rmin.2.2 Reg.CTRL_DEF_REG 0
  let rstep := arducam_read e rdef.2.2 Reg.CTRL_STEP_REG 0
  { max_ret := rmax.1, max := rmax.2.1, min_ret := rmin.1, min := rmin.2.1,
    def_ret := rdef.1, dflt := rdef.2.1, step_ret := rstep.1, step := rstep.2.1 }

/-- Spec side: all four reads succeeded and none delivered the sentinel. -/
def range_reads.usable (r : range_reads) : Prop :=
  (r.max_ret = 0 ∧ r.min_ret = 0 ∧ r.def_ret = 0 ∧ r.step_ret = 0) ∧
  (r.max ≠ NO_DATA_AVAILABLE ∧ r.min ≠ NO_DATA_AVAILABLE ∧ r.dflt ≠ NO_DATA_AVAILABLE ∧
    r.step ≠ NO_DATA_AVAILABLE)

instance (c : v4l2_ctrl) : Decidable (ctrl_grabbed c) := by
  unfold ctrl_grabbed; infer_instance

instance (streaming : Bool) (o : Option v4l2_ctrl) : Decidable (flip_marked streaming o) := by
  cases o <;> unfold flip_marked <;> infer_instance

instance (priv : arducam) : Decidable (flips_grabbed_iff_streaming priv) := by
  unfold flips_grabbed_iff_streaming; infer_instance

/-! ## Devices used in the examples -/

/-- A table-driven device: per pixel format its data type, colour order and resolutions,
and the answer of the "flips do not change the order" register. -/
structure TableDev where
  formats : List (Nat × Nat × List (Nat × Nat))
  flips_dont_change_order : Nat

/-- State of a table-driven device: the two index registers. -/
structure TableState where
  pixformat_index : Nat
  resolution_index : Nat
  deriving DecidableEq

/-- The table-driven device on a bus on which every transfer succeeds.  It has two
lanes, is always idle and answers the sentinel to every control register. -/
def tableEnv (t : TableDev) : Env TableState where
  I2C_READ_RETRY_COUNT := 3
  I2C_WRITE_RETRY_COUNT := 2
  V4L2_CID_ARDUCAM_FRAME_RATE := 0x00981905
  xfer_write := fun s addr val =>
    match addr with
    | Reg.PIXFORMAT_INDEX_REG => (true, { s with pixformat_index := val })
    | Reg.RESOLUTION_INDEX_REG => (true, { s with resolution_index := val })
    | _ => (true, s)
  xfer_read := fun s addr =>
    match addr with
    | Reg.SYSTEM_IDLE_REG => (some 0, s)
    | Reg.MIPI_LANES_REG => (some 2, s)
    | Reg.FLIPS_DONT_CHANGE_ORDER_REG => (some t.flips_dont_change_order, s)
    | Reg.PIXFORMAT_TYPE_REG =>
      match t.formats[s.pixformat_index]? with
      | some f => (some f.1, s)
      | none => (some NO_DATA_AVAILABLE, s)
    | Reg.PIXFORMAT_ORDER_REG =>
      match t.formats[s.pixformat_index]? with
      | some f => (some f.2.1, s)
      | none => (some NO_DATA_AVAILABLE, s)
    | Reg.FORMAT_WIDTH_REG =>
      match t.formats[s.pixformat_index]? with
      | some f =>
        match f.2.2[s.resolution_index]? with
        | some r => (some r.1, s)
        | none => (some NO_DATA_AVAILABLE, s)
      | none => (some NO_DATA_AVAILABLE, s)
    | Reg.FORMAT_HEIGHT_REG =>
      match t.formats[s.pixformat_index]? with
      | some f =>
        match f.2.2[s.resolution_index]? with
        | some r => (some r.2, s)
        | none => (some NO_DATA_AVAILABLE, s)
      | none => (some NO_DATA_AVAILABLE, s)
    | _ => (some NO_DATA_AVAILABLE, s)

/-- A bus on which no transfer succeeds. -/
def deadEnv : Env Unit where
  I2C_READ_RETRY_COUNT := 3
  I2C_WRITE_RETRY_COUNT := 2
  V4L2_CID_ARDUCAM_FRAME_RATE := 0x00981905
  xfer_write := fun s _ _ => (false, s)
  xfer_read := fun s _ => (none, s)

/-- The bus before the first transfer. -/
def freshBus {σ : Type} (s : σ) : Bus σ := { dev := s, log := [] }

/-- The zero-initialised session of `arducam_probe`: no format, no bound control, both
flip pointers null. -/
def zeroSession : arducam where
  supported_formats := []
  current_format_idx := 0
  current_resolution_idx := 0
  lanes := 0
  bayer_order_volatile := false
  hflip := none
  vflip := none
  streaming := false
  wait_until_free := false
  ctrls := []

/-- Locals holding zero on entry. -/
def zeroLocals : enum_pixformat_locals where
  bayer_order_not_volatile := 0
  pixformat_type := 0
  lanes := 0

/-- The pixel-format pass of `arducam_probe` on a table-driven device. -/
def enumerated (t : TableDev) : Option (Int × arducam × Bus TableState) :=
  arducam_enum_pixformat (tableEnv t) 8 zeroSession zeroLocals (freshBus ⟨0, 0⟩)

/-- The session the pixel-format pass yields with the given formats, two lanes and a
colour order that is volatile or not. -/
def sessionOf (formats : List arducam_format) (volatile : Bool) : arducam :=
  { zeroSession with supported_formats := formats, lanes := 2, bayer_order_volatile := volatile }

/-- An image-pad request for a code and a size. -/
def imageRequest (code width height : Nat) : v4l2_subdev_format :=
  { pad := IMAGE_PAD, format := { width := width, height := height, code := code } }

/-- The device of the spec's scenario: 8-bit Bayer order 0 and 10-bit Bayer order 1, each
with the one resolution 640x480. -/
def scenarioDev : TableDev :=
  { formats := [(0x2A, 0, [(640, 480)]), (0x2B, 1, [(640, 480)])],
    flips_dont_change_order := 0 }

/-- The two formats of the scenario as the pass stores them. -/
def scenarioFormats : List arducam_format :=
  [ { index := 0, mbus_code := MEDIA_BUS_FMT_SBGGR8_1X8, bayer_order := 0, data_type := 0x2A,
      resolution_set := [⟨640, 480⟩] },
    { index := 1, mbus_code := MEDIA_BUS_FMT_SGBRG10_1X10, bayer_order := 1, data_type := 0x2B,
      resolution_set := [⟨640, 480⟩] } ]

/-- A device reporting the same data type and colour order twice, with different
resolutions. -/
def sameCodeDev : TableDev :=
  { formats := [(0x2A, 0, [(640, 480)]), (0x2A, 0, [(1920, 1080)])],
    flips_dont_change_order := 1 }

/-- The formats of `sameCodeDev` as the pass stores them. -/
def sameCodeFormats : List arducam_format :=
  [ { index := 0, mbus_code := MEDIA_BUS_FMT_SBGGR8_1X8, bayer_order := 0, data_type := 0x2A,
      resolution_set := [⟨640, 480⟩] },
    { index := 1, mbus_code := MEDIA_BUS_FMT_SBGGR8_1X8, bayer_order := 0, data_type := 0x2A,
      resolution_set := [⟨1920, 1080⟩] } ]

/-- A device whose only format answers the sentinel at resolution index 0. -/
def noResolutionDev : TableDev :=
  { formats := [(0x2A, 0, [])], flips_dont_change_order := 1 }

/-- The format of `noResolutionDev` as the pass stores it. -/
def noResolutionFormats : List arducam_format :=
  [ { index := 0, mbus_code := MEDIA_BUS_FMT_SBGGR8_1X8, bayer_order := 0, data_type := 0x2A,
      resolution_set := [] } ]

/-- A device answering the sentinel at pixel-format index 0. -/
def noFormatDev : TableDev :=
  { formats := [], flips_dont_change_order := 1 }

/-- A monochrome device: 8-bit raw with colour order 4 (the entry `Y8` of the table), the
"flips do not change the order" register answering 0. -/
def greyDev : TableDev :=
  { formats := [(0x2A, 4, [(640, 480)])], flips_dont_change_order := 0 }

/-- The format of `greyDev` as the pass stores it. -/
def greyFormats : List arducam_format :=
  [ { index := 0, mbus_code := MEDIA_BUS_FMT_Y8_1X8, bayer_order := 4, data_type := 0x2A,
      resolution_set := [⟨640, 480⟩] } ]

/-- A device reporting a data type outside every table (`0x30`). -/
def unknownTypeDev : TableDev :=
  { formats := [(0x30, 0, [(640, 480)])], flips_dont_change_order := 1 }

/-- A device with a control table: per control its id, minimum, maximum, default and
step. -/
structure CtrlDev where
  controls : List (Nat × Nat × Nat × Nat × Nat)

/-- Position of the control with an id in the table, the length of the table when there
is none. -/
def CtrlDev.position (t : CtrlDev) (id : Nat) : Nat :=
  (t.controls.map (fun c => c.1)).indexOf id

/-- The control device on a bus on which every transfer succeeds.  Its state is the
position of the selected control: a write to the index register selects by position, a
write to the id register by id.  It is always idle and answers the sentinel to the
registers of a position past the table and to every other register. -/
def ctrlEnv (t : CtrlDev) : Env Nat where
  I2C_READ_RETRY_COUNT := 3
  I2C_WRITE_RETRY_COUNT := 2
  V4L2_CID_ARDUCAM_FRAME_RATE := 0x00981905
  xfer_write := fun s addr val =>
    match addr with
    | Reg.CTRL_INDEX_REG => (true, val)
    | Reg.CTRL_ID_REG => (true, t.position val)
    | _ => (true, s)
  xfer_read := fun s addr =>
    match addr, t.controls[s]? with
    | Reg.SYSTEM_IDLE_REG, _ => (some 0, s)
    | Reg.CTRL_ID_REG, some c => (some c.1, s)
    | Reg.CTRL_MIN_REG, some c => (some c.2.1, s)
    | Reg.CTRL_MAX_REG, some c => (some c.2.2.1, s)
    | Reg.CTRL_DEF_REG, some c => (some c.2.2.2.1, s)
    | Reg.CTRL_STEP_REG, some c => (some c.2.2.2.2, s)
    | _, _ => (some NO_DATA_AVAILABLE, s)

/-- A device reporting `n` controls, ids `0x00990000` onwards, each with the range 0..1,
default 0 and step 1. -/
def manyCtrlDev (n : Nat) : CtrlDev :=
  { controls := (List.range n).map (fun i => (0x00990000 + i, 0, 1, 0, 1)) }

/-- Locals of the control pass holding zero on entry. -/
def zeroCtrlLocals : enum_controls_locals :=
  { id := 0, max := 0, min := 0, dflt := 0, step := 0 }

/-- Every call into the framework returns 0. -/
def callsOk : enum_controls_calls :=
  { v4l2_ctrl_handler_init := 0, v4l2_fwnode_device_parse := 0,
    v4l2_ctrl_new_fwnode_properties := 0 }

/-- A device on a bus that fails the transfers picked by `fails`, counted from 0 in the
order they are made.  A failed transfer leaves the device as it was. -/
def flakyEnv {σ : Type} (e : Env σ) (fails : Nat → Bool) : Env (σ × Nat) where
  I2C_READ_RETRY_COUNT := e.I2C_READ_RETRY_COUNT
  I2C_WRITE_RETRY_COUNT := e.I2C_WRITE_RETRY_COUNT
  V4L2_CID_ARDUCAM_FRAME_RATE := e.V4L2_CID_ARDUCAM_FRAME_RATE
  xfer_write := fun s addr val =>
    if fails s.2 then (false, (s.1, s.2 + 1))
    else ((e.xfer_write s.1 addr val).1, ((e.xfer_write s.1 addr val).2, s.2 + 1))
  xfer_read := fun s addr =>
    if fails s.2 then (none, (s.1, s.2 + 1))
    else ((e.xfer_read s.1 addr).1, ((e.xfer_read s.1 addr).2, s.2 + 1))

/-- An all-zero rectangle. -/
def zeroRect : v4l2_rect := { left := 0, top := 0, width := 0, height := 0 }

/-- A device with the one control horizontal blanking, range 1..100, default 10, step 1. -/
def hblankDev : CtrlDev :=
  { controls := [(V4L2_CID_HBLANK, 1, 100, 10, 1)] }

/-- A session with the horizontal blanking control bound, range not yet set. -/
def hblankSession : arducam :=
  { zeroSession with ctrls := [{ id := V4L2_CID_HBLANK, val := 0 }] }


/-- A device reporting the two flip controls, each with the range 0..1, default 0 and
step 1. -/
def flipDev : CtrlDev :=
  { controls := [(V4L2_CID_HFLIP, 0, 1, 0, 1), (V4L2_CID_VFLIP, 0, 1, 0, 1)] }

/-- A flip control as the control pass creates it from `flipDev` in a session: range
0..1, value 0, and the layout flag when the colour order of the session is volatile. -/
def flipControl (priv : arducam) (id : Nat) : v4l2_ctrl :=
  enum_controls_flags priv (v4l2_ctrl_new id 0 1 1 0)

/-- The session the control pass yields from `sessionOf formats volatile` on `flipDev`:
both flip controls bound, at value 0. -/
def flipSession (formats : List arducam_format) (volatile : Bool) : arducam :=
  { sessionOf formats volatile with
    hflip := some (flipControl (sessionOf formats volatile) V4L2_CID_HFLIP),
    vflip := some (flipControl (sessionOf formats volatile) V4L2_CID_VFLIP),
    ctrls := [flipControl (sessionOf formats volatile) V4L2_CID_HFLIP,
              flipControl (sessionOf formats volatile) V4L2_CID_VFLIP] }

/-- The session the control pass yields from `sessionOf formats volatile` on
`manyCtrlDev 32`: all 32 entries of the table are bound, none to an id that
`update_controls` refreshes. -/
def fullTableSession (formats : List arducam_format) (volatile : Bool) : arducam :=
  { sessionOf formats volatile with
    ctrls := (List.range 32).map (fun i => v4l2_ctrl_new (0x00990000 + i) 0 1 1 0) }

/-- A device with both tables on a bus on which every transfer succeeds: the control
registers are those of the control device `c`, every other register is that of the
table-driven device `t`. -/
def comboEnv (t : TableDev) (c : CtrlDev) : Env (TableState × Nat) where
  I2C_READ_RETRY_COUNT := 3
  I2C_WRITE_RETRY_COUNT := 2
  V4L2_CID_ARDUCAM_FRAME_RATE := 0x00981905
  xfer_write := fun s addr val =>
    match addr with
    | Reg.CTRL_INDEX_REG | Reg.CTRL_ID_REG | Reg.CTRL_VALUE_REG =>
      (((ctrlEnv c).xfer_write s.2 addr val).1, (s.1, ((ctrlEnv c).xfer_write s.2 addr val).2))
    | _ =>
      (((tableEnv t).xfer_write s.1 addr val).1, (((tableEnv t).xfer_write s.1 addr val).2, s.2))
  xfer_read := fun s addr =>
    match addr with
    | Reg.CTRL_ID_REG | Reg.CTRL_MIN_REG | Reg.CTRL_MAX_REG | Reg.CTRL_DEF_REG
    | Reg.CTRL_STEP_REG =>
      (((ctrlEnv c).xfer_read s.2 addr).1, (s.1, ((ctrlEnv c).xfer_read s.2 addr).2))
    | _ => (((tableEnv t).xfer_read s.1 addr).1, (((tableEnv t).xfer_read s.1 addr).2, s.2))

/-- The device of the scenario with 32 controls, none of which `update_controls`
refreshes. -/
def fullTableEnv : Env (TableState × Nat) := comboEnv scenarioDev (manyCtrlDev 32)

/-- The device `fullTableEnv` on a bus that fails both attempts of the first write to
the control-id register that `arducam_csi2_set_fmt` makes (transfers 3 and 4 of the
call) and no other transfer. -/
def fullTableFlakyEnv : Env ((TableState × Nat) × Nat) :=
  flakyEnv fullTableEnv (fun k => decide (k = 3 ∨ k = 4))

/-- The device of the scenario with the two flip controls. -/
def scenarioFlipEnv : Env (TableState × Nat) := comboEnv scenarioDev flipDev

/-- The monochrome device with the two flip controls. -/
def greyFlipEnv : Env (TableState × Nat) := comboEnv greyDev flipDev

/-- A device reporting the horizontal flip as its only control. -/
def hflipOnlyDev : CtrlDev :=
  { controls := [(V4L2_CID_HFLIP, 0, 1, 0, 1)] }

/-- A session with a volatile colour order in which the horizontal flip is bound and the
vertical flip is not: the `vflip` pointer is null. -/
def hflipOnlySession (formats : List arducam_format) : arducam :=
  { sessionOf formats true with
    hflip := some (flipControl (sessionOf formats true) V4L2_CID_HFLIP),
    ctrls := [flipControl (sessionOf formats true) V4L2_CID_HFLIP] }
/-! ## Lemmas -/

theorem first_match_none {α : Type} (p : α → Bool) (l : List α) (k : Nat) :
    first_match p l k = none ↔ ∀ x ∈ l, p x = false := by
  induction l generalizing k with
  | nil => simp [first_match]
  | cons a l ih =>
    by_cases h : p a = true
    · simp [first_match, h]
    · simp [first_match, h, ih]

theorem first_match_some {α : Type} (p : α → Bool) (l : List α) (k i : Nat)
    (h : first_match p l k = some i) :
    ∃ j, i = k + j ∧ (∃ x, l[j]? = some x ∧ p x = true) ∧
      ∀ j2, j2 < j → ∀ y, l[j2]? = some y → p y = false := by
  induction l generalizing k with
  | nil => simp [first_match] at h
  | cons a l ih =>
    by_cases ha : p a = true
    · simp only [first_match, ha, if_true, Option.some.injEq] at h
      refine ⟨0, by omega, ⟨a, by simp, ha⟩, ?_⟩
      intro j2 hj2; omega
    · simp only [first_match, ha, Bool.false_eq_true, if_false] at h
      obtain ⟨j, hij, ⟨x, hx, hpx⟩, hlow⟩ := ih (k + 1) h
      refine ⟨j + 1, by omega, ⟨x, by simpa using hx, hpx⟩, ?_⟩
      intro j2 hj2 y hy
      cases j2 with
      | zero =>
        simp at hy
        subst hy
        simpa using ha
      | succ j3 =>
        simp at hy
        exact hlow j3 (by omega) y hy

theorem first_match_lowest {α : Type} (p : α → Bool) (l : List α) (i : Nat)
    (h : first_match p l 0 = some i) : lowest_index (fun x => p x = true) l i := by
  obtain ⟨j, hij, hx, hlow⟩ := first_match_some p l 0 i h
  have : i = j := by omega
  subst this
  refine ⟨hx, ?_⟩
  intro j2 hj2 y hy
  simp [hlow j2 hj2 y hy]

theorem first_match_exists {α : Type} (p : α → Bool) (l : List α) (k : Nat)
    (h : ∃ x ∈ l, p x = true) : ∃ i, first_match p l k = some i := by
  cases hf : first_match p l k with
  | some i => exact ⟨i, rfl⟩
  | none =>
    obtain ⟨x, hx, hpx⟩ := h
    rw [first_match_none] at hf
    rw [hf x hx] at hpx
    exact absurd hpx (by simp)

theorem first_match_lt {α : Type} (p : α → Bool) (l : List α) (i : Nat)
    (h : first_match p l 0 = some i) : i < l.length := by
  obtain ⟨⟨x, hx, _⟩, _⟩ := first_match_lowest p l i h
  exact (List.getElem?_eq_some_iff.mp hx).1

theorem codes_scan_absent (c : Nat) (l : List Nat) (k : Nat) (h : ∀ x ∈ l, x ≠ c) :
    codes_scan c l k = k + l.length := by
  induction l generalizing k with
  | nil => simp [codes_scan]
  | cons a l ih =>
    have ha : a ≠ c := h a (by simp)
    simp only [codes_scan, ha, if_false]
    rw [ih (k + 1) (fun x hx => h x (by simp [hx]))]
    simp; omega

theorem codes_scan_position (c p : Nat) (h : codes[p]? = some c) : codes_scan c codes 0 = p := by
  have hp : p < 15 := (List.getElem?_eq_some_iff.mp h).1
  interval_cases p <;> simp [codes] at h <;> subst h <;> decide

theorem codes_scan_not_in_table (c : Nat) (h : ∀ p : Nat, codes[p]? ≠ some c) :
    codes_scan c codes 0 = 15 := by
  have := codes_scan_absent c codes 0 (by
    intro x hx hxc
    obtain ⟨n, hn⟩ := List.getElem?_of_mem hx
    exact h n (by rw [hn, hxc]))
  simpa [codes] using this

theorem get_fmt_idx_by_code_unfold (priv : arducam) (code : Nat) :
    arducam_csi2_get_fmt_idx_by_code priv code =
      match fmt_scan_code code priv.supported_formats with
      | some i => (i : Int)
      | none =>
        if codes_scan code codes 0 / 5 < 3 then
          match fmt_scan_data_type (codes_scan code codes 0 / 5 + 0x2a) priv.supported_formats with
          | some i => (i : Int)
          | none => -EINVAL
        else -EINVAL := by
  unfold arducam_csi2_get_fmt_idx_by_code
  cases fmt_scan_code code priv.supported_formats with
  | some i => rfl
  | none =>
    by_cases h : codes_scan code codes 0 / 5 < 3
    · have h2 : codes_scan code codes 0 / 5 + 0x2a ≠ U32_MAX := by
        unfold U32_MAX; omega
      simp only [h, if_true, h2, ne_eq, not_false_eq_true]
    · simp [h]

theorem get_fmt_idx_by_code_range (priv : arducam) (code : Nat) :
    (∃ i : Nat, arducam_csi2_get_fmt_idx_by_code priv code = (i : Int) ∧
        i < priv.supported_formats.length) ∨
      arducam_csi2_get_fmt_idx_by_code priv code = -EINVAL := by
  rw [get_fmt_idx_by_code_unfold]
  cases h1 : fmt_scan_code code priv.supported_formats with
  | some i => exact Or.inl ⟨i, rfl, first_match_lt _ _ _ h1⟩
  | none =>
    by_cases h : codes_scan code codes 0 / 5 < 3
    · simp only [h, if_true]
      cases h2 : fmt_scan_data_type (codes_scan code codes 0 / 5 + 0x2a)
          priv.supported_formats with
      | some i => exact Or.inl ⟨i, rfl, first_match_lt _ _ _ h2⟩
      | none => exact Or.inr rfl
    · simp only [h, if_false]
      exact Or.inr trivial

theorem get_fmt_idx_by_code_exact (priv : arducam) (code i : Nat)
    (h : fmt_scan_code code priv.supported_formats = some i) :
    arducam_csi2_get_fmt_idx_by_code priv code = (i : Int) := by
  rw [get_fmt_idx_by_code_unfold, h]

theorem get_fmt_idx_by_code_unknown (priv : arducam) (code : Nat)
    (h1 : ∀ f ∈ priv.supported_formats, f.mbus_code ≠ code)
    (h2 : ∀ p : Nat, codes[p]? = some code →
      ∀ f ∈ priv.supported_formats, f.data_type ≠ 0x2A + p / 5) :
    arducam_csi2_get_fmt_idx_by_code priv code = -EINVAL := by
  rw [get_fmt_idx_by_code_unfold]
  have hn : fmt_scan_code code priv.supported_formats = none := by
    unfold fmt_scan_code
    rw [first_match_none]
    intro f hf
    simpa using h1 f hf
  rw [hn]
  by_cases hp : ∃ p : Nat, codes[p]? = some code
  · obtain ⟨p, hp⟩ := hp
    rw [codes_scan_position code p hp]
    have hn2 : fmt_scan_data_type (p / 5 + 0x2a) priv.supported_formats = none := by
      unfold fmt_scan_data_type
      rw [first_match_none]
      intro f hf
      have := h2 p hp f hf
      simp only [decide_eq_false_iff_not]
      omega
    rw [hn2]
    simp
  · rw [codes_scan_not_in_table code (by simpa using hp)]
    simp


theorem modify_range_at_ids (min max : Int) (step : Nat) (dflt : Int) (l : List v4l2_ctrl)
    (k : Nat) :
    (modify_range_at min max step dflt l k).map (fun c => c.id) = l.map (fun c => c.id) := by
  induction l generalizing k with
  | nil => rfl
  | cons a l ih =>
    cases k with
    | zero => rfl
    | succ k => simp only [modify_range_at, List.map_cons, ih]

theorem modify_range_ids (ctrls : List v4l2_ctrl) (ctrl : Option Nat) (min max : Int)
    (step : Nat) (dflt : Int) :
    (v4l2_ctrl_modify_range ctrls ctrl min max step dflt).map (fun c => c.id) =
      ctrls.map (fun c => c.id) := by
  cases ctrl with
  | none => rfl
  | some k => exact modify_range_at_ids min max step dflt ctrls k

theorem first_match_take {α : Type} (p : α → Bool) (l : List α) (n i : Nat)
    (h : ∃ x ∈ l.take n, p x = true) : ∃ k, first_match p l i = some k ∧ k < i + n := by
  induction l generalizing n i with
  | nil => simp at h
  | cons a l ih =>
    cases n with
    | zero => simp at h
    | succ n =>
      by_cases ha : p a = true
      · exact ⟨i, by simp [first_match, ha], by omega⟩
      · obtain ⟨x, hx, hpx⟩ := h
        rw [List.take_succ_cons, List.mem_cons] at hx
        rcases hx with hx | hx
        · subst hx
          exact absurd hpx ha
        · obtain ⟨k, hk, hlt⟩ := ih n (i + 1) ⟨x, hx, hpx⟩
          refine ⟨k, ?_, by omega⟩
          simp only [first_match, ha, Bool.false_eq_true, if_false]
          exact hk

theorem get_control_ends (priv : arducam) (id : Nat) (h : lookup_ends priv id) :
    ∃ r, get_control priv id = some r := by
  unfold get_control
  rcases h with h | h
  · rw [← List.map_take, List.mem_map] at h
    obtain ⟨c, hc, hcid⟩ := h
    obtain ⟨k, hk, hlt⟩ := first_match_take (fun c => decide (c.id = id)) priv.ctrls
      ctrls_capacity 0 ⟨c, hc, by simpa using hcid⟩
    rw [hk]
    rw [Nat.zero_add] at hlt
    simp only [hlt, if_true]
    exact ⟨_, rfl⟩
  · cases hf : first_match (fun c => decide (c.id = id)) priv.ctrls 0 with
    | none =>
      simp only [h, if_true]
      exact ⟨_, rfl⟩
    | some k =>
      have hk := first_match_lt _ _ _ hf
      have hlt : k < ctrls_capacity := Nat.lt_trans hk h
      simp only [hlt, if_true]
      exact ⟨_, rfl⟩

theorem lookup_ends_congr (p q : arducam) (id : Nat)
    (h : q.ctrls.map (fun c => c.id) = p.ctrls.map (fun c => c.id))
    (hp : lookup_ends p id) : lookup_ends q id := by
  unfold lookup_ends at hp ⊢
  have hlen : q.ctrls.length = p.ctrls.length := by
    have := congrArg List.length h
    simpa using this
  rw [h, hlen]
  exact hp

theorem update_control_frame_eq {σ : Type} (e : Env σ) (priv p : arducam) (id : Nat)
    (w w1 : Bus σ) (r : Int) (h : update_control e priv id w = some (r, p, w1)) :
    ∃ cs, p = { priv with ctrls := cs } ∧
      cs.map (fun c => c.id) = priv.ctrls.map (fun c => c.id) := by
  unfold update_control at h
  dsimp only at h
  split_ifs at h
  · simp only [Option.some.injEq, Prod.mk.injEq] at h
    exact ⟨priv.ctrls, h.2.1.symm, rfl⟩
  · simp only [Option.some.injEq, Prod.mk.injEq] at h
    exact ⟨priv.ctrls, h.2.1.symm, rfl⟩
  · cases hg : get_control priv id with
    | none => rw [hg] at h; simp at h
    | some ctrl =>
      rw [hg] at h
      simp only [Option.some.injEq, Prod.mk.injEq] at h
      exact ⟨_, h.2.1.symm, modify_range_ids _ _ _ _ _ _⟩

theorem update_control_returns {σ : Type} (e : Env σ) (priv : arducam) (id : Nat) (w : Bus σ)
    (h : lookup_ends priv id) : ∃ r p w1, update_control e priv id w = some (r, p, w1) := by
  obtain ⟨ctrl, hg⟩ := get_control_ends priv id h
  unfold update_control
  dsimp only
  split_ifs
  · exact ⟨_, _, _, rfl⟩
  · exact ⟨_, _, _, rfl⟩
  · rw [hg]
    exact ⟨_, _, _, rfl⟩

theorem update_controls_frame_eq {σ : Type} (e : Env σ) (priv p : arducam) (w w1 : Bus σ)
    (r : Int) (h : update_controls e priv w = some (r, p, w1)) :
    ∃ cs, p = { priv with ctrls := cs } ∧
      cs.map (fun c => c.id) = priv.ctrls.map (fun c => c.id) := by
  unfold update_controls at h
  cases hu1 : update_control e priv e.V4L2_CID_ARDUCAM_FRAME_RATE (wait_for_free e w 5) with
  | none => rw [hu1] at h; simp at h
  | some q1 =>
    obtain ⟨r1, p1, w1⟩ := q1
    rw [hu1] at h
    dsimp only at h
    cases hu2 : update_control e p1 V4L2_CID_HBLANK w1 with
    | none => rw [hu2] at h; simp at h
    | some q2 =>
      obtain ⟨r2, p2, w2⟩ := q2
      rw [hu2] at h
      dsimp only at h
      cases hu3 : update_control e p2 V4L2_CID_VBLANK w2 with
      | none => rw [hu3] at h; simp at h
      | some q3 =>
        obtain ⟨r3, p3, w3⟩ := q3
        rw [hu3] at h
        dsimp only at h
        cases hu4 : update_control e p3 V4L2_CID_PIXEL_RATE w3 with
        | none => rw [hu4] at h; simp at h
        | some q4 =>
          obtain ⟨r4, p4, w4⟩ := q4
          rw [hu4] at h
          simp only [Option.some.injEq, Prod.mk.injEq] at h
          obtain ⟨c1, h1, i1⟩ := update_control_frame_eq e _ _ _ _ _ _ hu1
          obtain ⟨c2, h2, i2⟩ := update_control_frame_eq e _ _ _ _ _ _ hu2
          obtain ⟨c3, h3, i3⟩ := update_control_frame_eq e _ _ _ _ _ _ hu3
          obtain ⟨c4, h4, i4⟩ := update_control_frame_eq e _ _ _ _ _ _ hu4
          subst h1 h2 h3 h4
          refine ⟨c4, h.2.1.symm, ?_⟩
          rw [i4, i3, i2, i1]

theorem update_control_ids {σ : Type} (e : Env σ) (priv p : arducam) (id : Nat)
    (w w1 : Bus σ) (r : Int) (h : update_control e priv id w = some (r, p, w1)) :
    p.ctrls.map (fun c => c.id) = priv.ctrls.map (fun c => c.id) := by
  obtain ⟨cs, hp, hid⟩ := update_control_frame_eq e priv p id w w1 r h
  rw [hp]
  exact hid

theorem update_controls_returns {σ : Type} (e : Env σ) (priv : arducam) (w : Bus σ)
    (h : refresh_lookups_end e priv) :
    ∃ r p w1, update_controls e priv w = some (r, p, w1) := by
  obtain ⟨h1, h2, h3, h4⟩ := h
  unfold update_controls
  obtain ⟨r1, p1, w1, hu1⟩ := update_control_returns e priv e.V4L2_CID_ARDUCAM_FRAME_RATE
    (wait_for_free e w 5) h1
  have i1 := update_control_ids e _ _ _ _ _ _ hu1
  rw [hu1]
  dsimp only
  obtain ⟨r2, p2, w2, hu2⟩ := update_control_returns e p1 V4L2_CID_HBLANK w1
    (lookup_ends_congr priv p1 _ i1 h2)
  have i2 := (update_control_ids e _ _ _ _ _ _ hu2).trans i1
  rw [hu2]
  dsimp only
  obtain ⟨r3, p3, w3, hu3⟩ := update_control_returns e p2 V4L2_CID_VBLANK w2
    (lookup_ends_congr priv p2 _ i2 h3)
  have i3 := (update_control_ids e _ _ _ _ _ _ hu3).trans i2
  rw [hu3]
  dsimp only
  obtain ⟨r4, p4, w4, hu4⟩ := update_control_returns e p3 V4L2_CID_PIXEL_RATE w3
    (lookup_ends_congr priv p3 _ i3 h4)
  rw [hu4]
  exact ⟨_, _, _, rfl⟩

theorem set_fmt_commit_frame {σ : Type} (e : Env σ) (priv p : arducam) (f : arducam_format)
    (i j : Nat) (w w1 : Bus σ) (h : set_fmt_commit e priv f i j w = some (p, w1)) :
    ∃ cs, p = { priv with current_format_idx := i, current_resolution_idx := j, ctrls := cs } ∧
      cs.map (fun c => c.id) = priv.ctrls.map (fun c => c.id) := by
  unfold set_fmt_commit at h
  dsimp only at h
  cases hu : update_controls e
      { priv with current_format_idx := i, current_resolution_idx := j }
      (arducam_write e (arducam_write e w Reg.PIXFORMAT_INDEX_REG f.index).2
        Reg.RESOLUTION_INDEX_REG j).2 with
  | none => rw [hu] at h; simp at h
  | some q =>
    obtain ⟨r, p1, w3⟩ := q
    rw [hu] at h
    simp only [Option.some.injEq, Prod.mk.injEq] at h
    obtain ⟨cs, hcs, hid⟩ := update_controls_frame_eq e _ _ _ _ _ hu
    rw [← h.1, hcs]
    exact ⟨cs, rfl, hid⟩

theorem set_fmt_commit_returns {σ : Type} (e : Env σ) (priv : arducam) (f : arducam_format)
    (i j : Nat) (w : Bus σ) (h : refresh_lookups_end e priv) :
    ∃ p w1, set_fmt_commit e priv f i j w = some (p, w1) := by
  unfold set_fmt_commit
  dsimp only
  obtain ⟨r, p, w3, hu⟩ := update_controls_returns e
    { priv with current_format_idx := i, current_resolution_idx := j }
    (arducam_write e (arducam_write e w Reg.PIXFORMAT_INDEX_REG f.index).2
      Reg.RESOLUTION_INDEX_REG j).2 h
  rw [hu]
  exact ⟨_, _, rfl⟩

theorem set_fmt_image {σ : Type} (e : Env σ) (priv : arducam) (format : v4l2_subdev_format)
    (w : Bus σ) (i : Nat) (f : arducam_format) (hpad : format.pad = IMAGE_PAD)
    (hi : arducam_csi2_get_fmt_idx_by_code priv format.format.code = (i : Int))
    (hf : priv.supported_formats[i]? = some f) :
    arducam_csi2_set_fmt e priv format w =
      match resolution_scan format.format.width format.format.height f.resolution_set with
      | some j =>
        (set_fmt_commit e priv f i j w).map (fun q =>
          ((0 : Int),
            ({ pad := format.pad,
               format := { width := format.format.width, height := format.format.height,
                           code := f.mbus_code, field := V4L2_FIELD_NONE,
                           colorspace := V4L2_COLORSPACE_SRGB } } : v4l2_subdev_format),
            q.1, q.2))
      | none =>
        match f.resolution_set[0]? with
        | none => none
        | some r =>
          (set_fmt_commit e priv f i 0 w).map (fun q =>
            ((0 : Int),
              ({ pad := format.pad,
                 format := { width := r.width, height := r.height,
                             code := f.mbus_code, field := V4L2_FIELD_NONE,
                             colorspace := V4L2_COLORSPACE_SRGB } } : v4l2_subdev_format),
              q.1, q.2)) := by
  unfold arducam_csi2_set_fmt
  have h1 : ¬ (IMAGE_PAD ≥ NUM_PADS) := by decide
  have h2 : ¬ ((i : Int) < 0) := by omega
  simp only [hpad, h1, if_false, if_true, hi, h2, Int.toNat_ofNat, hf]
  cases resolution_scan format.format.width format.format.height f.resolution_set with
  | some j =>
    dsimp only
    cases set_fmt_commit e priv f i j w <;> rfl
  | none =>
    dsimp only
    cases f.resolution_set[0]? with
    | none => rfl
    | some r =>
      dsimp only
      cases set_fmt_commit e priv f i 0 w <;> rfl

theorem set_fmt_image_error {σ : Type} (e : Env σ) (priv : arducam)
    (format : v4l2_subdev_format) (w : Bus σ) (hpad : format.pad = IMAGE_PAD)
    (hi : arducam_csi2_get_fmt_idx_by_code priv format.format.code = -EINVAL) :
    arducam_csi2_set_fmt e priv format w =
      some (-EINVAL,
        { format with format :=
            { format.format with
              colorspace := V4L2_COLORSPACE_SRGB, field := V4L2_FIELD_NONE } },
        priv, w) := by
  unfold arducam_csi2_set_fmt
  have h1 : ¬ (IMAGE_PAD ≥ NUM_PADS) := by decide
  have h2 : (-EINVAL : Int) < 0 := by decide
  simp only [hpad, h1, if_false, if_true, hi, h2]


theorem resolution_scan_some (width height : Nat) (set : List arducam_resolution) (j : Nat)
    (h : resolution_scan width height set = some j) :
    set[j]? = some { width := width, height := height } := by
  obtain ⟨⟨x, hx, hp⟩, _⟩ := first_match_lowest _ _ _ h
  simp only [decide_eq_true_eq] at hp
  rw [hx]
  cases x
  simp only at hp
  simp [hp.1, hp.2]

theorem resolution_scan_none (width height : Nat) (set : List arducam_resolution)
    (h : ∀ r ∈ set, ¬ (r.width = width ∧ r.height = height)) :
    resolution_scan width height set = none := by
  unfold resolution_scan
  rw [first_match_none]
  intro r hr
  simpa using h r hr

theorem resolution_scan_exists (width height : Nat) (set : List arducam_resolution)
    (h : ({ width := width, height := height } : arducam_resolution) ∈ set) :
    ∃ j, resolution_scan width height set = some j := by
  unfold resolution_scan
  exact first_match_exists _ _ _ ⟨_, h, by simp⟩

theorem first_match_eq_of_lowest {α : Type} (p : α → Bool) (l : List α) (i : Nat)
    (h : lowest_index (fun x => p x = true) l i) : first_match p l 0 = some i := by
  obtain ⟨⟨x, hx, hpx⟩, hlow⟩ := h
  obtain ⟨i2, hi2⟩ := first_match_exists p l 0 ⟨x, List.getElem?_mem hx, hpx⟩
  obtain ⟨⟨x2, hx2, hpx2⟩, hlow2⟩ := first_match_lowest p l i2 hi2
  rcases Nat.lt_trichotomy i2 i with hlt | heq | hgt
  · exact absurd hpx2 (hlow i2 hlt x2 hx2)
  · rw [hi2, heq]
  · exact absurd hpx (hlow2 i hgt x hx)

theorem enum_resolution_fields {σ : Type} (e : Env σ) (fuel : Nat) (w w1 : Bus σ)
    (f f1 : arducam_format) (ret : Int)
    (h : arducam_enum_resolution e fuel w f = some (ret, f1, w1)) :
    f1.index = f.index ∧ f1.mbus_code = f.mbus_code ∧ f1.bayer_order = f.bayer_order ∧
      f1.data_type = f.data_type := by
  unfold arducam_enum_resolution at h
  repeat' split at h
  all_goals simp only [Option.some.injEq, Prod.mk.injEq, reduceCtorEq] at h
  all_goals obtain ⟨_, hf, _⟩ := h
  all_goals subst hf
  all_goals exact ⟨rfl, rfl, rfl, rfl⟩

theorem enum_pixformat_loop_codes {σ : Type} (e : Env σ) (fuel room : Nat) :
    ∀ (index pixformat_type lanes : Nat) (acc : List arducam_format) (w : Bus σ)
      (ret : Int) (formats : List arducam_format) (lanes1 : Nat) (w1 : Bus σ),
      (∀ f ∈ acc, code_of_stored_pair f) →
      enum_pixformat_loop e fuel room index pixformat_type lanes acc w =
        some (ret, formats, lanes1, w1) →
      ∀ f ∈ formats, code_of_stored_pair f := by
  induction room with
  | zero =>
    intro index pixformat_type lanes acc w ret formats lanes1 w1 hacc h
    unfold enum_pixformat_loop at h
    repeat' split at h
    all_goals first
      | (simp only [Option.some.injEq, Prod.mk.injEq, reduceCtorEq] at h
         obtain ⟨_, hf, _⟩ := h
         subst hf
         exact hacc)
      | (exfalso; simp at h)
      | (exfalso; omega)
  | succ room ih =>
    intro index pixformat_type lanes acc w ret formats lanes1 w1 hacc h
    unfold enum_pixformat_loop at h
    repeat' split at h
    all_goals first
      | (simp only [Option.some.injEq, Prod.mk.injEq, reduceCtorEq] at h
         obtain ⟨_, hf, _⟩ := h
         subst hf
         exact hacc)
      | (exfalso; simp at h)
      | skip
    rename_i room0 room1 hroom x ret2 f2 w5 hres hret
    have hr : room1 = room := by omega
    subst hr
    refine ih _ _ _ _ _ _ _ _ _ ?_ h
    intro f hf
    rcases List.mem_append.mp hf with hf | hf
    · exact hacc f hf
    · simp only [List.mem_singleton] at hf
      subst hf
      obtain ⟨_, hc, ho, hd⟩ := enum_resolution_fields e fuel _ _ _ _ _ hres
      unfold code_of_stored_pair
      rw [hc, ho, hd]

theorem enum_pixformat_success {σ : Type} (e : Env σ) (fuel : Nat) (priv priv1 : arducam)
    (locals : enum_pixformat_locals) (w w1 : Bus σ)
    (h : arducam_enum_pixformat e fuel priv locals w = some (0, priv1, w1)) :
    priv1.current_format_idx = 0 ∧ priv1.current_resolution_idx = 0 ∧
      ∀ f ∈ priv1.supported_formats, code_of_stored_pair f := by
  unfold arducam_enum_pixformat at h
  repeat' split at h
  all_goals first
    | (exfalso; simp [ENODEV] at h; done)
    | skip
  all_goals
    rename_i hloop hret
    simp only [Option.some.injEq, Prod.mk.injEq, true_and] at h
    obtain ⟨hp, _⟩ := h
    subst hp
    refine ⟨rfl, rfl, ?_⟩
    exact enum_pixformat_loop_codes e fuel _ _ _ _ _ _ _ _ _ _ (by simp) hloop

theorem mbus_code_eq_zero_of_not_has (data_type order : Int)
    (hv : ¬ has_mbus_code data_type order) : data_type_to_mbus_code data_type order = 0 := by
  unfold has_mbus_code at hv
  simp only [not_or, not_and, not_le] at hv
  obtain ⟨hraw, hyuv, h565, h888⟩ := hv
  unfold data_type_to_mbus_code bayer_to_mbus_code yuv422_to_mbus_code
  by_cases hr : is_raw data_type = true
  · simp only [hr, if_true]
    by_cases hb : order < 0 ∨ order > 4
    · simp [hb]
    · simp only [hb, if_false]
      have hb2 : 0 ≤ order ∧ order ≤ 4 := by omega
      by_cases h8 : data_type = IMAGE_DT_RAW8
      · exact absurd hb2.2 (not_le.mpr (hraw (Or.inl h8) hb2.1))
      · by_cases h10 : data_type = IMAGE_DT_RAW10
        · exact absurd hb2.2 (not_le.mpr (hraw (Or.inr (Or.inl h10)) hb2.1))
        · by_cases h12 : data_type = IMAGE_DT_RAW12
          · exact absurd hb2.2 (not_le.mpr (hraw (Or.inr (Or.inr h12)) hb2.1))
          · simp [h8, h10, h12]
  · simp only [hr, Bool.false_eq_true, if_false]
    by_cases hy : data_type = IMAGE_DT_YUV422_8 ∨ data_type = IMAGE_DT_YUV422_10
    · simp only [hy, if_true]
      by_cases hb : order < 0 ∨ order > 3
      · simp [hb]
      · have hb2 : 0 ≤ order ∧ order ≤ 3 := by omega
        exact absurd hb2.2 (not_le.mpr (hyuv hy hb2.1))
    · simp [hy, h565, h888]

theorem mbus_code_ne_zero_of_has (data_type order : Int)
    (h : has_mbus_code data_type order) : data_type_to_mbus_code data_type order ≠ 0 := by
  rcases h with ⟨hd, h0, h4⟩ | ⟨hd, h0, h3⟩ | hd | hd
  · rcases hd with hd | hd | hd <;> subst hd <;> interval_cases order <;> decide
  · rcases hd with hd | hd <;> subst hd <;> interval_cases order <;> decide
  · subst hd
    have h : data_type_to_mbus_code IMAGE_DT_RGB565 order = MEDIA_BUS_FMT_RGB565_2X8_LE := rfl
    rw [h]; decide
  · subst hd
    have h : data_type_to_mbus_code IMAGE_DT_RGB888 order = MEDIA_BUS_FMT_RGB888_1X24 := rfl
    rw [h]; decide


/-- What an image-pad call that resolved its code to format `i` and returned has done:
it returned 0 with the code of the format and the size of one of its resolutions, whose
index is the new resolution index; the session differs in the two indices and in the
ranges of the bound controls only. -/
theorem set_fmt_image_result {σ : Type} (e : Env σ) (priv priv1 : arducam)
    (format format1 : v4l2_subdev_format) (w w1 : Bus σ) (ret : Int) (i : Nat)
    (f : arducam_format) (hpad : format.pad = IMAGE_PAD)
    (hi : arducam_csi2_get_fmt_idx_by_code priv format.format.code = (i : Int))
    (hf : priv.supported_formats[i]? = some f)
    (h : arducam_csi2_set_fmt e priv format w = some (ret, format1, priv1, w1)) :
    ret = 0 ∧ ∃ j r cs, f.resolution_set[j]? = some r ∧
      format1.format.code = f.mbus_code ∧ format1.format.width = r.width ∧
      format1.format.height = r.height ∧
      priv1 = { priv with current_format_idx := i, current_resolution_idx := j, ctrls := cs } ∧
      cs.map (fun c => c.id) = priv.ctrls.map (fun c => c.id) := by
  rw [set_fmt_image e priv format w i f hpad hi hf] at h
  cases hs : resolution_scan format.format.width format.format.height f.resolution_set with
  | some j =>
    rw [hs] at h
    dsimp only at h
    obtain ⟨⟨p, w2⟩, hc, hq⟩ := Option.map_eq_some'.1 h
    simp only [Prod.mk.injEq] at hq
    obtain ⟨hret, hfmt, hp, _⟩ := hq
    obtain ⟨cs, hcs, hid⟩ := set_fmt_commit_frame e priv p f i j w w2 hc
    have hr := resolution_scan_some _ _ _ _ hs
    subst hp hfmt
    exact ⟨hret.symm, j, _, cs, hr, rfl, rfl, rfl, hcs, hid⟩
  | none =>
    rw [hs] at h
    dsimp only at h
    cases h0 : f.resolution_set[0]? with
    | none => rw [h0] at h; simp at h
    | some r =>
      rw [h0] at h
      dsimp only at h
      obtain ⟨⟨p, w2⟩, hc, hq⟩ := Option.map_eq_some'.1 h
      simp only [Prod.mk.injEq] at hq
      obtain ⟨hret, hfmt, hp, _⟩ := hq
      obtain ⟨cs, hcs, hid⟩ := set_fmt_commit_frame e priv p f i 0 w w2 hc
      subst hp hfmt
      exact ⟨hret.symm, 0, r, cs, h0, rfl, rfl, rfl, hcs, hid⟩

theorem set_fmt_other_pad {σ : Type} (e : Env σ) (priv priv1 : arducam)
    (format format1 : v4l2_subdev_format) (w w1 : Bus σ) (ret : Int)
    (hpad : format.pad ≠ IMAGE_PAD)
    (h : arducam_csi2_set_fmt e priv format w = some (ret, format1, priv1, w1)) :
    priv1 = priv ∧ w1 = w := by
  unfold arducam_csi2_set_fmt at h
  by_cases h1 : format.pad ≥ NUM_PADS
  · simp only [h1, if_true, Option.some.injEq, Prod.mk.injEq] at h
    exact ⟨h.2.2.1.symm, h.2.2.2.symm⟩
  · simp only [h1, if_false, hpad, Option.some.injEq, Prod.mk.injEq] at h
    exact ⟨h.2.2.1.symm, h.2.2.2.symm⟩

theorem set_fmt_indices_in_range {σ : Type} (e : Env σ) (priv priv1 : arducam)
    (format format1 : v4l2_subdev_format) (w w1 : Bus σ) (ret : Int)
    (hin : indices_in_range priv)
    (h : arducam_csi2_set_fmt e priv format w = some (ret, format1, priv1, w1)) :
    indices_in_range priv1 := by
  by_cases hpad : format.pad = IMAGE_PAD
  · rcases get_fmt_idx_by_code_range priv format.format.code with ⟨i, hi, hlt⟩ | herr
    · obtain ⟨f, hf⟩ : ∃ f, priv.supported_formats[i]? = some f :=
        ⟨_, List.getElem?_eq_getElem hlt⟩
      obtain ⟨_, j, r, cs, hr, _, _, _, hp, _⟩ :=
        set_fmt_image_result e priv priv1 format format1 w w1 ret i f hpad hi hf h
      subst hp
      unfold indices_in_range arducam.num_supported_formats
      simp only [hf]
      exact ⟨hlt, (List.getElem?_eq_some_iff.mp hr).1⟩
    · rw [set_fmt_image_error e priv format w hpad herr] at h
      simp only [Option.some.injEq, Prod.mk.injEq] at h
      rw [← h.2.2.1]
      exact hin
  · rw [(set_fmt_other_pad e priv priv1 format format1 w w1 ret hpad h).1]
    exact hin

theorem set_fmt_formats {σ : Type} (e : Env σ) (priv priv1 : arducam)
    (format format1 : v4l2_subdev_format) (w w1 : Bus σ) (ret : Int)
    (h : arducam_csi2_set_fmt e priv format w = some (ret, format1, priv1, w1)) :
    priv1.supported_formats = priv.supported_formats := by
  by_cases hpad : format.pad = IMAGE_PAD
  · rcases get_fmt_idx_by_code_range priv format.format.code with ⟨i, hi, hlt⟩ | herr
    · obtain ⟨f, hf⟩ : ∃ f, priv.supported_formats[i]? = some f :=
        ⟨_, List.getElem?_eq_getElem hlt⟩
      obtain ⟨_, j, r, cs, _, _, _, _, hp, _⟩ :=
        set_fmt_image_result e priv priv1 format format1 w w1 ret i f hpad hi hf h
      rw [hp]
    · rw [set_fmt_image_error e priv format w hpad herr] at h
      simp only [Option.some.injEq, Prod.mk.injEq] at h
      rw [← h.2.2.1]
  · rw [(set_fmt_other_pad e priv priv1 format format1 w w1 ret hpad h).1]

theorem set_fmt_returns {σ : Type} (e : Env σ) (priv : arducam)
    (format : v4l2_subdev_format) (w : Bus σ)
    (hres : ∀ f ∈ priv.supported_formats, 0 < f.num_resolution_set)
    (hends : refresh_lookups_end e priv) :
    ∃ r, arducam_csi2_set_fmt e priv format w = some r := by
  by_cases hpad : format.pad = IMAGE_PAD
  · rcases get_fmt_idx_by_code_range priv format.format.code with ⟨i, hi, hlt⟩ | herr
    · obtain ⟨f, hf⟩ : ∃ f, priv.supported_formats[i]? = some f :=
        ⟨_, List.getElem?_eq_getElem hlt⟩
      rw [set_fmt_image e priv format w i f hpad hi hf]
      cases hs : resolution_scan format.format.width format.format.height
          f.resolution_set with
      | some j =>
        obtain ⟨p, w1, hc⟩ := set_fmt_commit_returns e priv f i j w hends
        dsimp only
        rw [hc]
        exact ⟨_, rfl⟩
      | none =>
        have hpos : 0 < f.resolution_set.length := hres f (List.getElem?_mem hf)
        rw [List.getElem?_eq_getElem hpos]
        obtain ⟨p, w1, hc⟩ := set_fmt_commit_returns e priv f i 0 w hends
        dsimp only
        rw [hc]
        exact ⟨_, rfl⟩
    · exact ⟨_, set_fmt_image_error e priv format w hpad herr⟩
  · unfold arducam_csi2_set_fmt
    by_cases h1 : format.pad ≥ NUM_PADS
    · simp only [h1, if_true]
      exact ⟨_, rfl⟩
    · simp only [h1, if_false, hpad]
      exact ⟨_, rfl⟩

theorem option_triple_of_map {α β γ : Type} (o : Option (α × β × γ)) (a : α) (b : β)
    (h : o.map (fun r => (r.1, r.2.1)) = some (a, b)) : ∃ c, o = some (a, b, c) := by
  cases o with
  | none => simp at h
  | some r =>
    obtain ⟨a1, b1, c1⟩ := r
    simp only [Option.map_some', Option.some.injEq, Prod.mk.injEq] at h
    exact ⟨c1, by rw [h.1, h.2]⟩


theorem get_format_code_fixed (priv : arducam) (f : arducam_format)
    (hvol : priv.bayer_order_volatile = false) :
    arducam_get_format_code priv f =
      some (data_type_to_mbus_code (u32_to_int f.data_type) (u32_to_int f.bayer_order)) := by
  unfold arducam_get_format_code
  simp [hvol]

theorem get_format_code_logical (priv : arducam) (f : arducam_format) (ch cv : v4l2_ctrl)
    (hvol : priv.bayer_order_volatile = true) (hh : priv.hflip = some ch)
    (hvf : priv.vflip = some cv) :
    arducam_get_format_code priv f =
      some (data_type_to_mbus_code (u32_to_int f.data_type)
        (u32_to_int (logical_order ch.val cv.val f))) := by
  unfold arducam_get_format_code logical_order
  simp only [hvol, not_true_eq_false, if_false, hh, hvf]
  by_cases h1 : ch.val = 0 <;> by_cases h2 : cv.val = 0 <;> simp [h1, h2]

theorem get_format_code_readable (priv : arducam) (f : arducam_format)
    (h : flips_readable priv) : ∃ c, arducam_get_format_code priv f = some c := by
  cases hvol : priv.bayer_order_volatile with
  | false => exact ⟨_, get_format_code_fixed priv f hvol⟩
  | true =>
    obtain ⟨h1, h2⟩ := h hvol
    obtain ⟨ch, hh⟩ := Option.ne_none_iff_exists'.1 h1
    obtain ⟨cv, hvf⟩ := Option.ne_none_iff_exists'.1 h2
    exact ⟨_, get_format_code_logical priv f ch cv hvol hh hvf⟩

theorem get_format_code_congr (p q : arducam) (f g : arducam_format)
    (hv : p.bayer_order_volatile = q.bayer_order_volatile)
    (hh : p.hflip.map (fun c => c.val) = q.hflip.map (fun c => c.val))
    (hvf : p.vflip.map (fun c => c.val) = q.vflip.map (fun c => c.val))
    (hd : f.data_type = g.data_type) (ho : f.bayer_order = g.bayer_order) :
    arducam_get_format_code p f = arducam_get_format_code q g := by
  unfold arducam_get_format_code
  rw [hv, hd, ho]
  cases h1 : p.hflip <;> cases h2 : q.hflip <;> cases h3 : p.vflip <;>
    cases h4 : q.vflip <;> simp_all

theorem refresh_format_codes_returns (priv : arducam) (l : List arducam_format)
    (h : flips_readable priv) : ∃ l1, refresh_format_codes priv l = some l1 := by
  induction l with
  | nil => exact ⟨[], rfl⟩
  | cons a l ih =>
    obtain ⟨c, hc⟩ := get_format_code_readable priv a h
    obtain ⟨l1, hl1⟩ := ih
    refine ⟨{ a with mbus_code := c } :: l1, ?_⟩
    simp only [refresh_format_codes, hc, hl1]

theorem refresh_format_codes_cons (priv : arducam) (a : arducam_format)
    (l l1 : List arducam_format) (h : refresh_format_codes priv (a :: l) = some l1) :
    ∃ c l2, arducam_get_format_code priv a = some c ∧ refresh_format_codes priv l = some l2 ∧
      l1 = { a with mbus_code := c } :: l2 := by
  simp only [refresh_format_codes] at h
  cases hc : arducam_get_format_code priv a with
  | none => rw [hc] at h; simp at h
  | some c =>
    rw [hc] at h
    cases hl : refresh_format_codes priv l with
    | none => rw [hl] at h; simp at h
    | some l2 =>
      rw [hl] at h
      simp only [Option.some.injEq] at h
      exact ⟨c, l2, rfl, rfl, h.symm⟩

theorem refresh_format_codes_getElem (priv : arducam) (l l1 : List arducam_format)
    (h : refresh_format_codes priv l = some l1) (i : Nat) (f : arducam_format)
    (hf : l[i]? = some f) :
    ∃ c, arducam_get_format_code priv f = some c ∧ l1[i]? = some { f with mbus_code := c } := by
  induction l generalizing i l1 with
  | nil => simp at hf
  | cons a l ih =>
    obtain ⟨c, l2, hc, hl2, hl1⟩ := refresh_format_codes_cons priv a l l1 h
    subst hl1
    cases i with
    | zero =>
      simp only [List.getElem?_cons_zero, Option.some.injEq] at hf
      subst hf
      exact ⟨c, hc, by simp⟩
    | succ i =>
      simp only [List.getElem?_cons_succ] at hf ⊢
      exact ih l2 hl2 i hf

theorem refresh_format_codes_mem (priv : arducam) (l l1 : List arducam_format)
    (h : refresh_format_codes priv l = some l1) (g : arducam_format) (hg : g ∈ l1) :
    ∃ f ∈ l, ∃ c, arducam_get_format_code priv f = some c ∧ g = { f with mbus_code := c } := by
  induction l generalizing l1 with
  | nil =>
    simp only [refresh_format_codes, Option.some.injEq] at h
    subst h
    simp at hg
  | cons a l ih =>
    obtain ⟨c, l2, hc, hl2, hl1⟩ := refresh_format_codes_cons priv a l l1 h
    subst hl1
    rw [List.mem_cons] at hg
    rcases hg with hg | hg
    · exact ⟨a, by simp, c, hc, hg⟩
    · obtain ⟨f, hf, c2, hc2, hgf⟩ := ih l2 hl2 hg
      exact ⟨f, by simp [hf], c2, hc2, hgf⟩

theorem refresh_format_codes_shape (priv : arducam) (l l1 : List arducam_format)
    (h : refresh_format_codes priv l = some l1) :
    l1.map format_shape = l.map format_shape := by
  induction l generalizing l1 with
  | nil =>
    simp only [refresh_format_codes, Option.some.injEq] at h
    subst h
    rfl
  | cons a l ih =>
    obtain ⟨c, l2, hc, hl2, hl1⟩ := refresh_format_codes_cons priv a l l1 h
    subst hl1
    simp only [List.map_cons, ih l2 hl2, format_shape]

theorem xor_swap (a b c : Nat) : (a ^^^ b) ^^^ c = (a ^^^ c) ^^^ b := by
  rw [Nat.xor_assoc, Nat.xor_comm b c, ← Nat.xor_assoc]

theorem logical_order_toggle (f : arducam_format) (h v cv : Int) (hv : v ≠ 0 ↔ h = 0) :
    logical_order v cv f = logical_order h cv f ^^^ 1 := by
  unfold logical_order
  by_cases hh : h = 0
  · have hv1 : v ≠ 0 := hv.mpr hh
    by_cases hvf : cv = 0
    · simp [hv1, hh, hvf]
    · simp only [hv1, hh, hvf, ne_eq, not_false_eq_true, not_true_eq_false, if_true,
        if_false, Nat.xor_zero]
      exact xor_swap _ _ _
  · have hv0 : v = 0 := by
      by_contra hne
      exact hh (hv.mp hne)
    by_cases hvf : cv = 0
    · simp only [hv0, hh, hvf, ne_eq, not_false_eq_true, not_true_eq_false, if_true,
        if_false, Nat.xor_zero]
      rw [Nat.xor_cancel_right]
    · simp only [hv0, hh, hvf, ne_eq, not_false_eq_true, not_true_eq_false, if_true,
        if_false, Nat.xor_zero]
      rw [xor_swap f.bayer_order 1, Nat.xor_cancel_right]

theorem s_ctrl_write_session {σ : Type} (e : Env σ) (priv : arducam) (ctrl : v4l2_ctrl)
    (w : Bus σ) : (s_ctrl_write e priv ctrl w).2.1 = priv := by
  unfold s_ctrl_write
  dsimp only
  split_ifs <;> rfl

theorem s_ctrl_write_ret {σ : Type} (e : Env σ) (priv : arducam) (ctrl : v4l2_ctrl)
    (w : Bus σ) :
    (s_ctrl_write e priv ctrl w).1 = 0 ∨ (s_ctrl_write e priv ctrl w).1 = -EINVAL := by
  unfold s_ctrl_write
  dsimp only
  split_ifs <;> first | exact Or.inl rfl | exact Or.inr rfl

/-- What a call of `arducam_s_ctrl` that returned has done: it returned 0 or `-EINVAL`,
and the session is as before for an id that is no flip id, and has the recomputed codes
for a flip id. -/
theorem s_ctrl_result {σ : Type} (e : Env σ) (priv p : arducam) (ctrl : v4l2_ctrl)
    (w w1 : Bus σ) (ret : Int) (h : arducam_s_ctrl e priv ctrl w = some (ret, p, w1)) :
    (ret = 0 ∨ ret = -EINVAL) ∧
    ((ctrl.id = V4L2_CID_VFLIP ∨ ctrl.id = V4L2_CID_HFLIP) →
      ∃ l1, refresh_format_codes priv priv.supported_formats = some l1 ∧
        p = { priv with supported_formats := l1 }) ∧
    (¬ (ctrl.id = V4L2_CID_VFLIP ∨ ctrl.id = V4L2_CID_HFLIP) → p = priv) := by
  unfold arducam_s_ctrl at h
  by_cases hid : ctrl.id = V4L2_CID_VFLIP ∨ ctrl.id = V4L2_CID_HFLIP
  · rw [if_pos hid] at h
    cases hl : refresh_format_codes priv priv.supported_formats with
    | none => rw [hl] at h; simp at h
    | some l1 =>
      rw [hl] at h
      simp only [Option.some.injEq] at h
      have h1 := s_ctrl_write_ret e { priv with supported_formats := l1 } ctrl w
      have h2 := s_ctrl_write_session e { priv with supported_formats := l1 } ctrl w
      rw [h] at h1 h2
      exact ⟨h1, fun _ => ⟨l1, rfl, h2⟩, fun hn => absurd hid hn⟩
  · rw [if_neg hid] at h
    simp only [Option.some.injEq] at h
    have h1 := s_ctrl_write_ret e priv ctrl w
    have h2 := s_ctrl_write_session e priv ctrl w
    rw [h] at h1 h2
    exact ⟨h1, fun hy => absurd hy hid, fun _ => h2⟩

theorem s_ctrl_returns {σ : Type} (e : Env σ) (priv : arducam) (ctrl : v4l2_ctrl) (w : Bus σ)
    (h : flips_readable priv) : ∃ ret p w1, arducam_s_ctrl e priv ctrl w = some (ret, p, w1) := by
  unfold arducam_s_ctrl
  by_cases hid : ctrl.id = V4L2_CID_VFLIP ∨ ctrl.id = V4L2_CID_HFLIP
  · rw [if_pos hid]
    obtain ⟨l1, hl1⟩ := refresh_format_codes_returns priv priv.supported_formats h
    rw [hl1]
    exact ⟨_, _, _, rfl⟩
  · rw [if_neg hid]
    exact ⟨_, _, _, rfl⟩

theorem store_control_frame (priv : arducam) (id : Nat) (c : v4l2_ctrl) :
    (store_control priv id c).supported_formats = priv.supported_formats ∧
    (store_control priv id c).current_format_idx = priv.current_format_idx ∧
    (store_control priv id c).current_resolution_idx = priv.current_resolution_idx ∧
    (store_control priv id c).bayer_order_volatile = priv.bayer_order_volatile ∧
    (store_control priv id c).streaming = priv.streaming ∧
    (store_control priv id c).wait_until_free = priv.wait_until_free := by
  unfold store_control
  split_ifs <;> exact ⟨rfl, rfl, rfl, rfl, rfl, rfl⟩

theorem store_control_readable (priv : arducam) (id : Nat) (c : v4l2_ctrl)
    (h : flips_readable priv) : flips_readable (store_control priv id c) := by
  unfold store_control
  split_ifs
  · intro hvol
    exact ⟨by simp, (h hvol).2⟩
  · intro hvol
    exact ⟨(h hvol).1, by simp⟩
  · exact h

theorem set_control_unbound {σ : Type} (e : Env σ) (priv : arducam) (id : Nat) (v : Int)
    (w : Bus σ) (h : find_control priv id = none) :
    set_control e priv id v w = some (-EINVAL, priv, w) := by
  unfold set_control
  rw [h]

theorem set_control_grabbed {σ : Type} (e : Env σ) (priv : arducam) (id : Nat) (v : Int)
    (w : Bus σ) (c : v4l2_ctrl) (h : find_control priv id = some c) (hg : ctrl_grabbed c) :
    set_control e priv id v w = some (- EBUSY, priv, w) := by
  unfold set_control
  rw [h]
  unfold ctrl_grabbed at hg
  dsimp only
  rw [if_pos hg]

theorem set_control_bound {σ : Type} (e : Env σ) (priv : arducam) (id : Nat) (v : Int)
    (w : Bus σ) (c : v4l2_ctrl) (h : find_control priv id = some c) (hg : ¬ ctrl_grabbed c) :
    set_control e priv id v w =
      arducam_s_ctrl e (store_control priv id { c with id := id, val := v })
        { c with id := id, val := v } w := by
  unfold set_control
  rw [h]
  unfold ctrl_grabbed at hg
  dsimp only
  rw [if_neg hg]

theorem set_control_returns {σ : Type} (e : Env σ) (priv : arducam) (id : Nat) (v : Int)
    (w : Bus σ) (h : flips_readable priv) :
    ∃ ret p w1, set_control e priv id v w = some (ret, p, w1) := by
  cases hf : find_control priv id with
  | none => exact ⟨_, _, _, set_control_unbound e priv id v w hf⟩
  | some c =>
    by_cases hg : ctrl_grabbed c
    · exact ⟨_, _, _, set_control_grabbed e priv id v w c hf hg⟩
    · rw [set_control_bound e priv id v w c hf hg]
      exact s_ctrl_returns e _ _ w (store_control_readable priv id _ h)

theorem table_entry_code (data_type : Int) (k c : Nat)
    (h : (table_of_data_type data_type)[k]? = some c) :
    data_type_to_mbus_code data_type (u32_to_int k) = c := by
  unfold table_of_data_type at h
  split_ifs at h with h1 h2 h3 h4 h5
  · have hk : k < 5 := (List.getElem?_eq_some_iff.mp h).1
    subst h1
    interval_cases k <;> simp [bayer_depth8] at h <;> subst h <;> decide
  · have hk : k < 5 := (List.getElem?_eq_some_iff.mp h).1
    subst h2
    interval_cases k <;> simp [bayer_depth10] at h <;> subst h <;> decide
  · have hk : k < 5 := (List.getElem?_eq_some_iff.mp h).1
    subst h3
    interval_cases k <;> simp [bayer_depth12] at h <;> subst h <;> decide
  · have hk : k < 4 := (List.getElem?_eq_some_iff.mp h).1
    subst h4
    interval_cases k <;> simp [yuv422_depth8] at h <;> subst h <;> decide
  · have hk : k < 4 := (List.getElem?_eq_some_iff.mp h).1
    subst h5
    interval_cases k <;> simp [yuv422_depth10] at h <;> subst h <;> decide
  · simp at h


theorem read_loop_ret {σ : Type} (e : Env σ) (addr : Reg) (n : Nat) (ret : Int) (val : Nat)
    (w : Bus σ) (h : ret = 0 ∨ ret = -1) :
    (arducam_read_loop e addr n ret val w).1 = 0 ∨
      (arducam_read_loop e addr n ret val w).1 = -1 := by
  induction n generalizing ret val w with
  | zero => exact h
  | succ n ih =>
    unfold arducam_read_loop arducam_readl_reg
    rcases e.xfer_read w.dev addr with ⟨_ | data, s⟩
    · exact ih _ _ _ (Or.inr rfl)
    · exact Or.inl rfl

theorem arducam_read_ret {σ : Type} (e : Env σ) (w : Bus σ) (addr : Reg) (val : Nat) :
    (arducam_read e w addr val).1 = 0 ∨ (arducam_read e w addr val).1 = -1 :=
  read_loop_ret e addr _ _ _ _ (Or.inr rfl)

theorem update_control_unfold {σ : Type} (e : Env σ) (priv : arducam) (id : Nat) (w : Bus σ) :
    (update_control e priv id w).map (fun r => r.2.1) =
      if (update_control_reads e w id).max_ret + (update_control_reads e w id).min_ret +
          (update_control_reads e w id).def_ret + (update_control_reads e w id).step_ret < 0
      then some priv
      else if id = NO_DATA_AVAILABLE ∨ (update_control_reads e w id).max = NO_DATA_AVAILABLE ∨
          (update_control_reads e w id).min = NO_DATA_AVAILABLE ∨
          (update_control_reads e w id).dflt = NO_DATA_AVAILABLE ∨
          (update_control_reads e w id).step = NO_DATA_AVAILABLE then some priv
      else
        (get_control priv id).map (fun ctrl =>
          (fun cs => { priv with ctrls := cs })
            (v4l2_ctrl_modify_range priv.ctrls ctrl
              (update_control_reads e w id).min (update_control_reads e w id).max
              (update_control_reads e w id).step (update_control_reads e w id).dflt)) := by
  unfold update_control update_control_reads update_control_select
  dsimp only
  split_ifs
  · rfl
  · rfl
  · cases get_control priv id <;> rfl

theorem modify_range_at_getElem (min max : Int) (step : Nat) (dflt : Int)
    (cs : List v4l2_ctrl) (k : Nat) (c : v4l2_ctrl) (h : cs[k]? = some c) :
    (modify_range_at min max step dflt cs k)[k]? =
      some { c with minimum := min, maximum := max, step := step, default_value := dflt } := by
  induction cs generalizing k with
  | nil => simp at h
  | cons a cs ih =>
    cases k with
    | zero =>
      simp only [List.getElem?_cons_zero, Option.some.injEq] at h
      subst h
      simp [modify_range_at]
    | succ k =>
      simp only [List.getElem?_cons_succ] at h
      simp only [modify_range_at, List.getElem?_cons_succ]
      exact ih k h

theorem modify_range_at_other (min max : Int) (step : Nat) (dflt : Int)
    (cs : List v4l2_ctrl) (k j : Nat) (h : j ≠ k) :
    (modify_range_at min max step dflt cs k)[j]? = cs[j]? := by
  induction cs generalizing k j with
  | nil => simp [modify_range_at]
  | cons a cs ih =>
    cases k with
    | zero =>
      cases j with
      | zero => exact absurd rfl h
      | succ j => simp [modify_range_at]
    | succ k =>
      cases j with
      | zero => simp [modify_range_at]
      | succ j =>
        simp only [modify_range_at, List.getElem?_cons_succ]
        exact ih k j (fun hjk => h (by rw [hjk]))

theorem indexed_write {σ : Type} {e : Env σ} {idx_reg : Reg} {cursor : σ → Nat}
    {inv : σ → Prop} (hdev : indexed_device e idx_reg cursor inv) (w : Bus σ) (v : Nat)
    (hw : inv w.dev) :
    arducam_write e w idx_reg v =
      (0, { dev := (e.xfer_write w.dev idx_reg (v % 2 ^ 32)).2,
            log := w.log ++ [BusOp.write idx_reg (v % 2 ^ 32) true] }) := by
  obtain ⟨b, hb⟩ := Nat.exists_eq_succ_of_ne_zero (Nat.pos_iff_ne_zero.1 hdev.write_budget)
  have hok := hdev.write_ok w.dev (v % 2 ^ 32) hw
  unfold arducam_write
  rw [hb]
  unfold arducam_write_loop arducam_writel_reg
  rcases hx : e.xfer_write w.dev idx_reg (v % 2 ^ 32) with ⟨ok, s⟩
  rw [hx] at hok
  simp only at hok
  subst hok
  rfl

theorem indexed_read {σ : Type} {e : Env σ} {idx_reg : Reg} {cursor : σ → Nat}
    {inv : σ → Prop} {val_reg : Reg} {f : Nat → Nat}
    (hdev : indexed_device e idx_reg cursor inv) (hans : answers e cursor inv val_reg f)
    (w : Bus σ) (val : Nat) (hw : inv w.dev) :
    arducam_read e w val_reg val =
      (0, f (cursor w.dev) % 2 ^ 32,
        { dev := (e.xfer_read w.dev val_reg).2,
          log := w.log ++ [BusOp.read val_reg (some (f (cursor w.dev)))] }) := by
  obtain ⟨b, hb⟩ := Nat.exists_eq_succ_of_ne_zero (Nat.pos_iff_ne_zero.1 hdev.read_budget)
  have hok := hans w.dev hw
  unfold arducam_read
  rw [hb]
  unfold arducam_read_loop arducam_readl_reg
  rcases hx : e.xfer_read w.dev val_reg with ⟨res, s⟩
  rw [hx] at hok
  simp only at hok
  subst hok
  rfl

theorem length_of_set_loop_walk {σ : Type} {e : Env σ} {idx_reg : Reg} {cursor : σ → Nat}
    {inv : σ → Prop} {val_reg : Reg} {f : Nat → Nat}
    (hdev : indexed_device e idx_reg cursor inv) (hans : answers e cursor inv val_reg f)
    (n : Nat) (hn : n < 2 ^ 32) (hlt : ∀ k, k < n → f k % 2 ^ 32 ≠ NO_DATA_AVAILABLE)
    (hat : f n % 2 ^ 32 = NO_DATA_AVAILABLE) :
    ∀ (d i fuel val : Nat) (w : Bus σ), i + d = n → d < fuel → inv w.dev →
      ∃ w1, length_of_set_loop e idx_reg val_reg fuel i val w = some ((n : Int), w1) ∧
        w1.log = w.log ++
          (List.range' i (d + 1)).flatMap
            (fun k => [BusOp.write idx_reg k true, BusOp.read val_reg (some (f k))]) ++
          [BusOp.write idx_reg 0 true] := by
  intro d
  induction d with
  | zero =>
    intro i fuel val w hi hfuel hw
    obtain ⟨fuel1, rfl⟩ := Nat.exists_eq_succ_of_ne_zero (Nat.pos_iff_ne_zero.1 hfuel)
    have hin : i = n := by omega
    subst hin
    have hmod : i % 2 ^ 32 = i := Nat.mod_eq_of_lt hn
    unfold length_of_set_loop
    rw [indexed_write hdev w i hw]
    dsimp only
    have hw1 : inv (e.xfer_write w.dev idx_reg (i % 2 ^ 32)).2 := hdev.write_inv _ _ hw
    rw [indexed_read hdev hans _ val hw1]
    dsimp only
    have hc : cursor (e.xfer_write w.dev idx_reg (i % 2 ^ 32)).2 = i := by
      rw [hdev.write_cursor _ _ hw, hmod]
    rw [hc]
    have hw2 : inv (e.xfer_read (e.xfer_write w.dev idx_reg (i % 2 ^ 32)).2 val_reg).2 :=
      hdev.read_inv _ _ hw1
    rw [indexed_write hdev _ 0 hw2]
    have h0 : ¬ ((0 : Int) + 0 < 0) := by decide
    simp only [hat, if_true, hmod, h0, if_false]
    refine ⟨_, rfl, ?_⟩
    simp [List.range']
  | succ d ih =>
    intro i fuel val w hi hfuel hw
    obtain ⟨fuel1, rfl⟩ := Nat.exists_eq_succ_of_ne_zero
      (Nat.pos_iff_ne_zero.1 (Nat.lt_of_le_of_lt (Nat.zero_le _) hfuel))
    have hin : i < n := by omega
    have hmod : i % 2 ^ 32 = i := Nat.mod_eq_of_lt (Nat.lt_trans hin hn)
    unfold length_of_set_loop
    rw [indexed_write hdev w i hw]
    dsimp only
    have hw1 : inv (e.xfer_write w.dev idx_reg (i % 2 ^ 32)).2 := hdev.write_inv _ _ hw
    rw [indexed_read hdev hans _ val hw1]
    dsimp only
    have hc : cursor (e.xfer_write w.dev idx_reg (i % 2 ^ 32)).2 = i := by
      rw [hdev.write_cursor _ _ hw, hmod]
    rw [hc]
    have hw2 : inv (e.xfer_read (e.xfer_write w.dev idx_reg (i % 2 ^ 32)).2 val_reg).2 :=
      hdev.read_inv _ _ hw1
    have h0 : ¬ ((0 : Int) + 0 < 0) := by decide
    simp only [hlt i hin, if_false, hmod, h0]
    obtain ⟨w1, h1, hlog⟩ := ih (i + 1) fuel1 (f i % 2 ^ 32)
      { dev := (e.xfer_read (e.xfer_write w.dev idx_reg i).2 val_reg).2,
        log := w.log ++ [BusOp.write idx_reg i true] ++ [BusOp.read val_reg (some (f i))] }
      (by omega) (by omega) (by rw [hmod] at hw2; exact hw2)
    refine ⟨w1, h1, ?_⟩
    rw [hlog]
    simp [List.range']

theorem tableEnv_read_state (t : TableDev) (s : TableState) (addr : Reg) :
    ((tableEnv t).xfer_read s addr).2 = s := by
  cases addr <;> simp only [tableEnv] <;> repeat' split
  all_goals rfl

theorem tableEnv_pixformat_indexed (t : TableDev) :
    indexed_device (tableEnv t) Reg.PIXFORMAT_INDEX_REG (fun s => s.pixformat_index)
      (fun _ => True) where
  read_budget := show 0 < 3 by decide
  write_budget := show 0 < 2 by decide
  write_ok := fun _ _ _ => rfl
  write_cursor := fun _ _ _ => rfl
  write_inv := fun _ _ _ => trivial
  read_cursor := fun s addr _ => by rw [tableEnv_read_state]
  read_inv := fun _ _ _ => trivial

theorem tableEnv_resolution_indexed (t : TableDev) (p : Nat) :
    indexed_device (tableEnv t) Reg.RESOLUTION_INDEX_REG (fun s => s.resolution_index)
      (fun s => s.pixformat_index = p) where
  read_budget := show 0 < 3 by decide
  write_budget := show 0 < 2 by decide
  write_ok := fun _ _ _ => rfl
  write_cursor := fun _ _ _ => rfl
  write_inv := fun _ _ h => h
  read_cursor := fun s addr _ => by rw [tableEnv_read_state]
  read_inv := fun s addr h => by rw [tableEnv_read_state]; exact h

theorem tableEnv_type_answers (t : TableDev) :
    answers (tableEnv t) (fun s => s.pixformat_index) (fun _ => True) Reg.PIXFORMAT_TYPE_REG
      (fun k => match t.formats[k]? with
        | some f => f.1
        | none => NO_DATA_AVAILABLE) := by
  intro s _
  simp only [tableEnv]
  split <;> rfl

theorem length_of_set_loop_sentinel {σ : Type} {e : Env σ} {idx_reg : Reg}
    {cursor : σ → Nat} {inv : σ → Prop} {val_reg : Reg} {f : Nat → Nat}
    (hdev : indexed_device e idx_reg cursor inv) (hans : answers e cursor inv val_reg f) :
    ∀ (fuel i val : Nat) (w : Bus σ) (num : Int) (w1 : Bus σ), inv w.dev →
      length_of_set_loop e idx_reg val_reg fuel i val w = some (num, w1) →
      ∃ n : Nat, num = (n : Int) ∧ i ≤ n ∧ f (n % 2 ^ 32) % 2 ^ 32 = NO_DATA_AVAILABLE ∧
        inv w1.dev := by
  intro fuel
  induction fuel with
  | zero =>
    intro i val w num w1 _ h
    simp [length_of_set_loop] at h
  | succ fuel ih =>
    intro i val w num w1 hw h
    unfold length_of_set_loop at h
    rw [indexed_write hdev w i hw] at h
    dsimp only at h
    have hw1 : inv (e.xfer_write w.dev idx_reg (i % 2 ^ 32)).2 := hdev.write_inv _ _ hw
    rw [indexed_read hdev hans _ val hw1] at h
    dsimp only at h
    have hc : cursor (e.xfer_write w.dev idx_reg (i % 2 ^ 32)).2 = i % 2 ^ 32 :=
      hdev.write_cursor _ _ hw
    rw [hc] at h
    have hw2 : inv (e.xfer_read (e.xfer_write w.dev idx_reg (i % 2 ^ 32)).2 val_reg).2 :=
      hdev.read_inv _ _ hw1
    have h0 : ¬ ((0 : Int) + 0 < 0) := by decide
    rw [if_neg h0] at h
    by_cases hs : f (i % 2 ^ 32) % 2 ^ 32 = NO_DATA_AVAILABLE
    · rw [if_pos hs, indexed_write hdev _ 0 hw2] at h
      simp only [Option.some.injEq, Prod.mk.injEq] at h
      obtain ⟨hnum, hw1eq⟩ := h
      refine ⟨i, hnum.symm, Nat.le_refl i, hs, ?_⟩
      rw [← hw1eq]
      exact hdev.write_inv _ _ hw2
    · rw [if_neg hs] at h
      obtain ⟨n, hn, hin, hsn, hinv⟩ := ih (i + 1) _ _ num w1 hw2 h
      exact ⟨n, hn, by omega, hsn, hinv⟩

theorem enum_resolution_loop_bounded {σ : Type} {e : Env σ} {cursor : σ → Nat}
    {inv : σ → Prop} {fw fh : Nat → Nat}
    (hdev : indexed_device e Reg.RESOLUTION_INDEX_REG cursor inv)
    (hw : answers e cursor inv Reg.FORMAT_WIDTH_REG fw)
    (hh : answers e cursor inv Reg.FORMAT_HEIGHT_REG fh)
    (n : Nat) (hn : fw (n % 2 ^ 32) % 2 ^ 32 = NO_DATA_AVAILABLE) :
    ∀ (d i width height : Nat) (acc : List arducam_resolution) (w : Bus σ), i + d = n →
      inv w.dev →
      ∃ set w1, enum_resolution_loop e d i width height acc w = some (0, set, w1) ∧
        set.length ≤ acc.length + d := by
  intro d
  induction d with
  | zero =>
    intro i width height acc w hi hinv
    have hin : i = n := by omega
    subst hin
    unfold enum_resolution_loop
    rw [indexed_write hdev w i hinv]
    dsimp only
    have hw1 : inv (e.xfer_write w.dev Reg.RESOLUTION_INDEX_REG (i % 2 ^ 32)).2 :=
      hdev.write_inv _ _ hinv
    rw [indexed_read hdev hw _ width hw1]
    dsimp only
    have hw2 := hdev.read_inv _ Reg.FORMAT_WIDTH_REG hw1
    rw [indexed_read hdev hh _ height hw2]
    dsimp only
    have hc : cursor (e.xfer_write w.dev Reg.RESOLUTION_INDEX_REG (i % 2 ^ 32)).2 =
        i % 2 ^ 32 := hdev.write_cursor _ _ hinv
    have h0 : ¬ ((0 : Int) + 0 + 0 < 0) := by decide
    rw [if_neg h0, hc, hn]
    simp only [true_or, if_true]
    exact ⟨acc, _, rfl, Nat.le_refl _⟩
  | succ d ih =>
    intro i width height acc w hi hinv
    unfold enum_resolution_loop
    rw [indexed_write hdev w i hinv]
    dsimp only
    have hw1 : inv (e.xfer_write w.dev Reg.RESOLUTION_INDEX_REG (i % 2 ^ 32)).2 :=
      hdev.write_inv _ _ hinv
    rw [indexed_read hdev hw _ width hw1]
    dsimp only
    have hw2 := hdev.read_inv _ Reg.FORMAT_WIDTH_REG hw1
    rw [indexed_read hdev hh _ height hw2]
    dsimp only
    have hw3 := hdev.read_inv _ Reg.FORMAT_HEIGHT_REG hw2
    have h0 : ¬ ((0 : Int) + 0 + 0 < 0) := by decide
    rw [if_neg h0]
    split_ifs with hs
    · exact ⟨acc, _, rfl, by omega⟩
    · have hi1 : i + 1 + d = n := by omega
      refine (ih (i + 1) _ _ _ _ hi1 hw3).imp fun set hset => hset.imp fun w1 h1 => ⟨h1.1, ?_⟩
      have hlen := h1.2
      simp only [List.length_append, List.length_singleton] at hlen
      omega

theorem tableEnv_width_answers (t : TableDev) (p : Nat) :
    answers (tableEnv t) (fun s => s.resolution_index) (fun s => s.pixformat_index = p)
      Reg.FORMAT_WIDTH_REG
      (fun k => match t.formats[p]? with
        | some f =>
          match f.2.2[k]? with
          | some r => r.1
          | none => NO_DATA_AVAILABLE
        | none => NO_DATA_AVAILABLE) := by
  intro s hs
  subst hs
  simp only [tableEnv]
  repeat' split
  all_goals rfl

theorem tableEnv_height_answers (t : TableDev) (p : Nat) :
    answers (tableEnv t) (fun s => s.resolution_index) (fun s => s.pixformat_index = p)
      Reg.FORMAT_HEIGHT_REG
      (fun k => match t.formats[p]? with
        | some f =>
          match f.2.2[k]? with
          | some r => r.2
          | none => NO_DATA_AVAILABLE
        | none => NO_DATA_AVAILABLE) := by
  intro s hs
  subst hs
  simp only [tableEnv]
  repeat' split
  all_goals rfl


theorem grab_grabbed (c : v4l2_ctrl) (b : Bool) :
    ctrl_grabbed (v4l2_ctrl_grab c b) ↔ b = true := by
  cases b with
  | true =>
    simp only [ctrl_grabbed, v4l2_ctrl_grab, if_true, V4L2_CTRL_FLAG_GRABBED, iff_true]
    intro h
    have h2 : Nat.testBit 2 1 = true := by decide
    have h1 : ((c.flags ||| 2) &&& 2).testBit 1 = true := by
      simp [Nat.testBit_and, Nat.testBit_or, h2]
    rw [h] at h1
    simp at h1
  | false =>
    simp only [ctrl_grabbed, v4l2_ctrl_grab, V4L2_CTRL_FLAG_GRABBED, Bool.false_eq_true,
      if_false, iff_false, not_not]
    apply Nat.eq_of_testBit_eq
    intro i
    simp only [Nat.testBit_and, Nat.testBit_xor, Nat.zero_testBit]
    cases c.flags.testBit i <;> cases Nat.testBit 2 i <;> rfl

theorem same_shape_refl (p : arducam) : same_shape p p := ⟨rfl, rfl, rfl⟩

theorem same_shape_trans (p q r : arducam) (h1 : same_shape p q) (h2 : same_shape q r) :
    same_shape p r :=
  ⟨h1.1.trans h2.1, h1.2.1.trans h2.2.1, h1.2.2.trans h2.2.2⟩

theorem same_but_codes_refl (p : arducam) : same_but_codes p p :=
  ⟨same_shape_refl p, rfl, rfl, rfl, rfl, rfl⟩

theorem same_but_codes_trans (p q r : arducam) (h1 : same_but_codes p q)
    (h2 : same_but_codes q r) : same_but_codes p r :=
  ⟨same_shape_trans p q r h1.1 h2.1, h1.2.1.trans h2.2.1, h1.2.2.1.trans h2.2.2.1,
    h1.2.2.2.1.trans h2.2.2.2.1, h1.2.2.2.2.1.trans h2.2.2.2.2.1,
    h1.2.2.2.2.2.trans h2.2.2.2.2.2⟩

theorem same_but_codes_readable (p q : arducam) (h : same_but_codes p q)
    (hq : flips_readable q) : flips_readable p := by
  unfold flips_readable
  rw [h.2.1, h.2.2.1, h.2.2.2.1]
  exact hq

theorem same_shape_resolution_sets (p q : arducam) (h : same_shape p q) :
    p.supported_formats.map (fun f => f.resolution_set) =
      q.supported_formats.map (fun f => f.resolution_set) := by
  have := congrArg (List.map (fun s : Nat × Nat × Nat × List arducam_resolution => s.2.2.2))
    h.2.2
  simpa [List.map_map, Function.comp_def, format_shape] using this

theorem same_shape_every_format (p q : arducam) (h : same_shape p q)
    (hq : every_format_has_resolution q) : every_format_has_resolution p := by
  have hsets := same_shape_resolution_sets p q h
  obtain ⟨hne, hpos⟩ := hq
  constructor
  · intro hnil
    rw [hnil] at hsets
    simp only [List.map_nil] at hsets
    exact hne (List.map_eq_nil_iff.1 hsets.symm)
  · intro f hf
    have hm : f.resolution_set ∈ p.supported_formats.map (fun f => f.resolution_set) :=
      List.mem_map.2 ⟨f, hf, rfl⟩
    rw [hsets] at hm
    obtain ⟨g, hg, hgf⟩ := List.mem_map.1 hm
    have := hpos g hg
    unfold arducam_format.num_resolution_set at this ⊢
    rw [← hgf]
    exact this

theorem same_shape_indices (p q : arducam) (h : same_shape p q)
    (hq : indices_in_range q) : indices_in_range p := by
  have hsets := same_shape_resolution_sets p q h
  unfold indices_in_range arducam.num_supported_formats at hq ⊢
  rw [h.1, h.2.1]
  have hlen : p.supported_formats.length = q.supported_formats.length := by
    have := congrArg List.length hsets
    simpa using this
  rw [hlen]
  refine ⟨hq.1, ?_⟩
  have hq2 := hq.2
  have hget : (p.supported_formats[q.current_format_idx]?).map (fun f => f.resolution_set) =
      (q.supported_formats[q.current_format_idx]?).map (fun f => f.resolution_set) := by
    rw [← List.getElem?_map, ← List.getElem?_map, hsets]
  cases hqf : q.supported_formats[q.current_format_idx]? with
  | none => rw [hqf] at hq2; exact hq2.elim
  | some g =>
    rw [hqf] at hq2 hget
    cases hpf : p.supported_formats[q.current_format_idx]? with
    | none => rw [hpf] at hget; simp at hget
    | some f =>
      rw [hpf] at hget
      simp only [Option.map_some', Option.some.injEq] at hget
      dsimp only at hq2 ⊢
      unfold arducam_format.num_resolution_set at hq2 ⊢
      rw [hget]
      exact hq2

theorem s_ctrl_frame {σ : Type} (e : Env σ) (priv p : arducam) (ctrl : v4l2_ctrl)
    (w w1 : Bus σ) (ret : Int) (h : arducam_s_ctrl e priv ctrl w = some (ret, p, w1)) :
    same_but_codes p priv ∧ p.wait_until_free = priv.wait_until_free := by
  obtain ⟨_, hflip, hother⟩ := s_ctrl_result e priv p ctrl w w1 ret h
  by_cases hid : ctrl.id = V4L2_CID_VFLIP ∨ ctrl.id = V4L2_CID_HFLIP
  · obtain ⟨l1, hl1, hp⟩ := hflip hid
    subst hp
    exact ⟨⟨⟨rfl, rfl, refresh_format_codes_shape priv _ l1 hl1⟩, rfl, rfl, rfl, rfl, rfl⟩, rfl⟩
  · rw [hother hid]
    exact ⟨same_but_codes_refl priv, rfl⟩

theorem handler_setup_loop_frame {σ : Type} (e : Env σ) (cs : List v4l2_ctrl) :
    ∀ (priv p : arducam) (w w1 : Bus σ) (ret : Int),
      v4l2_ctrl_handler_setup_loop e cs priv w = some (ret, p, w1) →
      same_but_codes p priv ∧ p.wait_until_free = priv.wait_until_free := by
  induction cs with
  | nil =>
    intro priv p w w1 ret h
    simp only [v4l2_ctrl_handler_setup_loop, Option.some.injEq, Prod.mk.injEq] at h
    rw [← h.2.1]
    exact ⟨same_but_codes_refl priv, rfl⟩
  | cons c cs ih =>
    intro priv p w w1 ret h
    unfold v4l2_ctrl_handler_setup_loop at h
    dsimp only at h
    generalize (if c.id = V4L2_CID_HFLIP then priv.hflip.getD c
      else if c.id = V4L2_CID_VFLIP then priv.vflip.getD c else c) = ctrl at h
    cases hs : arducam_s_ctrl e priv ctrl w with
    | none => rw [hs] at h; simp at h
    | some q =>
      obtain ⟨ret1, priv1, w2⟩ := q
      rw [hs] at h
      dsimp only at h
      have hf := s_ctrl_frame e priv priv1 ctrl w w2 ret1 hs
      by_cases hret : ret1 ≠ 0
      · rw [if_pos hret] at h
        simp only [Option.some.injEq, Prod.mk.injEq] at h
        rw [← h.2.1]
        exact hf
      · rw [if_neg hret] at h
        obtain ⟨h1, h2⟩ := ih priv1 p w2 w1 ret h
        exact ⟨same_but_codes_trans _ _ _ h1 hf.1, h2.trans hf.2⟩

theorem handler_setup_loop_returns {σ : Type} (e : Env σ) (cs : List v4l2_ctrl) :
    ∀ (priv : arducam) (w : Bus σ), flips_readable priv →
      ∃ ret p w1, v4l2_ctrl_handler_setup_loop e cs priv w = some (ret, p, w1) := by
  induction cs with
  | nil => intro priv w _; exact ⟨_, _, _, rfl⟩
  | cons c cs ih =>
    intro priv w hr
    unfold v4l2_ctrl_handler_setup_loop
    dsimp only
    generalize (if c.id = V4L2_CID_HFLIP then priv.hflip.getD c
      else if c.id = V4L2_CID_VFLIP then priv.vflip.getD c else c) = ctrl
    obtain ⟨ret1, priv1, w2, hs⟩ := s_ctrl_returns e priv ctrl w hr
    rw [hs]
    dsimp only
    by_cases hret : ret1 ≠ 0
    · rw [if_pos hret]
      exact ⟨_, _, _, rfl⟩
    · rw [if_neg hret]
      exact ih priv1 w2
        (same_but_codes_readable _ _ (s_ctrl_frame e priv priv1 ctrl w w2 ret1 hs).1 hr)

theorem start_streaming_frame {σ : Type} (e : Env σ) (priv p : arducam) (w w1 : Bus σ)
    (ret : Int) (h : arducam_start_streaming e priv w = some (ret, p, w1)) :
    same_but_codes p priv := by
  unfold arducam_start_streaming at h
  dsimp only at h
  by_cases hret : (arducam_write_reg e w Reg.arducam_REG_MODE_SELECT arducam_REG_VALUE_32BIT
      arducam_MODE_STREAMING).1 ≠ 0
  · rw [if_pos hret] at h
    simp only [Option.some.injEq, Prod.mk.injEq] at h
    rw [← h.2.1]
    exact same_but_codes_refl priv
  · rw [if_neg hret] at h
    unfold v4l2_ctrl_handler_setup at h
    cases hs : v4l2_ctrl_handler_setup_loop e
        ({ priv with wait_until_free := true } : arducam).ctrls
        { priv with wait_until_free := true }
        (wait_for_free e (arducam_write_reg e w Reg.arducam_REG_MODE_SELECT
          arducam_REG_VALUE_32BIT arducam_MODE_STREAMING).2 2) with
    | none => rw [hs] at h; simp at h
    | some q =>
      obtain ⟨ret1, priv1, w2⟩ := q
      rw [hs] at h
      dsimp only at h
      have hf := (handler_setup_loop_frame e _ _ _ _ _ _ hs).1
      have hf2 : same_but_codes ({ priv1 with wait_until_free := false } : arducam) priv :=
        same_but_codes_trans _ priv1 _ ⟨⟨rfl, rfl, rfl⟩, rfl, rfl, rfl, rfl, rfl⟩
          (same_but_codes_trans _ _ _ hf ⟨⟨rfl, rfl, rfl⟩, rfl, rfl, rfl, rfl, rfl⟩)
      split_ifs at h <;>
        (simp only [Option.some.injEq, Prod.mk.injEq] at h; rw [← h.2.1]; exact hf2)

theorem start_streaming_returns {σ : Type} (e : Env σ) (priv : arducam) (w : Bus σ)
    (hr : flips_readable priv) :
    ∃ ret p w1, arducam_start_streaming e priv w = some (ret, p, w1) := by
  unfold arducam_start_streaming
  dsimp only
  by_cases hret : (arducam_write_reg e w Reg.arducam_REG_MODE_SELECT arducam_REG_VALUE_32BIT
      arducam_MODE_STREAMING).1 ≠ 0
  · rw [if_pos hret]
    exact ⟨_, _, _, rfl⟩
  · rw [if_neg hret]
    unfold v4l2_ctrl_handler_setup
    obtain ⟨ret1, priv1, w2, hs⟩ := handler_setup_loop_returns e
      ({ priv with wait_until_free := true } : arducam).ctrls
      { priv with wait_until_free := true }
      (wait_for_free e (arducam_write_reg e w Reg.arducam_REG_MODE_SELECT
        arducam_REG_VALUE_32BIT arducam_MODE_STREAMING).2 2) hr
    rw [hs]
    dsimp only
    split_ifs <;> exact ⟨_, _, _, rfl⟩

theorem set_stream_commit_invariant (priv : arducam) (enable : Int) :
    flips_grabbed_iff_streaming (set_stream_commit priv enable) := by
  unfold flips_grabbed_iff_streaming set_stream_commit
  dsimp only
  constructor
  · cases priv.hflip with
    | none => exact trivial
    | some c => exact grab_grabbed _ _
  · cases priv.vflip with
    | none => exact trivial
    | some c => exact grab_grabbed _ _

theorem set_stream_commit_shape (priv : arducam) (enable : Int) :
    same_shape (set_stream_commit priv enable) priv := ⟨rfl, rfl, rfl⟩

/-- What a call of `arducam_set_stream` that returned has done: either flips and
streaming flag are as before, and the call failed or asked for the state the session is
in; or it returned 0 after the common tail. -/
theorem set_stream_cases {σ : Type} (e : Env σ) (priv p : arducam) (enable pm : Int)
    (w w1 : Bus σ) (ret : Int) (h : arducam_set_stream e priv enable pm w = some (ret, p, w1)) :
    same_shape p priv ∧
    ((p.hflip = priv.hflip ∧ p.vflip = priv.vflip ∧ p.streaming = priv.streaming ∧
        (ret ≠ 0 ∨ (if priv.streaming then (1 : Int) else 0) = enable)) ∨
      (ret = 0 ∧ ∃ q, p = set_stream_commit q enable)) := by
  unfold arducam_set_stream at h
  by_cases h1 : (if priv.streaming then (1 : Int) else 0) = enable
  · rw [if_pos h1] at h
    simp only [Option.some.injEq, Prod.mk.injEq] at h
    rw [← h.2.1]
    exact ⟨same_shape_refl priv, Or.inl ⟨rfl, rfl, rfl, Or.inr h1⟩⟩
  · rw [if_neg h1] at h
    by_cases h2 : enable ≠ 0
    · rw [if_pos h2] at h
      by_cases h3 : pm < 0
      · rw [if_pos h3] at h
        simp only [Option.some.injEq, Prod.mk.injEq] at h
        rw [← h.2.1, ← h.1]
        exact ⟨same_shape_refl priv, Or.inl ⟨rfl, rfl, rfl, Or.inl (by omega)⟩⟩
      · rw [if_neg h3] at h
        cases hs : arducam_start_streaming e priv w with
        | none => rw [hs] at h; simp at h
        | some q =>
          obtain ⟨ret1, priv1, w2⟩ := q
          rw [hs] at h
          dsimp only at h
          have hf := start_streaming_frame e priv priv1 w w2 ret1 hs
          by_cases h4 : ret1 ≠ 0
          · rw [if_pos h4] at h
            simp only [Option.some.injEq, Prod.mk.injEq] at h
            rw [← h.2.1, ← h.1]
            exact ⟨hf.1, Or.inl ⟨hf.2.2.1, hf.2.2.2.1, hf.2.2.2.2.1, Or.inl h4⟩⟩
          · rw [if_neg h4] at h
            simp only [Option.some.injEq, Prod.mk.injEq] at h
            rw [← h.2.1, ← h.1]
            exact ⟨same_shape_trans _ _ _ (set_stream_commit_shape priv1 enable) hf.1,
              Or.inr ⟨not_not.1 h4, priv1, rfl⟩⟩
    · rw [if_neg h2] at h
      dsimp only at h
      simp only [Option.some.injEq, Prod.mk.injEq] at h
      rw [← h.2.1, ← h.1]
      exact ⟨set_stream_commit_shape priv enable, Or.inr ⟨rfl, priv, rfl⟩⟩

theorem set_stream_returns {σ : Type} (e : Env σ) (priv : arducam) (enable pm : Int)
    (w : Bus σ) (hr : flips_readable priv) :
    ∃ ret p w1, arducam_set_stream e priv enable pm w = some (ret, p, w1) := by
  unfold arducam_set_stream
  by_cases h1 : (if priv.streaming then (1 : Int) else 0) = enable
  · rw [if_pos h1]
    exact ⟨_, _, _, rfl⟩
  · rw [if_neg h1]
    by_cases h2 : enable ≠ 0
    · rw [if_pos h2]
      by_cases h3 : pm < 0
      · rw [if_pos h3]
        exact ⟨_, _, _, rfl⟩
      · rw [if_neg h3]
        obtain ⟨ret1, priv1, w2, hs⟩ := start_streaming_returns e priv w hr
        rw [hs]
        dsimp only
        by_cases h4 : ret1 ≠ 0
        · rw [if_pos h4]
          exact ⟨_, _, _, rfl⟩
        · rw [if_neg h4]
          exact ⟨_, _, _, rfl⟩
    · rw [if_neg h2]
      exact ⟨_, _, _, rfl⟩


theorem last_write_snoc_write (reg : Reg) (l : List BusOp) (v : Nat) (ok : Bool) :
    last_write reg (l ++ [BusOp.write reg v ok]) = some v := by
  induction l with
  | nil => simp [last_write]
  | cons x l ih => simp [last_write, ih]

theorem last_write_snoc_other (reg a : Reg) (l : List BusOp) (v : Nat) (ok : Bool)
    (h : a ≠ reg) : last_write reg (l ++ [BusOp.write a v ok]) = last_write reg l := by
  induction l with
  | nil => simp [last_write, h]
  | cons x l ih => simp [last_write, ih]

theorem last_write_snoc_read (reg a : Reg) (l : List BusOp) (res : Option Nat) :
    last_write reg (l ++ [BusOp.read a res]) = last_write reg l := by
  induction l with
  | nil => simp [last_write]
  | cons x l ih => simp [last_write, ih]

theorem write_loop_last {σ : Type} (e : Env σ) (a : Reg) (v : Nat) :
    ∀ (n : Nat) (ret : Int) (w : Bus σ),
      (0 < n ∨ last_write a w.log = some (v % 2 ^ 32)) →
      last_write a (arducam_write_loop e a v n ret w).2.log = some (v % 2 ^ 32) := by
  intro n
  induction n with
  | zero =>
    intro ret w h
    rcases h with h | h
    · exact absurd h (Nat.lt_irrefl 0)
    · exact h
  | succ n ih =>
    intro ret w _
    unfold arducam_write_loop arducam_writel_reg
    rcases e.xfer_write w.dev a (v % 2 ^ 32) with ⟨ok, s⟩
    cases ok with
    | true => exact last_write_snoc_write a w.log _ true
    | false => exact ih _ _ (Or.inr (last_write_snoc_write a w.log _ false))

theorem arducam_write_last {σ : Type} (e : Env σ) (w : Bus σ) (a : Reg) (v : Nat)
    (hb : 0 < e.I2C_WRITE_RETRY_COUNT) :
    last_write a (arducam_write e w a v).2.log = some (v % 2 ^ 32) :=
  write_loop_last e a v _ _ _ (Or.inl hb)

theorem write_loop_other {σ : Type} (e : Env σ) (reg a : Reg) (v : Nat) (h : a ≠ reg) :
    ∀ (n : Nat) (ret : Int) (w : Bus σ),
      last_write reg (arducam_write_loop e a v n ret w).2.log = last_write reg w.log := by
  intro n
  induction n with
  | zero => intro ret w; rfl
  | succ n ih =>
    intro ret w
    unfold arducam_write_loop arducam_writel_reg
    rcases e.xfer_write w.dev a (v % 2 ^ 32) with ⟨ok, s⟩
    cases ok with
    | true => exact last_write_snoc_other reg a w.log _ true h
    | false =>
      have h1 := ih (-1) { dev := s, log := w.log ++ [BusOp.write a (v % 2 ^ 32) false] }
      rw [last_write_snoc_other reg a w.log _ false h] at h1
      exact h1

theorem arducam_write_other {σ : Type} (e : Env σ) (w : Bus σ) (reg a : Reg) (v : Nat)
    (h : a ≠ reg) : last_write reg (arducam_write e w a v).2.log = last_write reg w.log :=
  write_loop_other e reg a v h _ _ _

theorem read_loop_keeps {σ : Type} (e : Env σ) (reg a : Reg) :
    ∀ (n : Nat) (ret : Int) (val : Nat) (w : Bus σ),
      last_write reg (arducam_read_loop e a n ret val w).2.2.log = last_write reg w.log := by
  intro n
  induction n with
  | zero => intro ret val w; rfl
  | succ n ih =>
    intro ret val w
    unfold arducam_read_loop arducam_readl_reg
    rcases e.xfer_read w.dev a with ⟨_ | data, s⟩
    · have h1 := ih (-1) val { dev := s, log := w.log ++ [BusOp.read a none] }
      rw [last_write_snoc_read] at h1
      exact h1
    · exact last_write_snoc_read reg a w.log _

theorem arducam_read_keeps {σ : Type} (e : Env σ) (w : Bus σ) (reg a : Reg) (val : Nat) :
    last_write reg (arducam_read e w a val).2.2.log = last_write reg w.log :=
  read_loop_keeps e reg a _ _ _ _

theorem wait_for_free_loop_keeps {σ : Type} (e : Env σ) (reg : Reg) :
    ∀ (n value : Nat) (w : Bus σ),
      last_write reg (wait_for_free_loop e n value w).log = last_write reg w.log := by
  intro n
  induction n with
  | zero => intro value w; rfl
  | succ n ih =>
    intro value w
    unfold wait_for_free_loop
    have hr := arducam_read_keeps e w reg Reg.SYSTEM_IDLE_REG value
    rcases hx : arducam_read e w Reg.SYSTEM_IDLE_REG value with ⟨ret, value1, w1⟩
    rw [hx] at hr
    dsimp only at hr ⊢
    split_ifs
    · exact hr
    · rw [ih, hr]

theorem wait_for_free_keeps {σ : Type} (e : Env σ) (w : Bus σ) (reg : Reg) (interval : Nat) :
    last_write reg (wait_for_free e w interval).log = last_write reg w.log :=
  wait_for_free_loop_keeps e reg _ _ _

theorem write_loop_ret {σ : Type} (e : Env σ) (a : Reg) (v : Nat) :
    ∀ (n : Nat) (ret : Int) (w : Bus σ), ret = -1 →
      ((arducam_write_loop e a v n ret w).1 = 0 ∧ 0 < n) ∨
        (arducam_write_loop e a v n ret w).1 = -1 := by
  intro n
  induction n with
  | zero => intro ret w h; exact Or.inr h
  | succ n ih =>
    intro ret w _
    unfold arducam_write_loop arducam_writel_reg
    rcases e.xfer_write w.dev a (v % 2 ^ 32) with ⟨ok, s⟩
    cases ok with
    | true => exact Or.inl ⟨rfl, Nat.succ_pos n⟩
    | false =>
      rcases ih (-1) { dev := s, log := w.log ++ [BusOp.write a (v % 2 ^ 32) false] } rfl
        with ⟨h1, _⟩ | h1
      · exact Or.inl ⟨h1, Nat.succ_pos n⟩
      · exact Or.inr h1

theorem arducam_write_ret {σ : Type} (e : Env σ) (w : Bus σ) (a : Reg) (v : Nat) :
    ((arducam_write e w a v).1 = 0 ∧ 0 < e.I2C_WRITE_RETRY_COUNT) ∨
      (arducam_write e w a v).1 = -1 :=
  write_loop_ret e a v _ _ _ rfl

theorem enum_resolution_loop_ret {σ : Type} (e : Env σ) :
    ∀ (room i width height : Nat) (acc : List arducam_resolution) (w : Bus σ) (ret : Int)
      (set : List arducam_resolution) (w1 : Bus σ),
      enum_resolution_loop e room i width height acc w = some (ret, set, w1) →
      ret = 0 ∨ ret = -ENODEV := by
  intro room
  induction room with
  | zero =>
    intro i width height acc w ret set w1 h
    unfold enum_resolution_loop at h
    rcases hq1 : arducam_write e w Reg.RESOLUTION_INDEX_REG i with ⟨r1, v1⟩
    rw [hq1] at h
    dsimp only at h
    rcases hq2 : arducam_read e v1 Reg.FORMAT_WIDTH_REG width with ⟨r2, width1, v2⟩
    rw [hq2] at h
    dsimp only at h
    rcases hq3 : arducam_read e v2 Reg.FORMAT_HEIGHT_REG height with ⟨r3, height1, v3⟩
    rw [hq3] at h
    dsimp only at h
    rcases hq7 : arducam_write e v3 Reg.RESOLUTION_INDEX_REG 0 with ⟨r4, v4⟩
    rw [hq7] at h
    split_ifs at h
    · simp only [Option.some.injEq, Prod.mk.injEq] at h
      exact Or.inr h.1.symm
    · simp only [Option.some.injEq, Prod.mk.injEq] at h
      exact Or.inl h.1.symm
  | succ room ih =>
    intro i width height acc w ret set w1 h
    unfold enum_resolution_loop at h
    rcases hq4 : arducam_write e w Reg.RESOLUTION_INDEX_REG i with ⟨r1, v1⟩
    rw [hq4] at h
    dsimp only at h
    rcases hq5 : arducam_read e v1 Reg.FORMAT_WIDTH_REG width with ⟨r2, width1, v2⟩
    rw [hq5] at h
    dsimp only at h
    rcases hq6 : arducam_read e v2 Reg.FORMAT_HEIGHT_REG height with ⟨r3, height1, v3⟩
    rw [hq6] at h
    dsimp only at h
    rcases hq8 : arducam_write e v3 Reg.RESOLUTION_INDEX_REG 0 with ⟨r4, v4⟩
    rw [hq8] at h
    split_ifs at h
    · simp only [Option.some.injEq, Prod.mk.injEq] at h
      exact Or.inr h.1.symm
    · simp only [Option.some.injEq, Prod.mk.injEq] at h
      exact Or.inl h.1.symm
    · exact ih _ _ _ _ _ _ _ _ h

theorem length_of_set_loop_last {σ : Type} (e : Env σ) (idx_reg val_reg : Reg) :
    ∀ (fuel i val : Nat) (w : Bus σ) (n : Int) (w1 : Bus σ),
      length_of_set_loop e idx_reg val_reg fuel i val w = some (n, w1) → 0 ≤ n →
      last_write idx_reg w1.log = some 0 ∧ 0 < e.I2C_WRITE_RETRY_COUNT := by
  intro fuel
  induction fuel with
  | zero =>
    intro i val w n w1 h _
    simp [length_of_set_loop] at h
  | succ fuel ih =>
    intro i val w n w1 h hn
    unfold length_of_set_loop at h
    have hwr := arducam_write_ret e w idx_reg i
    rcases hx : arducam_write e w idx_reg i with ⟨r1, v1⟩
    rw [hx] at hwr h
    dsimp only at h hwr
    have hrr := arducam_read_ret e v1 val_reg val
    rcases hy : arducam_read e v1 val_reg val with ⟨r2, val1, v2⟩
    rw [hy] at hrr h
    dsimp only at h hrr
    by_cases hlt : r1 + r2 < 0
    · rw [if_pos hlt] at h
      simp only [Option.some.injEq, Prod.mk.injEq] at h
      omega
    · rw [if_neg hlt] at h
      by_cases hs : val1 = NO_DATA_AVAILABLE
      · rw [if_pos hs] at h
        have hb : 0 < e.I2C_WRITE_RETRY_COUNT := by
          rcases hwr with ⟨_, hb⟩ | h1
          · exact hb
          · exfalso
            rcases hrr with h2 | h2 <;> omega
        have hl := arducam_write_last e v2 idx_reg 0 hb
        rcases hz : arducam_write e v2 idx_reg 0 with ⟨r3, v3⟩
        rw [hz] at hl h
        simp only [Option.some.injEq, Prod.mk.injEq] at h
        rw [← h.2]
        exact ⟨hl, hb⟩
      · rw [if_neg hs] at h
        exact ih _ _ _ _ _ h hn

theorem enum_resolution_loop_last {σ : Type} (e : Env σ)
    (hb : 0 < e.I2C_WRITE_RETRY_COUNT) :
    ∀ (room i width height : Nat) (acc : List arducam_resolution) (w : Bus σ) (ret : Int)
      (set : List arducam_resolution) (w1 : Bus σ),
      enum_resolution_loop e room i width height acc w = some (ret, set, w1) → ret = 0 →
      last_write Reg.RESOLUTION_INDEX_REG w1.log = some 0 := by
  intro room
  induction room with
  | zero =>
    intro i width height acc w ret set w1 h hret
    unfold enum_resolution_loop at h
    rcases hq1 : arducam_write e w Reg.RESOLUTION_INDEX_REG i with ⟨r1, v1⟩
    rw [hq1] at h
    dsimp only at h
    rcases hq2 : arducam_read e v1 Reg.FORMAT_WIDTH_REG width with ⟨r2, width1, v2⟩
    rw [hq2] at h
    dsimp only at h
    rcases hq3 : arducam_read e v2 Reg.FORMAT_HEIGHT_REG height with ⟨r3, height1, v3⟩
    rw [hq3] at h
    dsimp only at h
    have hl := arducam_write_last e v3 Reg.RESOLUTION_INDEX_REG 0 hb
    rcases hz : arducam_write e v3 Reg.RESOLUTION_INDEX_REG 0 with ⟨r4, v4⟩
    rw [hz] at hl h
    split_ifs at h
    · simp only [Option.some.injEq, Prod.mk.injEq] at h
      rw [hret] at h
      exact absurd h.1 (by decide)
    · simp only [Option.some.injEq, Prod.mk.injEq] at h
      rw [← h.2.2]
      exact hl
  | succ room ih =>
    intro i width height acc w ret set w1 h hret
    unfold enum_resolution_loop at h
    rcases hq4 : arducam_write e w Reg.RESOLUTION_INDEX_REG i with ⟨r1, v1⟩
    rw [hq4] at h
    dsimp only at h
    rcases hq5 : arducam_read e v1 Reg.FORMAT_WIDTH_REG width with ⟨r2, width1, v2⟩
    rw [hq5] at h
    dsimp only at h
    rcases hq6 : arducam_read e v2 Reg.FORMAT_HEIGHT_REG height with ⟨r3, height1, v3⟩
    rw [hq6] at h
    dsimp only at h
    have hl := arducam_write_last e v3 Reg.RESOLUTION_INDEX_REG 0 hb
    rcases hz : arducam_write e v3 Reg.RESOLUTION_INDEX_REG 0 with ⟨r4, v4⟩
    rw [hz] at hl h
    split_ifs at h
    · simp only [Option.some.injEq, Prod.mk.injEq] at h
      rw [hret] at h
      exact absurd h.1 (by decide)
    · simp only [Option.some.injEq, Prod.mk.injEq] at h
      rw [← h.2.2]
      exact hl
    · exact ih _ _ _ _ _ _ _ _ h hret

theorem enum_resolution_last {σ : Type} (e : Env σ) (fuel : Nat) (w : Bus σ)
    (format format1 : arducam_format) (ret : Int) (w1 : Bus σ)
    (h : arducam_enum_resolution e fuel w format = some (ret, format1, w1)) (hret : ret = 0) :
    last_write Reg.RESOLUTION_INDEX_REG w1.log = some 0 := by
  unfold arducam_enum_resolution at h
  rcases hc : arducam_get_length_of_set e fuel w Reg.RESOLUTION_INDEX_REG
    Reg.FORMAT_WIDTH_REG with _ | ⟨num, v1⟩
  · rw [hc] at h; simp at h
  · rw [hc] at h
    dsimp only at h
    by_cases hn : num < 0
    · rw [if_pos hn] at h
      simp only [Option.some.injEq, Prod.mk.injEq] at h
      rw [hret] at h
      exact absurd h.1 (by decide)
    · rw [if_neg hn] at h
      have hb := (length_of_set_loop_last e _ _ fuel 0 0 w num v1 hc (by omega)).2
      rcases hf : enum_resolution_loop e num.toNat 0 0 0 [] v1 with _ | ⟨ret1, set, v2⟩
      · rw [hf] at h; simp at h
      · rw [hf] at h
        dsimp only at h
        by_cases hr : ret1 < 0
        · rw [if_pos hr] at h
          simp only [Option.some.injEq, Prod.mk.injEq] at h
          rw [hret] at h
          exact absurd h.1 (by decide)
        · rw [if_neg hr] at h
          simp only [Option.some.injEq, Prod.mk.injEq] at h
          rw [← h.2.2]
          have hr0 : ret1 = 0 := by
            have := enum_resolution_loop_ret e num.toNat 0 0 0 [] v1 ret1 set v2 hf
            rcases this with h0 | h0
            · exact h0
            · rw [h0] at hr; exact absurd (by decide) hr
          exact enum_resolution_loop_last e hb _ _ _ _ _ _ _ _ _ hf hr0

theorem enum_pixformat_loop_last {σ : Type} (e : Env σ) (fuel : Nat)
    (hb : 0 < e.I2C_WRITE_RETRY_COUNT) :
    ∀ (room i pixformat_type lanes : Nat) (acc : List arducam_format) (w : Bus σ) (ret : Int)
      (fs : List arducam_format) (ln : Nat) (w1 : Bus σ),
      enum_pixformat_loop e fuel room i pixformat_type lanes acc w = some (ret, fs, ln, w1) →
      ¬ ret < 0 → last_write Reg.PIXFORMAT_INDEX_REG w1.log = some 0 := by
  intro room
  induction room with
  | zero =>
    intro i pixformat_type lanes acc w ret fs ln w1 h hret
    unfold enum_pixformat_loop at h
    rcases hq1 : arducam_write e w Reg.PIXFORMAT_INDEX_REG i with ⟨r1, v1⟩
    rw [hq1] at h
    dsimp only at h
    rcases hq2 : arducam_read e v1 Reg.PIXFORMAT_TYPE_REG pixformat_type with ⟨r2, t1, v2⟩
    rw [hq2] at h
    dsimp only at h
    by_cases ht : t1 = NO_DATA_AVAILABLE
    · rw [if_pos ht] at h
      have hl := arducam_write_last e v2 Reg.PIXFORMAT_INDEX_REG 0 hb
      rcases hq3 : arducam_write e v2 Reg.PIXFORMAT_INDEX_REG 0 with ⟨r3, v3⟩
      rw [hq3] at h hl
      simp only [Option.some.injEq, Prod.mk.injEq] at h
      rw [← h.2.2.2]
      exact hl
    · rw [if_neg ht] at h
      rcases hq4 : arducam_read e v2 Reg.MIPI_LANES_REG lanes with ⟨r3, l1, v3⟩
      rw [hq4] at h
      dsimp only at h
      by_cases hln : l1 = NO_DATA_AVAILABLE
      · rw [if_pos hln] at h
        have hl := arducam_write_last e v3 Reg.PIXFORMAT_INDEX_REG 0 hb
        rcases hq5 : arducam_write e v3 Reg.PIXFORMAT_INDEX_REG 0 with ⟨r4, v4⟩
        rw [hq5] at h hl
        simp only [Option.some.injEq, Prod.mk.injEq] at h
        rw [← h.2.2.2]
        exact hl
      · rw [if_neg hln] at h
        rcases hq6 : arducam_read e v3 Reg.PIXFORMAT_ORDER_REG 0 with ⟨r4, o1, v4⟩
        rw [hq6] at h
        dsimp only at h
        split_ifs at h
        simp only [Option.some.injEq, Prod.mk.injEq] at h
        exact absurd (h.1 ▸ (by decide : (-ENODEV : Int) < 0)) hret
  | succ room ih =>
    intro i pixformat_type lanes acc w ret fs ln w1 h hret
    unfold enum_pixformat_loop at h
    rcases hq1 : arducam_write e w Reg.PIXFORMAT_INDEX_REG i with ⟨r1, v1⟩
    rw [hq1] at h
    dsimp only at h
    rcases hq2 : arducam_read e v1 Reg.PIXFORMAT_TYPE_REG pixformat_type with ⟨r2, t1, v2⟩
    rw [hq2] at h
    dsimp only at h
    by_cases ht : t1 = NO_DATA_AVAILABLE
    · rw [if_pos ht] at h
      have hl := arducam_write_last e v2 Reg.PIXFORMAT_INDEX_REG 0 hb
      rcases hq3 : arducam_write e v2 Reg.PIXFORMAT_INDEX_REG 0 with ⟨r3, v3⟩
      rw [hq3] at h hl
      simp only [Option.some.injEq, Prod.mk.injEq] at h
      rw [← h.2.2.2]
      exact hl
    · rw [if_neg ht] at h
      rcases hq4 : arducam_read e v2 Reg.MIPI_LANES_REG lanes with ⟨r3, l1, v3⟩
      rw [hq4] at h
      dsimp only at h
      by_cases hln : l1 = NO_DATA_AVAILABLE
      · rw [if_pos hln] at h
        have hl := arducam_write_last e v3 Reg.PIXFORMAT_INDEX_REG 0 hb
        rcases hq5 : arducam_write e v3 Reg.PIXFORMAT_INDEX_REG 0 with ⟨r4, v4⟩
        rw [hq5] at h hl
        simp only [Option.some.injEq, Prod.mk.injEq] at h
        rw [← h.2.2.2]
        exact hl
      · rw [if_neg hln] at h
        rcases hq6 : arducam_read e v3 Reg.PIXFORMAT_ORDER_REG 0 with ⟨r4, o1, v4⟩
        rw [hq6] at h
        dsimp only at h
        by_cases hsum : r1 + r2 + r3 + r4 < 0
        · rw [if_pos hsum] at h
          simp only [Option.some.injEq, Prod.mk.injEq] at h
          exact absurd (h.1 ▸ (by decide : (-ENODEV : Int) < 0)) hret
        · rw [if_neg hsum] at h
          rcases hq7 : arducam_enum_resolution e fuel v4
            { index := i,
              mbus_code := data_type_to_mbus_code (u32_to_int t1) (u32_to_int o1),
              bayer_order := o1, data_type := t1, resolution_set := [] } with _ | ⟨ret1, f, v5⟩
          · rw [hq7] at h; simp at h
          · rw [hq7] at h
            dsimp only at h
            by_cases hr : ret1 ≠ 0
            · rw [if_pos hr] at h
              simp only [Option.some.injEq, Prod.mk.injEq] at h
              exact absurd (h.1 ▸ (by decide : (-ENODEV : Int) < 0)) hret
            · rw [if_neg hr] at h
              exact ih _ _ _ _ _ _ _ _ _ h hret

theorem enum_pixformat_last {σ : Type} (e : Env σ) (fuel : Nat) (priv : arducam)
    (locals : enum_pixformat_locals) (w : Bus σ) (ret : Int) (priv1 : arducam) (w1 : Bus σ)
    (h : arducam_enum_pixformat e fuel priv locals w = some (ret, priv1, w1)) (hret : ret = 0) :
    last_write Reg.PIXFORMAT_INDEX_REG w1.log = some 0 := by
  unfold arducam_enum_pixformat at h
  rcases hc : arducam_get_length_of_set e fuel w Reg.PIXFORMAT_INDEX_REG
    Reg.PIXFORMAT_TYPE_REG with _ | ⟨num, v1⟩
  · rw [hc] at h; simp at h
  · rw [hc] at h
    dsimp only at h
    by_cases hn : num < 0
    · rw [if_pos hn] at h
      simp only [Option.some.injEq, Prod.mk.injEq] at h
      rw [hret] at h
      exact absurd h.1 (by decide)
    · rw [if_neg hn] at h
      have hb := (length_of_set_loop_last e _ _ fuel 0 0 w num v1 hc (by omega)).2
      rcases hq1 : arducam_read e v1 Reg.FLIPS_DONT_CHANGE_ORDER_REG
        locals.bayer_order_not_volatile with ⟨r1, nv, v2⟩
      rw [hq1] at h
      dsimp only at h
      by_cases hr : r1 < 0
      · rw [if_pos hr] at h
        simp only [Option.some.injEq, Prod.mk.injEq] at h
        rw [hret] at h
        exact absurd h.1 (by decide)
      · rw [if_neg hr] at h
        rcases hf : enum_pixformat_loop e fuel (num.toNat + 1) 0 locals.pixformat_type
          locals.lanes [] v2 with _ | ⟨ret1, fs, ln, v3⟩
        · rw [hf] at h; simp at h
        · rw [hf] at h
          dsimp only at h
          by_cases hr1 : ret1 < 0
          · rw [if_pos hr1] at h
            simp only [Option.some.injEq, Prod.mk.injEq] at h
            rw [hret] at h
            exact absurd h.1 (by decide)
          · rw [if_neg hr1] at h
            simp only [Option.some.injEq, Prod.mk.injEq] at h
            rw [← h.2.2]
            exact enum_pixformat_loop_last e fuel hb _ _ _ _ _ _ _ _ _ _ hf hr1


theorem s_ctrl_write_keeps {σ : Type} (e : Env σ) (priv : arducam) (ctrl : v4l2_ctrl)
    (w : Bus σ) :
    last_write Reg.CTRL_INDEX_REG (s_ctrl_write e priv ctrl w).2.2.log =
      last_write Reg.CTRL_INDEX_REG w.log := by
  unfold s_ctrl_write
  have h1 := arducam_write_other e w Reg.CTRL_INDEX_REG Reg.CTRL_ID_REG ctrl.id (by decide)
  rcases hq1 : arducam_write e w Reg.CTRL_ID_REG ctrl.id with ⟨r1, v1⟩
  rw [hq1] at h1
  dsimp only at h1 ⊢
  have h2 := arducam_write_other e v1 Reg.CTRL_INDEX_REG Reg.CTRL_VALUE_REG
    (int_to_u32 ctrl.val) (by decide)
  rcases hq2 : arducam_write e v1 Reg.CTRL_VALUE_REG (int_to_u32 ctrl.val) with ⟨r2, v2⟩
  rw [hq2] at h2
  dsimp only at h2 ⊢
  split_ifs <;> simp only [wait_for_free_keeps, h2, h1]

theorem s_ctrl_keeps {σ : Type} (e : Env σ) (priv p : arducam) (ctrl : v4l2_ctrl)
    (w w1 : Bus σ) (ret : Int) (h : arducam_s_ctrl e priv ctrl w = some (ret, p, w1)) :
    last_write Reg.CTRL_INDEX_REG w1.log = last_write Reg.CTRL_INDEX_REG w.log := by
  unfold arducam_s_ctrl at h
  split_ifs at h
  · cases hl : refresh_format_codes priv priv.supported_formats with
    | none => rw [hl] at h; simp at h
    | some l1 =>
      rw [hl] at h
      simp only [Option.some.injEq] at h
      have hk := s_ctrl_write_keeps e { priv with supported_formats := l1 } ctrl w
      rw [h] at hk
      exact hk
  · simp only [Option.some.injEq] at h
    have hk := s_ctrl_write_keeps e priv ctrl w
    rw [h] at hk
    exact hk

theorem handler_setup_loop_keeps {σ : Type} (e : Env σ) (cs : List v4l2_ctrl) :
    ∀ (priv p : arducam) (w w1 : Bus σ) (ret : Int),
      v4l2_ctrl_handler_setup_loop e cs priv w = some (ret, p, w1) →
      last_write Reg.CTRL_INDEX_REG w1.log = last_write Reg.CTRL_INDEX_REG w.log := by
  induction cs with
  | nil =>
    intro priv p w w1 ret h
    simp only [v4l2_ctrl_handler_setup_loop, Option.some.injEq, Prod.mk.injEq] at h
    rw [← h.2.2]
  | cons c cs ih =>
    intro priv p w w1 ret h
    unfold v4l2_ctrl_handler_setup_loop at h
    dsimp only at h
    generalize (if c.id = V4L2_CID_HFLIP then priv.hflip.getD c
      else if c.id = V4L2_CID_VFLIP then priv.vflip.getD c else c) = ctrl at h
    cases hs : arducam_s_ctrl e priv ctrl w with
    | none => rw [hs] at h; simp at h
    | some q =>
      obtain ⟨ret1, priv1, w2⟩ := q
      rw [hs] at h
      dsimp only at h
      have hk := s_ctrl_keeps e priv priv1 ctrl w w2 ret1 hs
      by_cases hret : ret1 ≠ 0
      · rw [if_pos hret] at h
        simp only [Option.some.injEq, Prod.mk.injEq] at h
        rw [← h.2.2]
        exact hk
      · rw [if_neg hret] at h
        rw [ih priv1 p w2 w1 ret h, hk]

theorem enum_controls_last {σ : Type} (e : Env σ) (fuel : Nat) (priv : arducam)
    (locals : enum_controls_locals) (calls : enum_controls_calls) (w : Bus σ) (ret : Int)
    (priv1 : arducam) (w1 : Bus σ)
    (h : arducam_enum_controls e fuel priv locals calls w = some (ret, priv1, w1))
    (hret : ret = 0) : last_write Reg.CTRL_INDEX_REG w1.log = some 0 := by
  subst hret
  unfold arducam_enum_controls at h
  rcases hc : arducam_get_length_of_set e fuel w Reg.CTRL_INDEX_REG Reg.CTRL_ID_REG
    with _ | ⟨num, v1⟩
  · rw [hc] at h; simp at h
  · rw [hc] at h
    dsimp only at h
    by_cases hn : num < 0
    · rw [if_pos hn] at h
      simp only [Option.some.injEq, Prod.mk.injEq] at h
      exact absurd h.1 (by decide)
    · rw [if_neg hn] at h
      have hb := (length_of_set_loop_last e _ _ fuel 0 0 w num v1 hc (by omega)).2
      by_cases hi : calls.v4l2_ctrl_handler_init ≠ 0
      · rw [if_pos hi] at h
        simp only [Option.some.injEq, Prod.mk.injEq] at h
        exact absurd h.1 hi
      · rw [if_neg hi] at h
        rcases hf : enum_controls_loop e ctrls_capacity 0 locals priv v1
          with _ | ⟨ret1, p1, v2⟩
        · rw [hf] at h; simp at h
        · rw [hf] at h
          dsimp only at h
          by_cases hr : ret1 < 0
          · rw [if_pos hr] at h
            simp only [Option.some.injEq, Prod.mk.injEq] at h
            exact absurd h.1 (by decide)
          · rw [if_neg hr] at h
            have hl := arducam_write_last e v2 Reg.CTRL_INDEX_REG 0 hb
            rcases hq : arducam_write e v2 Reg.CTRL_INDEX_REG 0 with ⟨r3, v3⟩
            rw [hq] at h hl
            dsimp only at h hl
            by_cases hp : calls.v4l2_fwnode_device_parse ≠ 0
            · rw [if_pos hp] at h
              simp only [Option.some.injEq, Prod.mk.injEq] at h
              exact absurd h.1 (by decide)
            · rw [if_neg hp] at h
              by_cases hp2 : calls.v4l2_ctrl_new_fwnode_properties ≠ 0
              · rw [if_pos hp2] at h
                simp only [Option.some.injEq, Prod.mk.injEq] at h
                exact absurd h.1 (by decide)
              · rw [if_neg hp2] at h
                unfold v4l2_ctrl_handler_setup at h
                rcases hs : v4l2_ctrl_handler_setup_loop e p1.ctrls p1 v3
                  with _ | ⟨r4, p2, v4⟩
                · rw [hs] at h; simp at h
                · rw [hs] at h
                  have hk := handler_setup_loop_keeps e p1.ctrls p1 p2 v3 v4 r4 hs
                  simp only [Option.some.injEq, Prod.mk.injEq] at h
                  rw [← h.2.2, hk]
                  exact hl

theorem enum_controls_loop_shape {σ : Type} (e : Env σ) (room : Nat) :
    ∀ (index : Nat) (l : enum_controls_locals) (priv p : arducam) (w w1 : Bus σ) (ret : Int),
      enum_controls_loop e room index l priv w = some (ret, p, w1) → same_shape p priv := by
  induction room with
  | zero =>
    intro index l priv p w w1 ret h
    unfold enum_controls_loop at h
    dsimp only at h
    split_ifs at h
    · simp only [Option.some.injEq, Prod.mk.injEq] at h
      rw [← h.2.1]
      exact same_shape_refl priv
    · simp only [Option.some.injEq, Prod.mk.injEq] at h
      rw [← h.2.1]
      exact same_shape_refl priv
  | succ room ih =>
    intro index l priv p w w1 ret h
    unfold enum_controls_loop at h
    dsimp only at h
    split_ifs at h
    all_goals first
      | exact same_shape_trans _ _ _ (ih _ _ _ _ _ _ _ h) ⟨rfl, rfl, rfl⟩
      | (simp only [Option.some.injEq, Prod.mk.injEq] at h
         rw [← h.2.1]
         exact same_shape_refl priv)

theorem enum_controls_shape {σ : Type} (e : Env σ) (fuel : Nat) (priv : arducam)
    (locals : enum_controls_locals) (calls : enum_controls_calls) (w : Bus σ) (ret : Int)
    (priv1 : arducam) (w1 : Bus σ)
    (h : arducam_enum_controls e fuel priv locals calls w = some (ret, priv1, w1)) :
    same_shape priv1 priv := by
  unfold arducam_enum_controls at h
  rcases hc : arducam_get_length_of_set e fuel w Reg.CTRL_INDEX_REG Reg.CTRL_ID_REG
    with _ | ⟨num, v1⟩
  · rw [hc] at h; simp at h
  · rw [hc] at h
    dsimp only at h
    by_cases hn : num < 0
    · rw [if_pos hn] at h
      simp only [Option.some.injEq, Prod.mk.injEq] at h
      rw [← h.2.1]
      exact same_shape_refl priv
    · rw [if_neg hn] at h
      by_cases hi : calls.v4l2_ctrl_handler_init ≠ 0
      · rw [if_pos hi] at h
        simp only [Option.some.injEq, Prod.mk.injEq] at h
        rw [← h.2.1]
        exact same_shape_refl priv
      · rw [if_neg hi] at h
        rcases hf : enum_controls_loop e ctrls_capacity 0 locals priv v1
          with _ | ⟨ret1, p1, v2⟩
        · rw [hf] at h; simp at h
        · rw [hf] at h
          dsimp only at h
          have hsh := enum_controls_loop_shape e _ _ _ _ _ _ _ _ hf
          by_cases hr : ret1 < 0
          · rw [if_pos hr] at h
            simp only [Option.some.injEq, Prod.mk.injEq] at h
            rw [← h.2.1]
            exact hsh
          · rw [if_neg hr] at h
            by_cases hp : calls.v4l2_fwnode_device_parse ≠ 0
            · rw [if_pos hp] at h
              simp only [Option.some.injEq, Prod.mk.injEq] at h
              rw [← h.2.1]
              exact hsh
            · rw [if_neg hp] at h
              by_cases hp2 : calls.v4l2_ctrl_new_fwnode_properties ≠ 0
              · rw [if_pos hp2] at h
                simp only [Option.some.injEq, Prod.mk.injEq] at h
                rw [← h.2.1]
                exact hsh
              · rw [if_neg hp2] at h
                unfold v4l2_ctrl_handler_setup at h
                rcases hs : v4l2_ctrl_handler_setup_loop e p1.ctrls p1
                    (arducam_write e v2 Reg.CTRL_INDEX_REG 0).2 with _ | ⟨r4, p2, v4⟩
                · rw [hs] at h; simp at h
                · rw [hs] at h
                  simp only [Option.some.injEq, Prod.mk.injEq] at h
                  rw [← h.2.1]
                  exact same_shape_trans _ _ _
                    (handler_setup_loop_frame e _ _ _ _ _ _ hs).1.1 hsh

/-- What a call of `set_control` that returned has done to the session: indices, flags
and formats up to their codes are kept; an id that is no flip id keeps the codes too. -/
theorem set_control_frame {σ : Type} (e : Env σ) (priv p : arducam) (id : Nat) (v : Int)
    (w w1 : Bus σ) (ret : Int) (h : set_control e priv id v w = some (ret, p, w1)) :
    same_shape p priv ∧ p.streaming = priv.streaming ∧
    p.wait_until_free = priv.wait_until_free ∧
    p.bayer_order_volatile = priv.bayer_order_volatile ∧
    (id ≠ V4L2_CID_HFLIP → id ≠ V4L2_CID_VFLIP →
      p.supported_formats = priv.supported_formats) := by
  cases hf : find_control priv id with
  | none =>
    rw [set_control_unbound e priv id v w hf] at h
    simp only [Option.some.injEq, Prod.mk.injEq] at h
    rw [← h.2.1]
    exact ⟨same_shape_refl priv, rfl, rfl, rfl, fun _ _ => rfl⟩
  | some c =>
    by_cases hg : ctrl_grabbed c
    · rw [set_control_grabbed e priv id v w c hf hg] at h
      simp only [Option.some.injEq, Prod.mk.injEq] at h
      rw [← h.2.1]
      exact ⟨same_shape_refl priv, rfl, rfl, rfl, fun _ _ => rfl⟩
    · rw [set_control_bound e priv id v w c hf hg] at h
      obtain ⟨hsb, hwf⟩ := s_ctrl_frame e _ p _ w w1 ret h
      obtain ⟨_, _, hother⟩ := s_ctrl_result e _ p _ w w1 ret h
      obtain ⟨s1, s2, s3, s4, s5, s6⟩ :=
        store_control_frame priv id { c with id := id, val := v }
      refine ⟨⟨hsb.1.1.trans s2, hsb.1.2.1.trans s3, ?_⟩, hsb.2.2.2.2.1.trans s5,
        hwf.trans s6, hsb.2.1.trans s4, ?_⟩
      · rw [hsb.1.2.2, s1]
      · intro h1 h2
        rw [hother (fun hid => hid.elim h2 h1), s1]


/-! ## Theorems -/

/-- C1: `data_type_to_mbus_code` returns the order-th entry of the 5-entry table of the bit
depth for RAW8/RAW10/RAW12 with `0 <= order <= 4`, the order-th entry of the 4-entry table
for YUV422 8/10-bit with `0 <= order <= 3`, one fixed code for RGB565 and for RGB888
whatever the order, and `0` in every other case. -/
theorem data_type_to_mbus_code_table (data_type order : Int) :
    (bayer_depth8.length = 5 ∧ bayer_depth10.length = 5 ∧ bayer_depth12.length = 5 ∧
      yuv422_depth8.length = 4 ∧ yuv422_depth10.length = 4) ∧
    (0 ≤ order → order ≤ 4 →
      (data_type = IMAGE_DT_RAW8 →
        bayer_depth8.get? order.toNat = some (data_type_to_mbus_code data_type order)) ∧
      (data_type = IMAGE_DT_RAW10 →
        bayer_depth10.get? order.toNat = some (data_type_to_mbus_code data_type order)) ∧
      (data_type = IMAGE_DT_RAW12 →
        bayer_depth12.get? order.toNat = some (data_type_to_mbus_code data_type order))) ∧
    (0 ≤ order → order ≤ 3 →
      (data_type = IMAGE_DT_YUV422_8 →
        yuv422_depth8.get? order.toNat = some (data_type_to_mbus_code data_type order)) ∧
      (data_type = IMAGE_DT_YUV422_10 →
        yuv422_depth10.get? order.toNat = some (data_type_to_mbus_code data_type order))) ∧
    (data_type = IMAGE_DT_RGB565 →
      data_type_to_mbus_code data_type order = MEDIA_BUS_FMT_RGB565_2X8_LE) ∧
    (data_type = IMAGE_DT_RGB888 →
      data_type_to_mbus_code data_type order = MEDIA_BUS_FMT_RGB888_1X24) ∧
    (¬ has_mbus_code data_type order → data_type_to_mbus_code data_type order = 0) := by
  refine ⟨by decide, ?_, ?_, ?_, ?_, ?_⟩
  · intro h0 h4
    refine ⟨?_, ?_, ?_⟩ <;> intro hd <;> subst hd <;> interval_cases order <;> decide
  · intro h0 h3
    refine ⟨?_, ?_⟩ <;> intro hd <;> subst hd <;> interval_cases order <;> decide
  · intro hd; subst hd; rfl
  · intro hd; subst hd; rfl
  · exact mbus_code_eq_zero_of_not_has data_type order

/-- C4: when `arducam_csi2_set_fmt` on the image pad returns 0 with a format
`(code, width, height)`, `arducam_csi2_get_fmt` on the image pad of the resulting session
returns 0 with the same code, width and height. -/
theorem get_fmt_after_set_fmt {σ : Type} (e : Env σ) (priv priv1 : arducam)
    (format format1 get : v4l2_subdev_format) (w w1 : Bus σ)
    (hpad : format.pad = IMAGE_PAD) (hget : get.pad = IMAGE_PAD)
    (h : arducam_csi2_set_fmt e priv format w = some (0, format1, priv1, w1)) :
    ∃ g, arducam_csi2_get_fmt priv1 get = some (0, g) ∧
      g.format.code = format1.format.code ∧ g.format.width = format1.format.width ∧
      g.format.height = format1.format.height := by
  have hp1 : ¬ (IMAGE_PAD ≥ NUM_PADS) := by decide
  rcases get_fmt_idx_by_code_range priv format.format.code with ⟨i, hi, hlt⟩ | herr
  · obtain ⟨f, hf⟩ : ∃ f, priv.supported_formats[i]? = some f :=
      ⟨_, List.getElem?_eq_getElem hlt⟩
    obtain ⟨_, j, r, cs, hr, hcode, hwidth, hheight, hp, _⟩ :=
      set_fmt_image_result e priv priv1 format format1 w w1 0 i f hpad hi hf h
    subst hp
    unfold arducam_csi2_get_fmt
    simp only [hget, hp1, if_false, if_true, hf, hr]
    exact ⟨_, rfl, hcode.symm, hwidth.symm, hheight.symm⟩
  · rw [set_fmt_image_error e priv format w hpad herr] at h
    simp only [Option.some.injEq, Prod.mk.injEq] at h
    exact absurd h.1 (by decide)

/-- Witness of C4: the scenario of the spec, `set_format(depth8[0], 640, 480)` followed
by `get_format()`. -/
theorem get_fmt_after_set_fmt_witness :
    ∃ format1 priv1 w1,
      arducam_csi2_set_fmt (tableEnv scenarioDev) (sessionOf scenarioFormats true)
        (imageRequest MEDIA_BUS_FMT_SBGGR8_1X8 640 480) (freshBus ⟨0, 0⟩) =
        some (0, format1, priv1, w1) ∧
      ∃ g, arducam_csi2_get_fmt priv1 (imageRequest 0 0 0) = some (0, g) ∧
        g.format.code = format1.format.code ∧ g.format.width = format1.format.width ∧
        g.format.height = format1.format.height := by
  cases h : arducam_csi2_set_fmt (tableEnv scenarioDev) (sessionOf scenarioFormats true)
      (imageRequest MEDIA_BUS_FMT_SBGGR8_1X8 640 480) (freshBus ⟨0, 0⟩) with
  | none => exact absurd h (by decide!)
  | some r =>
    obtain ⟨ret, format1, priv1, w1⟩ := r
    have hret : ret = 0 := by
      have h2 : (arducam_csi2_set_fmt (tableEnv scenarioDev) (sessionOf scenarioFormats true)
        (imageRequest MEDIA_BUS_FMT_SBGGR8_1X8 640 480) (freshBus ⟨0, 0⟩)).map
          (fun r => r.1) = some 0 := by decide!
      rw [h] at h2
      simpa using h2
    subst hret
    exact ⟨format1, priv1, w1, rfl,
      get_fmt_after_set_fmt (tableEnv scenarioDev) (sessionOf scenarioFormats true) priv1
        (imageRequest MEDIA_BUS_FMT_SBGGR8_1X8 640 480) format1 (imageRequest 0 0 0)
        (freshBus ⟨0, 0⟩) w1 rfl rfl h⟩

/-- Counterexample to C5, in four sessions with a volatile colour order.  (1) The session
the two passes yield from a monochrome device (8-bit raw, colour order 4) with both flip
controls: the logical order XOR 1 is 5, the table of the data type has no entry at index
5, and turning the horizontal flip on leaves the format with the code 0, which is no
entry of the table.  (2) The scenario session with both flip controls after
`set_stream(1)`: the flips are grabbed, `set_control(hflip, 1)` is refused with `-EBUSY`
and the session, codes included, is as before.  (3) A session in which only the
horizontal flip is bound: the recomputation dereferences the null `vflip` pointer and
`set_control(hflip, 1)` has no result (nor has the control pass on a device reporting
only the horizontal flip, for the same dereference in its batch-apply).  (4) The scenario
session with no control bound: `set_control(hflip, 1)` is refused as unknown control and
changes nothing. -/
theorem hflip_toggle_grey_format :
    ((arducam_enum_pixformat greyFlipEnv 8 zeroSession zeroLocals
          (freshBus (⟨0, 0⟩, 0))).map (fun r => (r.1, r.2.1, r.2.2.dev)) =
        some (0, sessionOf greyFormats true, (⟨0, 0⟩, 0)) ∧
      (arducam_enum_controls greyFlipEnv 8 (sessionOf greyFormats true) zeroCtrlLocals callsOk
          (freshBus (⟨0, 0⟩, 0))).map (fun r => (r.1, r.2.1)) =
        some (0, flipSession greyFormats true) ∧
      (flipSession greyFormats true).supported_formats.map
          (fun f => (logical_order 0 0 f ^^^ 1,
            (table_of_data_type (u32_to_int f.data_type))[logical_order 0 0 f ^^^ 1]?)) =
        [(5, none)] ∧
      (set_control greyFlipEnv (flipSession greyFormats true) V4L2_CID_HFLIP 1
          (freshBus (⟨0, 0⟩, 0))).map
            (fun r => (r.1, r.2.1.supported_formats.map (fun f => f.mbus_code))) =
        some (0, [0]) ∧
      0 ∉ table_of_data_type (u32_to_int 0x2A)) ∧
    ((arducam_set_stream scenarioFlipEnv (flipSession scenarioFormats true) 1 0
        (freshBus (⟨0, 0⟩, 0))).bind (fun r =>
          (set_control scenarioFlipEnv r.2.1 V4L2_CID_HFLIP 1 r.2.2).map (fun q =>
            (r.1, r.2.1.bayer_order_volatile, r.2.1.streaming, q.1, decide (q.2.1 = r.2.1)))) =
      some (0, true, true, - EBUSY, true)) ∧
    ((set_control scenarioFlipEnv (hflipOnlySession scenarioFormats) V4L2_CID_HFLIP 1
          (freshBus (⟨0, 0⟩, 0))).map (fun r => r.1) = none ∧
      (arducam_enum_controls (comboEnv scenarioDev hflipOnlyDev) 8
          (sessionOf scenarioFormats true) zeroCtrlLocals callsOk
          (freshBus (⟨0, 0⟩, 0))).map (fun r => r.1) = none) ∧
    ((set_control (tableEnv scenarioDev) (sessionOf scenarioFormats true) V4L2_CID_HFLIP 1
        (freshBus ⟨0, 0⟩)).map (fun r => (r.1, decide (r.2.1 = sessionOf scenarioFormats true))) =
      some (-EINVAL, true)) := by
  refine ⟨⟨by decide!, by decide!, by decide!, by decide!, by decide!⟩, by decide!,
    ⟨by decide!, by decide!⟩, by decide!⟩

/-- C5 (amended): in a session whose colour order is volatile, in which both flip controls
are bound and the horizontal flip is modifiable (not grabbed), setting the
horizontal-flip control to the opposite of its value through `set_control` returns and
gives every format the code `data_type_to_mbus_code` has for its data type at the index
`logical order XOR 1`, which is the entry of the table of its data type at that index
whenever the table has one; and setting it back returns and gives every format the code
of its logical order again, so that a format whose code was the one of the flip values
before the two calls is exactly as before. -/
theorem hflip_toggle_codes {σ : Type} (e : Env σ) (priv : arducam) (ch cv : v4l2_ctrl)
    (v : Int) (w : Bus σ) (hvol : priv.bayer_order_volatile = true)
    (hh : priv.hflip = some ch) (hvf : priv.vflip = some cv) (hfree : ¬ ctrl_grabbed ch)
    (hv : v ≠ 0 ↔ ch.val = 0)
    (i : Nat) (f : arducam_format) (hf : priv.supported_formats[i]? = some f) :
    ∃ ret1 p1 w1, set_control e priv V4L2_CID_HFLIP v w = some (ret1, p1, w1) ∧
      (∃ f1, p1.supported_formats[i]? = some f1 ∧
        f1.mbus_code = data_type_to_mbus_code (u32_to_int f.data_type)
          (u32_to_int (logical_order ch.val cv.val f ^^^ 1)) ∧
        ∀ c, (table_of_data_type (u32_to_int f.data_type))[
            logical_order ch.val cv.val f ^^^ 1]? = some c → f1.mbus_code = c) ∧
      ∀ wb : Bus σ, ∃ ret2 p2 w2,
        set_control e p1 V4L2_CID_HFLIP ch.val wb = some (ret2, p2, w2) ∧
        ∃ f2, p2.supported_formats[i]? = some f2 ∧
          f2.mbus_code = data_type_to_mbus_code (u32_to_int f.data_type)
            (u32_to_int (logical_order ch.val cv.val f)) ∧
          (arducam_get_format_code priv f = some f.mbus_code → f2 = f) := by
  have hfind : find_control priv V4L2_CID_HFLIP = some ch := by
    unfold find_control
    rw [if_pos rfl]
    exact hh
  have hstore : ∀ c1 : v4l2_ctrl,
      store_control priv V4L2_CID_HFLIP c1 = { priv with hflip := some c1 } := by
    intro c1
    unfold store_control
    rw [if_pos rfl]
  have hq1 : flips_readable
      { priv with hflip := some { ch with id := V4L2_CID_HFLIP, val := v } } := by
    intro _
    exact ⟨by simp, by simp [hvf]⟩
  obtain ⟨ret1, p1, w1, hs1⟩ := s_ctrl_returns e
    { priv with hflip := some { ch with id := V4L2_CID_HFLIP, val := v } }
    { ch with id := V4L2_CID_HFLIP, val := v } w hq1
  obtain ⟨_, hflip1, _⟩ := s_ctrl_result e _ p1 _ w w1 ret1 hs1
  obtain ⟨l1, hl1, hp1⟩ := hflip1 (Or.inr rfl)
  obtain ⟨c, hc, hget1⟩ := refresh_format_codes_getElem _ _ l1 hl1 i f hf
  have hcode1 := get_format_code_logical
    { priv with hflip := some { ch with id := V4L2_CID_HFLIP, val := v } } f
    { ch with id := V4L2_CID_HFLIP, val := v } cv hvol rfl hvf
  rw [hc, logical_order_toggle f ch.val v cv.val hv] at hcode1
  simp only [Option.some.injEq] at hcode1
  refine ⟨ret1, p1, w1, ?_, ⟨_, by rw [hp1]; exact hget1, hcode1, ?_⟩, ?_⟩
  · rw [set_control_bound e priv V4L2_CID_HFLIP v w ch hfind hfree, hstore]
    exact hs1
  · intro c2 hc2
    rw [← table_entry_code _ _ _ hc2]
    exact hcode1
  · intro wb
    have hfind2 : find_control p1 V4L2_CID_HFLIP =
        some { ch with id := V4L2_CID_HFLIP, val := v } := by
      unfold find_control
      rw [if_pos rfl, hp1]
    have hfree2 : ¬ ctrl_grabbed ({ ch with id := V4L2_CID_HFLIP, val := v } : v4l2_ctrl) :=
      hfree
    have hstore2 : store_control p1 V4L2_CID_HFLIP
        { ch with id := V4L2_CID_HFLIP, val := ch.val } =
        { p1 with hflip := some { ch with id := V4L2_CID_HFLIP, val := ch.val } } := by
      unfold store_control
      rw [if_pos rfl]
    have hvol2 : p1.bayer_order_volatile = true := by rw [hp1]; exact hvol
    have hvf2 : p1.vflip = some cv := by rw [hp1]; exact hvf
    have hq2 : flips_readable
        { p1 with hflip := some { ch with id := V4L2_CID_HFLIP, val := ch.val } } := by
      intro _
      exact ⟨by simp, by simp [hvf2]⟩
    obtain ⟨ret2, p2, w2, hs2⟩ := s_ctrl_returns e
      { p1 with hflip := some { ch with id := V4L2_CID_HFLIP, val := ch.val } }
      { ch with id := V4L2_CID_HFLIP, val := ch.val } wb hq2
    obtain ⟨_, hflip2, _⟩ := s_ctrl_result e _ p2 _ wb w2 ret2 hs2
    obtain ⟨l2, hl2, hp2⟩ := hflip2 (Or.inr rfl)
    have hget1' : p1.supported_formats[i]? = some { f with mbus_code := c } := by
      rw [hp1]; exact hget1
    obtain ⟨c3, hc3, hget2⟩ := refresh_format_codes_getElem _ _ l2 hl2 i _ hget1'
    have hcode2 := get_format_code_logical
      { p1 with hflip := some { ch with id := V4L2_CID_HFLIP, val := ch.val } }
      { f with mbus_code := c }
      { ch with id := V4L2_CID_HFLIP, val := ch.val } cv hvol2 rfl hvf2
    rw [hc3] at hcode2
    simp only [Option.some.injEq] at hcode2
    have hlog : logical_order ch.val cv.val { f with mbus_code := c } =
        logical_order ch.val cv.val f := rfl
    rw [hlog] at hcode2
    refine ⟨ret2, p2, w2, ?_, _, by rw [hp2]; exact hget2, hcode2, ?_⟩
    · have hset := set_control_bound e p1 V4L2_CID_HFLIP ch.val wb
        { ch with id := V4L2_CID_HFLIP, val := v } hfind2 hfree2
      rw [hset]
      have hsame : ({ ({ ch with id := V4L2_CID_HFLIP, val := v } : v4l2_ctrl) with
          id := V4L2_CID_HFLIP, val := ch.val } : v4l2_ctrl) =
          { ch with id := V4L2_CID_HFLIP, val := ch.val } := rfl
      rw [hsame, hstore2]
      exact hs2
    · intro hsync
      rw [get_format_code_logical priv f ch cv hvol hh hvf] at hsync
      simp only [Option.some.injEq] at hsync
      rw [hcode2, hsync]

/-- Witness of C5 (amended): the scenario session with both flip controls bound, at
value 0 and modifiable; format 0 is 8-bit Bayer order 0.  Turning the horizontal flip on
gives it `depth8[1]`, turning it off again restores the format. -/
theorem hflip_toggle_codes_witness :
    ∃ ret1 p1 w1,
      set_control scenarioFlipEnv (flipSession scenarioFormats true) V4L2_CID_HFLIP 1
        (freshBus (⟨0, 0⟩, 0)) = some (ret1, p1, w1) ∧
      (∃ f1, p1.supported_formats[0]? = some f1 ∧ f1.mbus_code = MEDIA_BUS_FMT_SGBRG8_1X8) ∧
      ∃ ret2 p2 w2,
        set_control scenarioFlipEnv p1 V4L2_CID_HFLIP 0 w1 = some (ret2, p2, w2) ∧
        p2.supported_formats[0]? =
          some { index := 0, mbus_code := MEDIA_BUS_FMT_SBGGR8_1X8, bayer_order := 0,
                 data_type := 0x2A, resolution_set := [⟨640, 480⟩] } := by
  obtain ⟨ret1, p1, w1, h1, ⟨f1, hf1, _, hc1⟩, hback⟩ :=
    hflip_toggle_codes scenarioFlipEnv (flipSession scenarioFormats true)
      (flipControl (sessionOf scenarioFormats true) V4L2_CID_HFLIP)
      (flipControl (sessionOf scenarioFormats true) V4L2_CID_VFLIP) 1
      (freshBus (⟨0, 0⟩, 0)) rfl rfl rfl (by decide) (by decide) 0
      { index := 0, mbus_code := MEDIA_BUS_FMT_SBGGR8_1X8, bayer_order := 0,
        data_type := 0x2A, resolution_set := [⟨640, 480⟩] } (by decide)
  obtain ⟨ret2, p2, w2, h2, f2, hf2, _, hsame⟩ := hback w1
  exact ⟨ret1, p1, w1, h1, ⟨f1, hf1, hc1 MEDIA_BUS_FMT_SGBRG8_1X8 (by decide)⟩,
    ret2, p2, w2, h2, by rw [hf2, hsame (by decide)]⟩

/-- C6: `arducam_csi2_get_fmt_idx_by_code` returns the lowest index of a format whose code
equals the requested code, if there is one; otherwise, for a code at position `p` of the
15-entry table `codes`, the lowest index of a format whose data type is `0x2A + p / 5`,
if there is one; otherwise `-EINVAL`.  A returned index is below the number of formats. -/
theorem get_fmt_idx_by_code_lowest (priv : arducam) (code : Nat) :
    codes.length = 15 ∧
    ((∃ f ∈ priv.supported_formats, f.mbus_code = code) →
      ∃ i : Nat, lowest_index (fun f => f.mbus_code = code) priv.supported_formats i ∧
        arducam_csi2_get_fmt_idx_by_code priv code = (i : Int)) ∧
    ((∀ f ∈ priv.supported_formats, f.mbus_code ≠ code) →
      ∀ p : Nat, codes[p]? = some code →
        ((∃ f ∈ priv.supported_formats, f.data_type = 0x2A + p / 5) →
          ∃ i : Nat,
            lowest_index (fun f => f.data_type = 0x2A + p / 5) priv.supported_formats i ∧
            arducam_csi2_get_fmt_idx_by_code priv code = (i : Int)) ∧
        ((∀ f ∈ priv.supported_formats, f.data_type ≠ 0x2A + p / 5) →
          arducam_csi2_get_fmt_idx_by_code priv code = -EINVAL)) ∧
    ((∀ f ∈ priv.supported_formats, f.mbus_code ≠ code) →
      (∀ p : Nat, codes[p]? ≠ some code) →
        arducam_csi2_get_fmt_idx_by_code priv code = -EINVAL) ∧
    ((∃ i : Nat, arducam_csi2_get_fmt_idx_by_code priv code = (i : Int) ∧
        i < priv.num_supported_formats) ∨
      arducam_csi2_get_fmt_idx_by_code priv code = -EINVAL) := by
  refine ⟨by decide, ?_, ?_, ?_, get_fmt_idx_by_code_range priv code⟩
  · rintro ⟨f, hf, hfc⟩
    obtain ⟨i, hi⟩ := first_match_exists (fun f => decide (f.mbus_code = code))
      priv.supported_formats 0 ⟨f, hf, by simpa using hfc⟩
    refine ⟨i, ?_, get_fmt_idx_by_code_exact priv code i hi⟩
    have := first_match_lowest _ _ _ hi
    simpa [lowest_index] using this
  · intro hno p hp
    have hn : fmt_scan_code code priv.supported_formats = none := by
      unfold fmt_scan_code
      rw [first_match_none]
      intro f hf
      simpa using hno f hf
    have hp15 : p < 15 := (List.getElem?_eq_some_iff.mp hp).1
    have hlt : p / 5 < 3 := by omega
    constructor
    · rintro ⟨f, hf, hfd⟩
      obtain ⟨i, hi⟩ := first_match_exists (fun f => decide (f.data_type = p / 5 + 0x2a))
        priv.supported_formats 0 ⟨f, hf, by simp only [decide_eq_true_eq]; omega⟩
      refine ⟨i, ?_, ?_⟩
      · have := first_match_lowest _ _ _ hi
        have he : (0x2A + p / 5) = (p / 5 + 0x2a) := by omega
        rw [he]
        simpa [lowest_index] using this
      · rw [get_fmt_idx_by_code_unfold, hn, codes_scan_position code p hp]
        simp only [hlt, if_true]
        unfold fmt_scan_data_type
        rw [hi]
    · intro hnd
      exact get_fmt_idx_by_code_unknown priv code hno (by
        intro p2 hp2 f hf
        have : p2 = p := by
          rw [← codes_scan_position code p2 hp2, codes_scan_position code p hp]
        subst this
        exact hnd f hf)
  · intro hno hnp
    exact get_fmt_idx_by_code_unknown priv code hno (fun p hp => absurd hp (hnp p))

/-- Counterexample to C8: a device reporting the data type `0x30`, which maps to no
code.  The pixel-format pass returns 0 and publishes the entry, and
`arducam_csi2_enum_mbus_code` returns the code 0 for it. -/
theorem enum_pixformat_publishes_zero_code :
    ¬ has_mbus_code (u32_to_int 0x30) (u32_to_int 0) ∧
    (enumerated unknownTypeDev).map
        (fun r => (r.1, r.2.1.num_supported_formats,
          arducam_csi2_enum_mbus_code r.2.1 { pad := IMAGE_PAD, index := 0, code := 0xFFFF })) =
      some (0, 1, (0, { pad := IMAGE_PAD, index := 0, code := 0 })) := by
  refine ⟨by decide, by decide!⟩

/-- C8 (amended): after the pixel-format pass returns 0, for every index below
`num_supported_formats` `arducam_csi2_enum_mbus_code` returns the code of that format,
which is the value of `data_type_to_mbus_code` at the format's stored data type and
colour order; it is nonzero exactly when that pair maps to a valid code, so a published
format whose pair maps to no valid code has the code 0. -/
theorem enum_pixformat_published_codes {σ : Type} (e : Env σ) (fuel : Nat)
    (priv priv1 : arducam) (locals : enum_pixformat_locals) (w w1 : Bus σ)
    (h : arducam_enum_pixformat e fuel priv locals w = some (0, priv1, w1))
    (index : Nat) (hindex : index < priv1.num_supported_formats) :
    ∃ f, priv1.supported_formats[index]? = some f ∧
      (∀ c, arducam_csi2_enum_mbus_code priv1 { pad := IMAGE_PAD, index := index, code := c } =
        (0, { pad := IMAGE_PAD, index := index, code := f.mbus_code })) ∧
      f.mbus_code =
        data_type_to_mbus_code (u32_to_int f.data_type) (u32_to_int f.bayer_order) ∧
      (f.mbus_code ≠ 0 ↔
        has_mbus_code (u32_to_int f.data_type) (u32_to_int f.bayer_order)) := by
  obtain ⟨_, _, hcodes⟩ := enum_pixformat_success e fuel priv priv1 locals w w1 h
  have hlt : index < priv1.supported_formats.length := hindex
  refine ⟨priv1.supported_formats[index], List.getElem?_eq_getElem hlt, ?_, ?_, ?_⟩
  · intro c
    unfold arducam_csi2_enum_mbus_code
    have h1 : ¬ (IMAGE_PAD ≥ NUM_PADS) := by decide
    have h2 : ¬ (index ≥ priv1.num_supported_formats) := by omega
    simp only [h1, if_false, if_true, h2, List.getElem?_eq_getElem hlt]
  · exact hcodes _ (List.getElem_mem hlt)
  · have hc : code_of_stored_pair priv1.supported_formats[index] :=
      hcodes _ (List.getElem_mem hlt)
    unfold code_of_stored_pair at hc
    rw [hc]
    constructor
    · intro hne
      by_contra hno
      exact hne (mbus_code_eq_zero_of_not_has _ _ hno)
    · exact mbus_code_ne_zero_of_has _ _

/-- Witness of C8 (amended): format 1 of the session enumerated from the device of the
scenario. -/
theorem enum_pixformat_published_codes_witness :
    ∃ f, (sessionOf scenarioFormats true).supported_formats[1]? = some f ∧
      (∀ c, arducam_csi2_enum_mbus_code (sessionOf scenarioFormats true)
          { pad := IMAGE_PAD, index := 1, code := c } =
        (0, { pad := IMAGE_PAD, index := 1, code := f.mbus_code })) ∧
      f.mbus_code =
        data_type_to_mbus_code (u32_to_int f.data_type) (u32_to_int f.bayer_order) ∧
      (f.mbus_code ≠ 0 ↔
        has_mbus_code (u32_to_int f.data_type) (u32_to_int f.bayer_order)) := by
  have h : (arducam_enum_pixformat (tableEnv scenarioDev) 8 zeroSession zeroLocals
      (freshBus ⟨0, 0⟩)).map (fun r => (r.1, r.2.1)) =
      some (0, sessionOf scenarioFormats true) := by decide!
  obtain ⟨w1, h1⟩ := option_triple_of_map _ _ _ h
  have hlt : 1 < (sessionOf scenarioFormats true).num_supported_formats := by decide
  exact enum_pixformat_published_codes (tableEnv scenarioDev) 8 zeroSession
    (sessionOf scenarioFormats true) zeroLocals (freshBus ⟨0, 0⟩) w1 h1 1 hlt

/-- C9: when the requested code equals no format's code and does not resolve through
the `codes` table either, `arducam_csi2_set_fmt` on the image pad returns `-EINVAL`, makes
no bus transfer (the bus, its log included, is as before) and leaves the session, so both
current indices, unchanged. -/
theorem set_fmt_unknown_code {σ : Type} (e : Env σ) (priv : arducam)
    (format : v4l2_subdev_format) (w : Bus σ) (hpad : format.pad = IMAGE_PAD)
    (hcode : ∀ f ∈ priv.supported_formats, f.mbus_code ≠ format.format.code)
    (hfallback : ∀ p : Nat, p < 15 → codes[p]? = some format.format.code →
      ∀ f ∈ priv.supported_formats, f.data_type ≠ 0x2A + p / 5) :
    ∃ format1, arducam_csi2_set_fmt e priv format w = some (-EINVAL, format1, priv, w) := by
  refine ⟨_, set_fmt_image_error e priv format w hpad ?_⟩
  refine get_fmt_idx_by_code_unknown priv format.format.code hcode ?_
  intro p hp
  exact hfallback p (List.getElem?_eq_some_iff.mp hp).1 hp

/-- Witness of C9: the scenario session asked for RGB888. -/
theorem set_fmt_unknown_code_witness :
    ∃ format1, arducam_csi2_set_fmt (tableEnv scenarioDev) (sessionOf scenarioFormats true)
        (imageRequest MEDIA_BUS_FMT_RGB888_1X24 640 480) (freshBus ⟨0, 0⟩) =
      some (-EINVAL, format1, sessionOf scenarioFormats true, freshBus ⟨0, 0⟩) :=
  set_fmt_unknown_code (tableEnv scenarioDev) (sessionOf scenarioFormats true)
    (imageRequest MEDIA_BUS_FMT_RGB888_1X24 640 480) (freshBus ⟨0, 0⟩) rfl
    (by decide) (by decide)

/-- Counterexample to C10: the scenario session with both flip controls bound, on a bus
on which no transfer succeeds.  `set_control(hflip, 1)` returns `-EINVAL`, and the codes
of the two formats have changed from `depth8[0]`, `depth10[1]` to `depth8[1]`,
`depth10[0]`. -/
theorem set_control_error_changes_codes :
    (flipSession scenarioFormats true).supported_formats.map (fun f => f.mbus_code) =
        [MEDIA_BUS_FMT_SBGGR8_1X8, MEDIA_BUS_FMT_SGBRG10_1X10] ∧
    (set_control deadEnv (flipSession scenarioFormats true) V4L2_CID_HFLIP 1
        (freshBus ())).map
          (fun r => (r.1, r.2.1.supported_formats.map (fun f => f.mbus_code))) =
      some (-EINVAL, [MEDIA_BUS_FMT_SGBRG8_1X8, MEDIA_BUS_FMT_SBGGR10_1X10]) := by
  refine ⟨by decide!, by decide!⟩

/-- C10 (amended): `set_control` returns in every session in which the flip pointers can
be read where the recomputation reads them.  When it returns an error, the current
format and resolution indices, the streaming and batch-apply flags, the volatile flag,
and of every format the device index, data type, colour order and resolution set are as
before the call, and the codes of the formats are as before when the id is neither flip
id.  When the call reached the driver (the control is bound and modifiable), the error
is `-EINVAL`, the one of a failed register write, and for a flip id the codes are those
`arducam_get_format_code` computes from the requested value (the recomputation precedes
the register writes and is not undone); when the framework refused the call (unknown or
grabbed control) session and bus are as before. -/
theorem set_control_error_state {σ : Type} (e : Env σ) (priv : arducam) (id : Nat) (v : Int)
    (w : Bus σ) :
    (flips_readable priv → ∃ ret p w1, set_control e priv id v w = some (ret, p, w1)) ∧
    ∀ (ret : Int) (p : arducam) (w1 : Bus σ),
      set_control e priv id v w = some (ret, p, w1) → ret ≠ 0 →
      p.current_format_idx = priv.current_format_idx ∧
      p.current_resolution_idx = priv.current_resolution_idx ∧
      p.streaming = priv.streaming ∧
      p.wait_until_free = priv.wait_until_free ∧
      p.bayer_order_volatile = priv.bayer_order_volatile ∧
      p.supported_formats.map
          (fun f => (f.index, f.data_type, f.bayer_order, f.resolution_set)) =
        priv.supported_formats.map
          (fun f => (f.index, f.data_type, f.bayer_order, f.resolution_set)) ∧
      (id ≠ V4L2_CID_HFLIP → id ≠ V4L2_CID_VFLIP →
        p.supported_formats = priv.supported_formats) ∧
      ((∃ c, find_control priv id = some c ∧ ¬ ctrl_grabbed c) →
        ret = -EINVAL ∧ (id = V4L2_CID_HFLIP ∨ id = V4L2_CID_VFLIP → codes_synced p)) ∧
      (¬ (∃ c, find_control priv id = some c ∧ ¬ ctrl_grabbed c) → p = priv ∧ w1 = w) := by
  refine ⟨set_control_returns e priv id v w, ?_⟩
  intro ret p w1 h herr
  obtain ⟨hsh, hs, hwf, hvol, hfmt⟩ := set_control_frame e priv p id v w w1 ret h
  refine ⟨hsh.1, hsh.2.1, hs, hwf, hvol, hsh.2.2, hfmt, ?_, ?_⟩
  · rintro ⟨c, hfind, hfree⟩
    rw [set_control_bound e priv id v w c hfind hfree] at h
    obtain ⟨hret, hflip, _⟩ := s_ctrl_result e _ p _ w w1 ret h
    refine ⟨hret.resolve_left herr, ?_⟩
    intro hid
    obtain ⟨l1, hl1, hp⟩ := hflip (by
      show id = V4L2_CID_VFLIP ∨ id = V4L2_CID_HFLIP
      exact hid.symm)
    unfold codes_synced
    intro g hg
    rw [hp] at hg
    obtain ⟨f, _, c1, hc1, hgf⟩ := refresh_format_codes_mem _ _ l1 hl1 g hg
    subst hgf
    rw [← hc1, hp]
    exact get_format_code_congr _ _ _ _ rfl rfl rfl rfl rfl
  · intro hno
    cases hfind : find_control priv id with
    | none =>
      rw [set_control_unbound e priv id v w hfind] at h
      simp only [Option.some.injEq, Prod.mk.injEq] at h
      exact ⟨h.2.1.symm, h.2.2.symm⟩
    | some c =>
      have hg : ctrl_grabbed c := by
        by_contra hfree
        exact hno ⟨c, hfind, hfree⟩
      rw [set_control_grabbed e priv id v w c hfind hg] at h
      simp only [Option.some.injEq, Prod.mk.injEq] at h
      exact ⟨h.2.1.symm, h.2.2.symm⟩

/-- Witness of C10 (amended): the scenario session with both flip controls bound, on a bus
on which no transfer succeeds, `set_control(vflip, 1)`. -/
theorem set_control_error_state_witness :
    ∃ p w1,
      set_control deadEnv (flipSession scenarioFormats true) V4L2_CID_VFLIP 1 (freshBus ()) =
        some (-EINVAL, p, w1) ∧
      p.current_format_idx = 0 ∧ codes_synced p := by
  have hthm := set_control_error_state deadEnv (flipSession scenarioFormats true)
    V4L2_CID_VFLIP 1 (freshBus ())
  obtain ⟨ret, p, w1, h⟩ := hthm.1 (by decide)
  have hret : ret = -EINVAL := by
    have h2 : (set_control deadEnv (flipSession scenarioFormats true) V4L2_CID_VFLIP 1
        (freshBus ())).map (fun r => r.1) = some (-EINVAL) := by decide!
    rw [h] at h2
    simpa using h2
  subst hret
  obtain ⟨hi, _, _, _, _, _, _, hdrv, _⟩ := hthm.2 (-EINVAL) p w1 h (by decide)
  refine ⟨p, w1, h, hi, (hdrv ⟨flipControl (sessionOf scenarioFormats true) V4L2_CID_VFLIP,
    by decide, by decide⟩).2 (Or.inr rfl)⟩

/-- C15: for every session, format and pair of flip controls with the values `h`, `v`,
`arducam_get_format_code` is the canonical code of the data type and of the order
`physical_order XOR (1 if hflip else 0) XOR (2 if vflip else 0)` when the colour order is
volatile, and the canonical code of the data type and the physical order, whatever the
flips (bound or not), when it is not. -/
theorem get_format_code_orientation (priv : arducam) (format : arducam_format)
    (ch cv : v4l2_ctrl) (oh ov : Option v4l2_ctrl) :
    (priv.bayer_order_volatile = true →
      arducam_get_format_code { priv with hflip := some ch, vflip := some cv } format =
        some (data_type_to_mbus_code (u32_to_int format.data_type)
          (u32_to_int ((format.bayer_order ^^^ (if ch.val ≠ 0 then 1 else 0)) ^^^
            (if cv.val ≠ 0 then 2 else 0))))) ∧
    (priv.bayer_order_volatile = false →
      arducam_get_format_code { priv with hflip := oh, vflip := ov } format =
        some (data_type_to_mbus_code (u32_to_int format.data_type)
          (u32_to_int format.bayer_order))) := by
  constructor
  · intro hvol
    exact get_format_code_logical _ format ch cv hvol rfl rfl
  · intro hvol
    exact get_format_code_fixed _ format hvol

/-- C18: after `update_control` for an id other than the sentinel with a bound control (at
position `k` of the table) the call returns, and: when the four reads of maximum,
minimum, default and step all succeed and none delivers the sentinel, the bound control
has exactly the minimum, maximum, step and default just read, its id and value are kept
and no other control changes; when a read fails or delivers the sentinel, the session,
and with it every range and default, is what it was before. -/
theorem update_control_range {σ : Type} (e : Env σ) (priv : arducam) (id k : Nat)
    (w : Bus σ) (hid : id ≠ NO_DATA_AVAILABLE) (hk : get_control priv id = some (some k)) :
    ∃ r p w1, update_control e priv id w = some (r, p, w1) ∧
    ((update_control_reads e w id).usable →
      (∃ c c1, priv.ctrls[k]? = some c ∧ p.ctrls[k]? = some c1 ∧
        c1.minimum = (update_control_reads e w id).min ∧
        c1.maximum = (update_control_reads e w id).max ∧
        c1.step = (update_control_reads e w id).step ∧
        c1.default_value = (update_control_reads e w id).dflt ∧
        c1.id = id ∧ c1.val = c.val) ∧
      ∀ j, j ≠ k → p.ctrls[j]? = priv.ctrls[j]?) ∧
    (¬ (update_control_reads e w id).usable → p = priv) := by
  have hfm : first_match (fun c => decide (c.id = id)) priv.ctrls 0 = some k := by
    unfold get_control at hk
    cases hf : first_match (fun c => decide (c.id = id)) priv.ctrls 0 with
    | none =>
      rw [hf] at hk
      dsimp only at hk
      split_ifs at hk
      simp at hk
    | some k1 =>
      rw [hf] at hk
      dsimp only at hk
      split_ifs at hk
      simpa using hk
  have hret0 := update_control_unfold e priv id w
  rw [hk] at hret0
  cases hu : update_control e priv id w with
  | none =>
    rw [hu] at hret0
    simp only [Option.map_none', Option.map_some'] at hret0
    split_ifs at hret0
  | some q =>
  obtain ⟨r0, p, w1⟩ := q
  rw [hu] at hret0
  simp only [Option.map_some'] at hret0
  have hret : p = (if (update_control_reads e w id).max_ret +
      (update_control_reads e w id).min_ret + (update_control_reads e w id).def_ret +
      (update_control_reads e w id).step_ret < 0 then priv
    else if id = NO_DATA_AVAILABLE ∨ (update_control_reads e w id).max = NO_DATA_AVAILABLE ∨
        (update_control_reads e w id).min = NO_DATA_AVAILABLE ∨
        (update_control_reads e w id).dflt = NO_DATA_AVAILABLE ∨
        (update_control_reads e w id).step = NO_DATA_AVAILABLE then priv
    else (fun cs => { priv with ctrls := cs })
      (v4l2_ctrl_modify_range priv.ctrls (some k)
        (update_control_reads e w id).min (update_control_reads e w id).max
        (update_control_reads e w id).step (update_control_reads e w id).dflt)) := by
    split_ifs at hret0 ⊢ <;> simpa using hret0
  refine ⟨r0, p, w1, rfl, ?_⟩
  clear hret0 hu
  have h1 := arducam_read_ret e (update_control_select e w id) Reg.CTRL_MAX_REG 0
  have h2 := arducam_read_ret e
    (arducam_read e (update_control_select e w id) Reg.CTRL_MAX_REG 0).2.2 Reg.CTRL_MIN_REG 0
  have h3 := arducam_read_ret e
    (arducam_read e
      (arducam_read e (update_control_select e w id) Reg.CTRL_MAX_REG 0).2.2
      Reg.CTRL_MIN_REG 0).2.2 Reg.CTRL_DEF_REG 0
  have h4 := arducam_read_ret e
    (arducam_read e
      (arducam_read e
        (arducam_read e (update_control_select e w id) Reg.CTRL_MAX_REG 0).2.2
        Reg.CTRL_MIN_REG 0).2.2 Reg.CTRL_DEF_REG 0).2.2 Reg.CTRL_STEP_REG 0
  have e1 : (update_control_reads e w id).max_ret = 0 ∨
      (update_control_reads e w id).max_ret = -1 := h1
  have e2 : (update_control_reads e w id).min_ret = 0 ∨
      (update_control_reads e w id).min_ret = -1 := h2
  have e3 : (update_control_reads e w id).def_ret = 0 ∨
      (update_control_reads e w id).def_ret = -1 := h3
  have e4 : (update_control_reads e w id).step_ret = 0 ∨
      (update_control_reads e w id).step_ret = -1 := h4
  generalize update_control_reads e w id = r at hret e1 e2 e3 e4 ⊢
  constructor
  · rintro ⟨⟨a1, a2, a3, a4⟩, b1, b2, b3, b4⟩
    have hnot : ¬ (r.max_ret + r.min_ret + r.def_ret + r.step_ret < 0) := by
      rw [a1, a2, a3, a4]; decide
    have hnos : ¬ (id = NO_DATA_AVAILABLE ∨ r.max = NO_DATA_AVAILABLE ∨
        r.min = NO_DATA_AVAILABLE ∨ r.dflt = NO_DATA_AVAILABLE ∨
        r.step = NO_DATA_AVAILABLE) := by
      rintro (h | h | h | h | h)
      exacts [hid h, b1 h, b2 h, b3 h, b4 h]
    rw [if_neg hnot, if_neg hnos] at hret
    rw [hret]
    obtain ⟨j, hj, ⟨c, hc, hpc⟩, _⟩ := first_match_some _ _ _ _ hfm
    rw [Nat.zero_add] at hj
    subst hj
    have hcid : c.id = id := by simpa using hpc
    simp only [v4l2_ctrl_modify_range]
    refine ⟨⟨c, _, hc, modify_range_at_getElem _ _ _ _ _ _ _ hc, rfl, rfl, rfl, rfl, hcid, rfl⟩,
      fun j hj => modify_range_at_other _ _ _ _ _ _ _ hj⟩
  · intro hnu
    by_cases hlt : r.max_ret + r.min_ret + r.def_ret + r.step_ret < 0
    · rw [if_pos hlt] at hret; exact hret
    · rw [if_neg hlt] at hret
      by_cases hs : id = NO_DATA_AVAILABLE ∨ r.max = NO_DATA_AVAILABLE ∨
          r.min = NO_DATA_AVAILABLE ∨ r.dflt = NO_DATA_AVAILABLE ∨
          r.step = NO_DATA_AVAILABLE
      · rw [if_pos hs] at hret; exact hret
      · exfalso
        apply hnu
        refine ⟨⟨?_, ?_, ?_, ?_⟩, ?_, ?_, ?_, ?_⟩
        · rcases e1 with h | h <;> rcases e2 with h' | h' <;> rcases e3 with h'' | h'' <;>
            rcases e4 with h''' | h''' <;> first | exact h | (exfalso; omega)
        · rcases e1 with h | h <;> rcases e2 with h' | h' <;> rcases e3 with h'' | h'' <;>
            rcases e4 with h''' | h''' <;> first | exact h' | (exfalso; omega)
        · rcases e1 with h | h <;> rcases e2 with h' | h' <;> rcases e3 with h'' | h'' <;>
            rcases e4 with h''' | h''' <;> first | exact h'' | (exfalso; omega)
        · rcases e1 with h | h <;> rcases e2 with h' | h' <;> rcases e3 with h'' | h'' <;>
            rcases e4 with h''' | h''' <;> first | exact h''' | (exfalso; omega)
        · exact fun h => hs (Or.inr (Or.inl h))
        · exact fun h => hs (Or.inr (Or.inr (Or.inl h)))
        · exact fun h => hs (Or.inr (Or.inr (Or.inr (Or.inl h))))
        · exact fun h => hs (Or.inr (Or.inr (Or.inr (Or.inr h))))

/-- Witness of C18: the horizontal blanking control of a device answering the range
1..100, default 10, step 1. -/
theorem update_control_range_witness :
    ∃ r p w1 c1, update_control (ctrlEnv hblankDev) hblankSession V4L2_CID_HBLANK
        (freshBus 0) = some (r, p, w1) ∧ p.ctrls[0]? = some c1 ∧
      c1.minimum = 1 ∧ c1.maximum = 100 ∧ c1.step = 1 ∧ c1.default_value = 10 := by
  obtain ⟨r, p, w1, hcall, h⟩ := update_control_range (ctrlEnv hblankDev) hblankSession
    V4L2_CID_HBLANK 0 (freshBus 0) (by decide) (by decide)
  have hu : (update_control_reads (ctrlEnv hblankDev) (freshBus 0) V4L2_CID_HBLANK).usable := by
    unfold range_reads.usable
    decide!
  have hv : (update_control_reads (ctrlEnv hblankDev) (freshBus 0) V4L2_CID_HBLANK).min = 1 ∧
      (update_control_reads (ctrlEnv hblankDev) (freshBus 0) V4L2_CID_HBLANK).max = 100 ∧
      (update_control_reads (ctrlEnv hblankDev) (freshBus 0) V4L2_CID_HBLANK).step = 1 ∧
      (update_control_reads (ctrlEnv hblankDev) (freshBus 0) V4L2_CID_HBLANK).dflt = 10 := by
    decide!
  obtain ⟨⟨c, c1, _, hc1, hmin, hmax, hstep, hdef, _, _⟩, _⟩ := h.1 hu
  rw [hv.1] at hmin
  rw [hv.2.1] at hmax
  rw [hv.2.2.1] at hstep
  rw [hv.2.2.2] at hdef
  exact ⟨r, p, w1, c1, hcall, hc1, by simpa using hmin, by simpa using hmax, hstep,
    by simpa using hdef⟩

/-- C14: on a device whose value register answers a fixed function `f` of the index last
written, first the sentinel at index `n`, and whose transfers all succeed,
`arducam_get_length_of_set` ends (within any `fuel` above `n`), makes exactly the
transfers index write and value read for 0, 1, ..., `n` in that order followed by the
reset write of 0, and returns `n`; for `n = 0` this is the count 0, not an error. -/
theorem get_length_of_set_walk {σ : Type} (e : Env σ) (idx_reg val_reg : Reg)
    (cursor : σ → Nat) (inv : σ → Prop) (f : Nat → Nat) (n fuel : Nat) (w : Bus σ)
    (hdev : indexed_device e idx_reg cursor inv) (hans : answers e cursor inv val_reg f)
    (hw : inv w.dev) (hn : n < 2 ^ 31)
    (hlt : ∀ k, k < n → f k % 2 ^ 32 ≠ NO_DATA_AVAILABLE)
    (hat : f n % 2 ^ 32 = NO_DATA_AVAILABLE) (hfuel : n < fuel) :
    ∃ w1, arducam_get_length_of_set e fuel w idx_reg val_reg = some ((n : Int), w1) ∧
      w1.log = w.log ++ walk_log idx_reg val_reg f n := by
  have hn32 : n < 2 ^ 32 := Nat.lt_trans hn (by decide)
  obtain ⟨w1, h1, hlog⟩ := length_of_set_loop_walk hdev hans n hn32 hlt hat n 0 fuel 0 w
    (Nat.zero_add n) hfuel hw
  refine ⟨w1, h1, ?_⟩
  rw [hlog, walk_log, List.range_eq_range', List.append_assoc]

/-- Witness of C14: the count walk over the pixel formats of the device of the scenario
(two formats, `n = 2`) and of a device without a format (`n = 0`, count 0). -/
theorem get_length_of_set_walk_witness :
    (∃ w1, arducam_get_length_of_set (tableEnv scenarioDev) 3 (freshBus ⟨0, 0⟩)
        Reg.PIXFORMAT_INDEX_REG Reg.PIXFORMAT_TYPE_REG = some (2, w1) ∧
      w1.log =
        [BusOp.write Reg.PIXFORMAT_INDEX_REG 0 true, BusOp.read Reg.PIXFORMAT_TYPE_REG (some 0x2A),
         BusOp.write Reg.PIXFORMAT_INDEX_REG 1 true, BusOp.read Reg.PIXFORMAT_TYPE_REG (some 0x2B),
         BusOp.write Reg.PIXFORMAT_INDEX_REG 2 true,
         BusOp.read Reg.PIXFORMAT_TYPE_REG (some NO_DATA_AVAILABLE),
         BusOp.write Reg.PIXFORMAT_INDEX_REG 0 true]) ∧
    (∃ w1, arducam_get_length_of_set (tableEnv noFormatDev) 1 (freshBus ⟨0, 0⟩)
        Reg.PIXFORMAT_INDEX_REG Reg.PIXFORMAT_TYPE_REG = some (0, w1) ∧
      w1.log =
        [BusOp.write Reg.PIXFORMAT_INDEX_REG 0 true,
         BusOp.read Reg.PIXFORMAT_TYPE_REG (some NO_DATA_AVAILABLE),
         BusOp.write Reg.PIXFORMAT_INDEX_REG 0 true]) := by
  constructor
  · obtain ⟨w1, h1, hlog⟩ := get_length_of_set_walk (tableEnv scenarioDev)
      Reg.PIXFORMAT_INDEX_REG Reg.PIXFORMAT_TYPE_REG _ _ _ 2 3 (freshBus ⟨0, 0⟩)
      (tableEnv_pixformat_indexed scenarioDev) (tableEnv_type_answers scenarioDev) trivial
      (by decide) (by decide) (by decide) (by decide)
    exact ⟨w1, h1, by rw [hlog]; rfl⟩
  · obtain ⟨w1, h1, hlog⟩ := get_length_of_set_walk (tableEnv noFormatDev)
      Reg.PIXFORMAT_INDEX_REG Reg.PIXFORMAT_TYPE_REG _ _ _ 0 1 (freshBus ⟨0, 0⟩)
      (tableEnv_pixformat_indexed noFormatDev) (tableEnv_type_answers noFormatDev) trivial
      (by decide) (by decide) (by decide) (by decide)
    exact ⟨w1, h1, by rw [hlog]; rfl⟩

/-- C20: on a device whose width and height answers are fixed functions of the index last
written to the resolution-index register and whose transfers all succeed, whenever the
count pass of `arducam_enum_resolution` returns `num`, the count is not negative, the
fill pass run with an allocation of `num` entries returns 0 and makes every store inside
the allocation (the loop never meets a store with no room left), and the number of
entries it stored, the `num_resolution_set` of the format, is at most `num`. -/
theorem enum_resolution_fill_within_count {σ : Type} (e : Env σ) (cursor : σ → Nat)
    (inv : σ → Prop) (fw fh : Nat → Nat) (fuel : Nat) (w : Bus σ) (format : arducam_format)
    (num : Int) (w1 : Bus σ)
    (hdev : indexed_device e Reg.RESOLUTION_INDEX_REG cursor inv)
    (hw : answers e cursor inv Reg.FORMAT_WIDTH_REG fw)
    (hh : answers e cursor inv Reg.FORMAT_HEIGHT_REG fh) (hinv : inv w.dev)
    (hcount : arducam_get_length_of_set e fuel w Reg.RESOLUTION_INDEX_REG
      Reg.FORMAT_WIDTH_REG = some (num, w1)) :
    0 ≤ num ∧
    (∃ set w2, enum_resolution_loop e num.toNat 0 0 0 [] w1 = some (0, set, w2) ∧
      (set.length : Int) ≤ num) ∧
    ∃ format1 w2, arducam_enum_resolution e fuel w format = some (0, format1, w2) ∧
      (format1.num_resolution_set : Int) ≤ num := by
  obtain ⟨n, hn, _, hsn, hinv1⟩ := length_of_set_loop_sentinel hdev hw fuel 0 0 w num w1 hinv
    hcount
  subst hn
  obtain ⟨set, w2, h2, hlen⟩ := enum_resolution_loop_bounded hdev hw hh n hsn n 0 0 0 [] w1
    (Nat.zero_add n) hinv1
  simp only [List.length_nil, Nat.zero_add] at hlen
  have hnn : ¬ ((n : Int) < 0) := by omega
  refine ⟨by omega, ⟨set, w2, by simpa using h2, by exact_mod_cast hlen⟩, ?_⟩
  refine ⟨{ format with resolution_set := set }, w2, ?_, ?_⟩
  · unfold arducam_enum_resolution
    rw [hcount]
    simp only [hnn, if_false, Int.toNat_ofNat, h2]
    rfl
  · simp only [arducam_format.num_resolution_set]
    exact_mod_cast hlen

/-- Witness of C20: the resolution pass of format 0 of the device of the scenario, whose
count pass returns 1. -/
theorem enum_resolution_fill_within_count_witness :
    ∃ format1 w2, arducam_enum_resolution (tableEnv scenarioDev) 3 (freshBus ⟨0, 0⟩)
        { index := 0, mbus_code := 0, bayer_order := 0, data_type := 0x2A,
          resolution_set := [] } = some (0, format1, w2) ∧
      (format1.num_resolution_set : Int) ≤ 1 := by
  have h : (arducam_get_length_of_set (tableEnv scenarioDev) 3 (freshBus ⟨0, 0⟩)
      Reg.RESOLUTION_INDEX_REG Reg.FORMAT_WIDTH_REG).map (fun r => r.1) = some 1 := by decide!
  obtain ⟨⟨num, w1⟩, hc, hnum⟩ := Option.map_eq_some'.1 h
  simp only at hnum
  subst hnum
  exact (enum_resolution_fill_within_count (tableEnv scenarioDev) _ _ _ _ 3 (freshBus ⟨0, 0⟩)
    { index := 0, mbus_code := 0, bayer_order := 0, data_type := 0x2A, resolution_set := [] }
    1 w1 (tableEnv_resolution_indexed scenarioDev 0) (tableEnv_width_answers scenarioDev 0)
    (tableEnv_height_answers scenarioDev 0) rfl hc).2.2

/-- C11: an `arducam_set_stream` call whose argument equals the streaming flag of the
session (1 when it streams, 0 when it does not) returns 0, makes no register transfer
and leaves the whole session as it was, whatever `pm_runtime_get_sync` would return; in
particular, after a `set_stream(1)` call that returned 0, a second `set_stream(1)` call
returns 0 and changes neither the session nor the bus. -/
theorem set_stream_idempotent {σ : Type} (e : Env σ) (priv : arducam) (enable pm : Int)
    (w : Bus σ) :
    ((if priv.streaming then (1 : Int) else 0) = enable →
      arducam_set_stream e priv enable pm w = some (0, priv, w)) ∧
    (∀ (p : arducam) (w1 : Bus σ), arducam_set_stream e priv 1 pm w = some (0, p, w1) →
      ∀ pm1, arducam_set_stream e p 1 pm1 w1 = some (0, p, w1)) := by
  have hnoop : ∀ (p : arducam) (en q : Int) (b : Bus σ),
      (if p.streaming then (1 : Int) else 0) = en →
      arducam_set_stream e p en q b = some (0, p, b) := by
    intro p en q b h
    unfold arducam_set_stream
    rw [if_pos h]
  refine ⟨hnoop priv enable pm w, ?_⟩
  intro p w1 hcall pm1
  apply hnoop
  have hst : p.streaming = true := by
    rcases (set_stream_cases e priv p 1 pm w w1 0 hcall).2 with ⟨_, _, hs, hor⟩ | ⟨_, q, hq⟩
    · rcases hor with hne | heq
      · exact absurd rfl hne
      · rw [hs]
        by_cases hb : priv.streaming = true
        · exact hb
        · rw [if_neg hb] at heq
          exact absurd heq (by decide)
    · rw [hq]
      rfl
  rw [hst]
  rfl

/-- Witness of C11: the scenario session with both flip controls on the device of the
scenario; the first `set_stream(1)` returns 0, the second changes nothing. -/
theorem set_stream_idempotent_witness :
    ∃ p w1,
      arducam_set_stream scenarioFlipEnv (flipSession scenarioFormats true) 1 0
        (freshBus (⟨0, 0⟩, 0)) = some (0, p, w1) ∧
      arducam_set_stream scenarioFlipEnv p 1 0 w1 = some (0, p, w1) := by
  obtain ⟨ret, p, w1, h⟩ := set_stream_returns scenarioFlipEnv
    (flipSession scenarioFormats true) 1 0 (freshBus (⟨0, 0⟩, 0)) (by decide)
  have hret : ret = 0 := by
    have h2 : (arducam_set_stream scenarioFlipEnv (flipSession scenarioFormats true) 1 0
        (freshBus (⟨0, 0⟩, 0))).map (fun r => r.1) = some 0 := by decide!
    rw [h] at h2
    simpa using h2
  subst hret
  exact ⟨p, w1, h, (set_stream_idempotent scenarioFlipEnv (flipSession scenarioFormats true)
    1 0 (freshBus (⟨0, 0⟩, 0))).2 p w1 h 0⟩

/-- C12: from a session in which both flip controls are non-modifiable (grabbed) exactly
when the streaming flag is set, every `arducam_set_stream` call, whatever it returns,
leaves a session in which both flip controls are non-modifiable exactly when the
streaming flag is set; and the call returns in every session in which the flip pointers
can be read where the batch-apply reads them. -/
theorem set_stream_grab_invariant {σ : Type} (e : Env σ) (priv : arducam) (enable pm : Int)
    (w : Bus σ) (hinv : flips_grabbed_iff_streaming priv) :
    (flips_readable priv →
      ∃ ret p w1, arducam_set_stream e priv enable pm w = some (ret, p, w1)) ∧
    ∀ (ret : Int) (p : arducam) (w1 : Bus σ),
      arducam_set_stream e priv enable pm w = some (ret, p, w1) →
      flips_grabbed_iff_streaming p := by
  refine ⟨set_stream_returns e priv enable pm w, ?_⟩
  intro ret p w1 hcall
  rcases (set_stream_cases e priv p enable pm w w1 ret hcall).2 with
    ⟨hh, hv, hs, _⟩ | ⟨_, q, hq⟩
  · unfold flips_grabbed_iff_streaming at hinv ⊢
    rw [hh, hv, hs]
    exact hinv
  · rw [hq]
    exact set_stream_commit_invariant q enable

/-- Witness of C12: `set_stream(1)` on the scenario session with both flip controls, which
does not stream and whose flip controls are modifiable; afterwards it streams and both
are grabbed. -/
theorem set_stream_grab_invariant_witness :
    ∃ ret p w1,
      arducam_set_stream scenarioFlipEnv (flipSession scenarioFormats true) 1 0
        (freshBus (⟨0, 0⟩, 0)) = some (ret, p, w1) ∧
      flips_grabbed_iff_streaming p ∧ p.streaming = true ∧
      p.hflip.map (fun c => decide (ctrl_grabbed c)) = some true ∧
      p.vflip.map (fun c => decide (ctrl_grabbed c)) = some true := by
  have hthm := set_stream_grab_invariant scenarioFlipEnv (flipSession scenarioFormats true)
    1 0 (freshBus (⟨0, 0⟩, 0)) (by decide)
  obtain ⟨ret, p, w1, h⟩ := hthm.1 (by decide)
  have h2 : (arducam_set_stream scenarioFlipEnv (flipSession scenarioFormats true) 1 0
      (freshBus (⟨0, 0⟩, 0))).map (fun r => (r.2.1.streaming,
        r.2.1.hflip.map (fun c => decide (ctrl_grabbed c)),
        r.2.1.vflip.map (fun c => decide (ctrl_grabbed c)))) =
      some (true, some true, some true) := by decide!
  rw [h] at h2
  simp only [Option.map_some', Option.some.injEq, Prod.mk.injEq] at h2
  exact ⟨ret, p, w1, h, hthm.2 ret p w1 h, h2.1, h2.2.1, h2.2.2⟩

/-- C13 (code at the failing input): the crop target on the active configuration of a
device that answers the sentinel to the four selection registers.  `arducam_read_sel`
returns `-EINVAL`, `__arducam_get_pad_crop` returns the null pointer, and
`arducam_get_selection` dereferences it (`none`) where the claim has an error return;
on the same device the crop-bounds target, which tests the result of `arducam_read_sel`,
returns `-EINVAL` and leaves the selection as it was. -/
theorem get_selection_crop_null_dereference :
    (arducam_read_sel (tableEnv scenarioDev) (freshBus ⟨0, 0⟩) zeroRect).1 = -EINVAL ∧
    (arducam_get_pad_crop (tableEnv scenarioDev) zeroSession zeroRect
      V4L2_SUBDEV_FORMAT_ACTIVE (freshBus ⟨0, 0⟩)).1 = none ∧
    arducam_get_selection (tableEnv scenarioDev) zeroSession zeroRect
      { which := V4L2_SUBDEV_FORMAT_ACTIVE, pad := IMAGE_PAD, target := V4L2_SEL_TGT_CROP,
        r := zeroRect } zeroRect (freshBus ⟨0, 0⟩) = none ∧
    (arducam_get_selection (tableEnv scenarioDev) zeroSession zeroRect
      { which := V4L2_SUBDEV_FORMAT_ACTIVE, pad := IMAGE_PAD,
        target := V4L2_SEL_TGT_CROP_BOUNDS, r := zeroRect } zeroRect
      (freshBus ⟨0, 0⟩)).map (fun r => (r.1, r.2.1.r)) = some (-EINVAL, zeroRect) := by
  refine ⟨by decide!, by decide!, by decide!, by decide!⟩

/-- C17 (code at the failing input): a device without a pixel format on a bus that fails
both attempts of the index write of the fill pass (transfers 4 and 5) and no other
transfer.  The loop tests the data type for the sentinel before it tests `ret`, so the
failed write is dropped: `arducam_enum_pixformat` returns 0, not `-ENODEV`, and
publishes the empty format table (the transfers are listed in the order made).  The
count walk, which tests `ret` first, returns `-1` when the same write fails.  The same
order of tests lets a failed data-type read at index 0 end the pass with success when
the unassigned local `pixformat_type` happens to hold the sentinel: on the device of the
scenario (two formats) with transfers 9 to 11 failing, the pass returns 0 and publishes
no format. -/
theorem enum_pixformat_drops_failed_index_write :
    (arducam_enum_pixformat
        (flakyEnv (tableEnv noFormatDev) (fun k => decide (k = 4 ∨ k = 5))) 8
        zeroSession zeroLocals (freshBus (⟨0, 0⟩, 0))).map
      (fun r => (r.1, r.2.1.supported_formats, r.2.2.log)) =
    some (0, [],
      [BusOp.write Reg.PIXFORMAT_INDEX_REG 0 true,
       BusOp.read Reg.PIXFORMAT_TYPE_REG (some NO_DATA_AVAILABLE),
       BusOp.write Reg.PIXFORMAT_INDEX_REG 0 true,
       BusOp.read Reg.FLIPS_DONT_CHANGE_ORDER_REG (some 1),
       BusOp.write Reg.PIXFORMAT_INDEX_REG 0 false,
       BusOp.write Reg.PIXFORMAT_INDEX_REG 0 false,
       BusOp.read Reg.PIXFORMAT_TYPE_REG (some NO_DATA_AVAILABLE),
       BusOp.write Reg.PIXFORMAT_INDEX_REG 0 true]) ∧
    (arducam_get_length_of_set
        (flakyEnv (tableEnv noFormatDev) (fun k => decide (k = 0 ∨ k = 1))) 8
        (freshBus (⟨0, 0⟩, 0)) Reg.PIXFORMAT_INDEX_REG Reg.PIXFORMAT_TYPE_REG).map
      (fun r => (r.1, r.2.log)) =
    some (-1,
      [BusOp.write Reg.PIXFORMAT_INDEX_REG 0 false, BusOp.write Reg.PIXFORMAT_INDEX_REG 0 false,
       BusOp.read Reg.PIXFORMAT_TYPE_REG (some NO_DATA_AVAILABLE)]) ∧
    (arducam_enum_pixformat
        (flakyEnv (tableEnv scenarioDev) (fun k => decide (9 ≤ k ∧ k ≤ 11))) 8
        zeroSession { zeroLocals with pixformat_type := NO_DATA_AVAILABLE }
        (freshBus (⟨0, 0⟩, 0))).map
      (fun r => (r.1, r.2.1.supported_formats)) = some (0, []) := by
  refine ⟨by decide!, by decide!, by decide!⟩

/-- C19 (code at the failing input): a device reporting 33 controls.  The creation loop
of `arducam_enum_controls` has no test of `index` against the 32 entries of `ctrls`: on
a device with 32 controls it returns 0 with all 32 entries of the table bound, and on
the device with 33 it makes a store at index 32, past the table (`none`). -/
theorem enum_controls_store_past_table :
    (arducam_enum_controls (ctrlEnv (manyCtrlDev 32)) 40 zeroSession zeroCtrlLocals callsOk
      (freshBus 0)).map (fun r => (r.1, r.2.1.ctrls.length)) = some (0, ctrls_capacity) ∧
    (arducam_get_length_of_set (ctrlEnv (manyCtrlDev 33)) 40 (freshBus 0) Reg.CTRL_INDEX_REG
      Reg.CTRL_ID_REG).map (fun r => r.1) = some 33 ∧
    arducam_enum_controls (ctrlEnv (manyCtrlDev 33)) 40 zeroSession zeroCtrlLocals callsOk
      (freshBus 0) = none := by
  refine ⟨by decide!, by decide!, by decide!⟩

/-- Counterexample to C16: the count walk over the pixel formats of the device of the
scenario on a bus that fails every transfer from the fourth on.  The read at index 1
fails after its three attempts, the walk returns `-1`, and its last write to the index
register is the value 1: the failure exit makes no reset write.  The pixel-format pass
built on it returns `-ENODEV` with the same last write. -/
theorem get_length_of_set_failure_no_reset :
    (arducam_get_length_of_set (flakyEnv (tableEnv scenarioDev) (fun k => decide (3 ≤ k))) 8
        (freshBus (⟨0, 0⟩, 0)) Reg.PIXFORMAT_INDEX_REG Reg.PIXFORMAT_TYPE_REG).map
      (fun r => (r.1, r.2.log)) =
    some (-1,
      [BusOp.write Reg.PIXFORMAT_INDEX_REG 0 true, BusOp.read Reg.PIXFORMAT_TYPE_REG (some 0x2A),
       BusOp.write Reg.PIXFORMAT_INDEX_REG 1 true, BusOp.read Reg.PIXFORMAT_TYPE_REG none,
       BusOp.read Reg.PIXFORMAT_TYPE_REG none, BusOp.read Reg.PIXFORMAT_TYPE_REG none]) ∧
    (arducam_enum_pixformat (flakyEnv (tableEnv scenarioDev) (fun k => decide (3 ≤ k))) 8
        zeroSession zeroLocals (freshBus (⟨0, 0⟩, 0))).map
      (fun r => (r.1, last_write Reg.PIXFORMAT_INDEX_REG r.2.2.log)) =
    some (-ENODEV, some 1) := by
  refine ⟨by decide!, by decide!⟩

/-- C16 (amended): for every device and each enumeration pass (count walk, resolution
pass, pixel-format pass, control pass), when the pass returns success the last write it
made to its index register is the value 0. -/
theorem enum_passes_reset_on_success {σ : Type} (e : Env σ) (fuel : Nat) (w w1 : Bus σ) :
    (∀ (idx_reg val_reg : Reg) (n : Int),
      arducam_get_length_of_set e fuel w idx_reg val_reg = some (n, w1) → 0 ≤ n →
      last_write idx_reg w1.log = some 0) ∧
    (∀ (format format1 : arducam_format),
      arducam_enum_resolution e fuel w format = some (0, format1, w1) →
      last_write Reg.RESOLUTION_INDEX_REG w1.log = some 0) ∧
    (∀ (priv priv1 : arducam) (locals : enum_pixformat_locals),
      arducam_enum_pixformat e fuel priv locals w = some (0, priv1, w1) →
      last_write Reg.PIXFORMAT_INDEX_REG w1.log = some 0) ∧
    (∀ (priv priv1 : arducam) (locals : enum_controls_locals) (calls : enum_controls_calls),
      arducam_enum_controls e fuel priv locals calls w = some (0, priv1, w1) →
      last_write Reg.CTRL_INDEX_REG w1.log = some 0) := by
  refine ⟨?_, ?_, ?_, ?_⟩
  · intro idx_reg val_reg n h hn
    exact (length_of_set_loop_last e idx_reg val_reg fuel 0 0 w n w1 h hn).1
  · intro format format1 h
    exact enum_resolution_last e fuel w format format1 0 w1 h rfl
  · intro priv priv1 locals h
    exact enum_pixformat_last e fuel priv locals w 0 priv1 w1 h (by decide)
  · intro priv priv1 locals calls h
    exact enum_controls_last e fuel priv locals calls w 0 priv1 w1 h rfl

/-- Witness of C16 (amended): the pixel-format pass on the device of the scenario and the
control pass on a device with three controls, both on a bus without failures. -/
theorem enum_passes_reset_on_success_witness :
    (∃ w1, (arducam_enum_pixformat (tableEnv scenarioDev) 8 zeroSession zeroLocals
        (freshBus ⟨0, 0⟩)).map (fun r => (r.1, r.2.2)) = some (0, w1) ∧
      last_write Reg.PIXFORMAT_INDEX_REG w1.log = some 0) ∧
    (∃ w1, (arducam_enum_controls (ctrlEnv (manyCtrlDev 3)) 8 zeroSession zeroCtrlLocals
        callsOk (freshBus 0)).map (fun r => (r.1, r.2.2)) = some (0, w1) ∧
      last_write Reg.CTRL_INDEX_REG w1.log = some 0) := by
  constructor
  · have h : (arducam_enum_pixformat (tableEnv scenarioDev) 8 zeroSession zeroLocals
        (freshBus ⟨0, 0⟩)).map (fun r => (r.1, r.2.1)) =
        some (0, sessionOf scenarioFormats true) := by decide!
    obtain ⟨w1, h1⟩ := option_triple_of_map _ _ _ h
    refine ⟨w1, by rw [h1]; rfl, ?_⟩
    exact (enum_passes_reset_on_success (tableEnv scenarioDev) 8 (freshBus ⟨0, 0⟩) w1).2.2.1
      zeroSession (sessionOf scenarioFormats true) zeroLocals h1
  · have h : (arducam_enum_controls (ctrlEnv (manyCtrlDev 3)) 8 zeroSession zeroCtrlLocals
        callsOk (freshBus 0)).map (fun r => r.1) = some 0 := by decide!
    obtain ⟨⟨ret, p1, w1⟩, h1, hr⟩ := Option.map_eq_some'.1 h
    simp only at hr
    subst hr
    refine ⟨w1, by rw [h1]; rfl, ?_⟩
    exact (enum_passes_reset_on_success (ctrlEnv (manyCtrlDev 3)) 8 (freshBus 0) w1).2.2.2
      zeroSession p1 zeroCtrlLocals callsOk h1

/-- C22: for every session and request, `arducam_csi2_enum_framesizes` returns 0 exactly
when the pad is the image pad, some format carries the requested code and the index is
below the number of resolutions of the first format carrying it; it then returns that
resolution's width as minimum and maximum width and its height as minimum and maximum
height, the other fields of the request unchanged; every other request, and every
request on the metadata pad, returns `-EINVAL`. -/
theorem enum_framesizes_success_iff (priv : arducam) (fse : v4l2_subdev_frame_size_enum) :
    ((arducam_csi2_enum_framesizes priv fse).1 = 0 ↔
      fse.pad = IMAGE_PAD ∧
      ∃ i f, lowest_index (fun g => g.mbus_code = fse.code) priv.supported_formats i ∧
        priv.supported_formats[i]? = some f ∧ fse.index < f.num_resolution_set) ∧
    (∀ i f, fse.pad = IMAGE_PAD →
      lowest_index (fun g => g.mbus_code = fse.code) priv.supported_formats i →
      priv.supported_formats[i]? = some f → fse.index < f.num_resolution_set →
      ∃ r, f.resolution_set[fse.index]? = some r ∧
        (arducam_csi2_enum_framesizes priv fse).2 =
          { fse with min_width := r.width, max_width := r.width,
                     min_height := r.height, max_height := r.height }) ∧
    ((arducam_csi2_enum_framesizes priv fse).1 ≠ 0 →
      (arducam_csi2_enum_framesizes priv fse).1 = -EINVAL) ∧
    (fse.pad = METADATA_PAD → (arducam_csi2_enum_framesizes priv fse).1 = -EINVAL) := by
  have hlow : ∀ i, lowest_index (fun g => g.mbus_code = fse.code) priv.supported_formats i ↔
      fmt_scan_code fse.code priv.supported_formats = some i := by
    intro i
    unfold fmt_scan_code
    constructor
    · intro h
      apply first_match_eq_of_lowest
      simpa [lowest_index] using h
    · intro h
      have := first_match_lowest _ _ _ h
      simpa [lowest_index] using this
  have hE : (-EINVAL : Int) ≠ 0 := by decide
  have himg : ∀ i f, fse.pad = IMAGE_PAD →
      fmt_scan_code fse.code priv.supported_formats = some i →
      priv.supported_formats[i]? = some f → fse.index < f.num_resolution_set →
      ∃ r, f.resolution_set[fse.index]? = some r ∧
        arducam_csi2_enum_framesizes priv fse =
          (0, { fse with min_width := r.width, max_width := r.width,
                         min_height := r.height, max_height := r.height }) := by
    intro i f hpad hscan hf hidx
    have hlen : fse.index < f.resolution_set.length := hidx
    refine ⟨f.resolution_set[fse.index], List.getElem?_eq_getElem hlen, ?_⟩
    unfold arducam_csi2_enum_framesizes
    have h1 : ¬ (IMAGE_PAD ≥ NUM_PADS) := by decide
    have h2 : ¬ (fse.index ≥ f.num_resolution_set) := by omega
    simp only [hpad, h1, if_false, if_true, hscan, hf, h2, List.getElem?_eq_getElem hlen]
  refine ⟨⟨?_, ?_⟩, ?_, ?_, ?_⟩
  · intro h0
    unfold arducam_csi2_enum_framesizes at h0
    by_cases hp : fse.pad ≥ NUM_PADS
    · rw [if_pos hp] at h0
      exact absurd h0 hE
    · rw [if_neg hp] at h0
      by_cases hpad : fse.pad = IMAGE_PAD
      · rw [if_pos hpad] at h0
        refine ⟨hpad, ?_⟩
        cases hscan : fmt_scan_code fse.code priv.supported_formats with
        | none =>
          rw [hscan] at h0
          exact absurd h0 hE
        | some i =>
          rw [hscan] at h0
          dsimp only at h0
          cases hf : priv.supported_formats[i]? with
          | none =>
            rw [hf] at h0
            exact absurd h0 hE
          | some f =>
            rw [hf] at h0
            dsimp only at h0
            by_cases hidx : fse.index ≥ f.num_resolution_set
            · rw [if_pos hidx] at h0
              exact absurd h0 hE
            · exact ⟨i, f, (hlow i).2 hscan, hf, by omega⟩
      · rw [if_neg hpad] at h0
        split_ifs at h0 <;> exact absurd h0 hE
  · rintro ⟨hpad, i, f, hl, hf, hidx⟩
    obtain ⟨r, _, hr⟩ := himg i f hpad ((hlow i).1 hl) hf hidx
    rw [hr]
  · intro i f hpad hl hf hidx
    obtain ⟨r, hr1, hr⟩ := himg i f hpad ((hlow i).1 hl) hf hidx
    exact ⟨r, hr1, by rw [hr]⟩
  · intro hne
    have hor : (arducam_csi2_enum_framesizes priv fse).1 = 0 ∨
        (arducam_csi2_enum_framesizes priv fse).1 = -EINVAL := by
      unfold arducam_csi2_enum_framesizes
      repeat' split
      all_goals first
        | exact Or.inr rfl
        | exact Or.inl rfl
    exact hor.resolve_left hne
  · intro hpad
    unfold arducam_csi2_enum_framesizes
    have h1 : ¬ (METADATA_PAD ≥ NUM_PADS) := by decide
    have h2 : ¬ (METADATA_PAD = IMAGE_PAD) := by decide
    simp only [hpad, h1, h2, if_false]
    split_ifs <;> rfl

end Arducam
